import Mathlib

/-!
# Data access layer of the resource catalog: query pipeline

A shallow embedding of `src/services/FileDataProvider.js`,
`src/services/HttpDataProvider.js`, `src/services/DataService.js` and the tables
of `src/config/apiConfig.js`: the constructors, `filterData`, `sortData`,
`paginateData`, `getResources`, `getResourceById`, `getResourceCount`,
`healthCheck`, `makeRequest` and the methods of the `DataService` facade,
together with the parts of the JavaScript runtime those functions call (string
methods, `Array.prototype.slice`, `Array.prototype.sort`, `Date`, loose
equality, `fetch`).

Conventions of the embedding.

* A JavaScript string is a Lean `String`; the string methods work on its list of
  characters.  `toLowerCase` maps the ASCII letters and leaves every other
  character unchanged, which is what the engine does on a string of ASCII
  characters (`isAscii`).
* A JavaScript number is an `Int` (the integer-valued numbers a JSON file can
  hold); a numeric result that may be `NaN` is an `Option Int` with `none` for
  `NaN`.  Printing a number is exact for the safe integers (`isSafeInteger`),
  and a string compared with a number is rounded to a double as `ToNumber`
  rounds it.
* A record is read through its own properties, and nested arrays and objects as
  field values are outside the embedding.  The lookups in the registry of the
  file provider and in the endpoint table do see the property names that every
  object inherits from `Object.prototype` (`constructor`, `toString`, ...).
* A statement that depends on how a value is printed or lower-cased, or on a
  field name not being an inherited one, says so in its hypotheses.
* A thrown `Error` is `Except.error` carrying the message.
* The promise returned by an `async` method is identified with its outcome; the
  simulated delay and the logging do not take part in the result.  What is
  awaited and what is written to the console are given apart, by `simulateDelay`
  and by `getResourcesLogged`.
-/

namespace Js

/-! ## Strings -/

/-- White space and line terminators of ECMAScript, the characters removed by
`String.prototype.trim` and matched by the regular-expression class `\s`. -/
def isWhiteSpace (c : Char) : Bool :=
  let n := c.toNat
  n = 0x09 || n = 0x0A || n = 0x0B || n = 0x0C || n = 0x0D || n = 0x20 || n = 0xA0 ||
  n = 0x1680 || (0x2000 ≤ n && n ≤ 0x200A) || n = 0x2028 || n = 0x2029 || n = 0x202F ||
  n = 0x205F || n = 0x3000 || n = 0xFEFF

/-- The characters of a string without its leading and trailing white space. -/
def trimChars (cs : List Char) : List Char :=
  ((cs.dropWhile isWhiteSpace).reverse.dropWhile isWhiteSpace).reverse

/-- `String.prototype.trim`. -/
def trim (s : String) : String := ⟨trimChars s.data⟩

/-- `String.prototype.toLowerCase` (ASCII case mapping). -/
def toLowerCase (s : String) : String := ⟨s.data.map Char.toLower⟩

/-- Whether the first list of characters starts the second one. -/
def startsWithChars : List Char → List Char → Bool
  | [], _ => true
  | _ :: _, [] => false
  | p :: ps, c :: cs => p == c && startsWithChars ps cs

/-- Whether `sub` occurs in `cs` as a contiguous block. -/
def includesChars (cs sub : List Char) : Bool :=
  match cs with
  | [] => startsWithChars sub []
  | c :: rest => startsWithChars sub (c :: rest) || includesChars rest sub

/-- `String.prototype.includes`: `includes s sub` is `s.includes(sub)`. -/
def includes (s sub : String) : Bool := includesChars s.data sub.data

/-! ## Values and records -/

/-- The values a record field can hold: the JSON scalars, and `undefined` for a
field the record does not have. -/
inductive Value where
  | null : Value
  | undefined : Value
  | bool (b : Bool) : Value
  | num (n : Int) : Value
  | str (s : String) : Value
  deriving DecidableEq, Repr

/-- The results of the `typeof` operator on a `Value`. -/
inductive TypeTag where
  | object | undefined | boolean | number | string
  deriving DecidableEq, Repr

/-- The `typeof` operator (`typeof null` is `"object"`). -/
def typeof : Value → TypeTag
  | .null => .object
  | .undefined => .undefined
  | .bool _ => .boolean
  | .num _ => .number
  | .str _ => .string

/-- Truthiness of a value, as used by `&&`, `||`, `!` and `if`. -/
def truthy : Value → Bool
  | .null => false
  | .undefined => false
  | .bool b => b
  | .num n => n != 0
  | .str s => s != ""

/-- Comparison with `null` by `==`: true of `null` and `undefined` only. -/
def looseEqNull : Value → Bool
  | .null => true
  | .undefined => true
  | _ => false

/-- Decimal digits of a natural number, as `Number.prototype.toString` prints
an integer. -/
def natToString (n : Nat) : String := ⟨Nat.toDigits 10 n⟩

/-- String conversion `String(v)`; on the values that have a `toString` method
(booleans, numbers, strings) it is also `v.toString()`. -/
def toStr : Value → String
  | .null => "null"
  | .undefined => "undefined"
  | .bool true => "true"
  | .bool false => "false"
  | .num (Int.ofNat n) => natToString n
  | .num (Int.negSucc n) => ⟨'-' :: (natToString (n + 1)).data⟩
  | .str s => s

/-- A record: its own properties in the order of `Object.keys`, each listed
once. -/
abbrev Record := List (String × Value)

/-- Property access `item[field]`; `undefined` when the record has no such
property. -/
def Record.get (item : Record) (field : String) : Value :=
  match item with
  | [] => .undefined
  | (k, v) :: rest => if k == field then v else Record.get rest field

/-- `Object.keys(item)`. -/
def Record.keys (item : Record) : List String := item.map Prod.fst

/-- `Number.isSafeInteger(n)`: an integer of magnitude up to `2 ^ 53 - 1`.  Every
safe integer is a Number, and `toString` prints all its decimal digits; from
`2 ^ 53` on not every integer is a Number, and from `1e21` on `toString` prints
an exponent. -/
def isSafeInteger (n : Int) : Bool := n.natAbs ≤ 9007199254740991

/-- Whether every character of the string is an ASCII character.  On such a
string the `toLowerCase` of the engine changes the letters `A` to `Z` and
nothing else, as `toLowerCase` of the embedding does on every string. -/
def isAscii (s : String) : Bool := s.data.all (fun c => c.toNat < 128)

/-- The values that are not a number or are a safe integer: on them `toStr` and
the comparison of numbers in the embedding are those of the engine. -/
def Value.isSafe : Value → Bool
  | .num n => isSafeInteger n
  | _ => true

/-- The field values that the embedding prints and lower-cases as the engine
does: strings of ASCII characters, safe integers, booleans, `null` and
`undefined`. -/
def Value.isPlain : Value → Bool
  | .str s => isAscii s
  | v => v.isSafe

/-- A record whose keys are distinct, as the keys of an object are, and whose
values are plain. -/
def Record.isPlain (item : Record) : Bool :=
  decide (item.map Prod.fst).Nodup && item.all (fun property => property.2.isPlain)

/-! ## Arrays -/

/-- `Array.prototype.slice(start, end)` for integer arguments: a negative index
counts from the end of the array, and both are clamped to the array. -/
def slice {α : Type} (xs : List α) (start stop : Int) : List α :=
  let len : Int := xs.length
  let k : Int := if start < 0 then max (len + start) 0 else min start len
  let fin : Int := if stop < 0 then max (len + stop) 0 else min stop len
  (xs.drop k.toNat).take (fin - k).toNat

/-- `Math.ceil(a / b)` for integers `a` and `b`; `none` when `b` is zero, where
the quotient is `Infinity` or `NaN`. -/
def ceilDiv (a b : Int) : Option Int :=
  if b = 0 then none else some (-(Int.fdiv (-a) b))

/-! ## The host: collation, dates and time zone -/

/-- The services of the host that the program calls and that depend on the
engine or on its settings.  `localeCompare a b` is `a.localeCompare(b)`;
`dateParse s` is `new Date(s).getTime()` for a string `s`, with `none` for the
`NaN` of an invalid date; `utc t` is the conversion `UTC(t)` of a local time
value to a UTC time value in the time zone of the host. -/
structure Runtime where
  localeCompare : String → String → Int
  dateParse : String → Option Int
  utc : Int → Int

/-- `parseInt` on a list of decimal digits. -/
def parseDigits (ds : List Char) : Nat :=
  ds.foldl (fun acc d => 10 * acc + (d.toNat - '0'.toNat)) 0

/-- Number of days from 1 January 1970 to the first day of month `month`
(0 = January .. 11 = December) of year `year` in the proleptic Gregorian
calendar. -/
def dayOfMonthStart (year : Int) (month : Nat) : Int :=
  let y : Int := if month < 2 then year - 1 else year
  let era : Int := Int.fdiv y 400
  let yoe : Int := y - era * 400
  let mp : Int := ((month + 10) % 12 : Nat)
  let doy : Int := (153 * mp + 2) / 5
  let doe : Int := yoe * 365 + yoe / 4 - yoe / 100 + doy
  era * 146097 + doe - 719468

/-- `MakeDay(year, month, date)` of ECMAScript: a month outside 0..11 carries
into the year, and the day of the month is added as a plain offset. -/
def makeDay (year month date : Int) : Int :=
  let ym := year + Int.fdiv month 12
  let mn := (Int.fmod month 12).toNat
  dayOfMonthStart ym mn + date - 1

/-- `MakeTime(hour, min, 0, 0)` of ECMAScript, in milliseconds. -/
def makeTime (hour minute : Int) : Int := hour * 3600000 + minute * 60000

/-- `TimeClip` of ECMAScript: a time value beyond 8.64e15 milliseconds from the
epoch is `NaN`. -/
def timeClip (t : Int) : Option Int :=
  if t.natAbs > 8640000000000000 then none else some t

/-- The time value of `new Date(year, month, day, hour, minute)`: a year in
0..99 stands for 1900 + year, the fields are read as local time. -/
def dateFromFields (rt : Runtime) (year month day hour minute : Int) : Option Int :=
  let yr := if 0 ≤ year ∧ year ≤ 99 then 1900 + year else year
  timeClip (rt.utc (makeDay yr month day * 86400000 + makeTime hour minute))

/-! ## `Array.prototype.sort`

ECMAScript requires a stable sort and fixes its result only for a comparator
that is consistent on the elements; for any other comparator the order is left
to the engine.  The procedure below is the one V8 runs on an array of fewer than
64 elements (`CountAndMakeRun` followed by `BinaryInsertionSort` in
`third_party/v8/builtins/array-sort.tq`), used here for every length: with a
consistent comparator it returns what every conforming engine returns. -/

/-- The number the sort reads from a comparator result: `NaN` counts as `0`. -/
def sortOrder (r : Option Int) : Int := r.getD 0

/-- Number of elements after `prev` that continue the run: while ascending each
element is not less than the one before it, while descending each is strictly
less. -/
def runTail {α : Type} (cmp : α → α → Int) (isDescending : Bool) : α → List α → Nat
  | _, [] => 0
  | prev, cur :: rest =>
    let order := cmp cur prev
    if isDescending then
      if order ≥ 0 then 0 else runTail cmp isDescending cur rest + 1
    else
      if order < 0 then 0 else runTail cmp isDescending cur rest + 1

/-- `CountAndMakeRun`: the initial run, reversed in place when it is strictly
descending, and the elements after it. -/
def countAndMakeRun {α : Type} (cmp : α → α → Int) : List α → List α × List α
  | [] => ([], [])
  | [a] => ([a], [])
  | a :: b :: rest =>
    let isDescending : Bool := cmp b a < 0
    let runLength := runTail cmp isDescending b rest + 2
    let run := (a :: b :: rest).take runLength
    (if isDescending then run.reverse else run, (a :: b :: rest).drop runLength)

/-- The binary search of `BinaryInsertionSort` for the insertion point of
`pivot` in `work[left, right)`.  Each round halves the interval, so `fuel` at
least `right - left` lets the loop run to its end. -/
def insertionPoint {α : Type} (cmp : α → α → Int) (pivot : α) (work : List α) :
    Nat → Nat → Nat → Nat
  | 0, left, _ => left
  | fuel + 1, left, right =>
    if left < right then
      let mid := left + (right - left) / 2
      match work[mid]? with
      | none => left
      | some m =>
        if cmp pivot m < 0 then insertionPoint cmp pivot work fuel left mid
        else insertionPoint cmp pivot work fuel (mid + 1) right
    else left

/-- Moving the elements from `left` on one place up and storing `pivot` at
`left`. -/
def insertAt {α : Type} (work : List α) (left : Nat) (pivot : α) : List α :=
  work.take left ++ pivot :: work.drop left

/-- `BinaryInsertionSort`: `sorted` is the part already in order, the elements
of the second list are inserted one after the other. -/
def binaryInsertionSort {α : Type} (cmp : α → α → Int) : List α → List α → List α
  | sorted, [] => sorted
  | sorted, pivot :: rest =>
    binaryInsertionSort cmp
      (insertAt sorted (insertionPoint cmp pivot sorted sorted.length 0 sorted.length) pivot)
      rest

/-- `Array.prototype.sort(comparefn)` on a copy of the array. -/
def arraySort {α : Type} (comparefn : α → α → Option Int) (xs : List α) : List α :=
  let cmp := fun a b => sortOrder (comparefn a b)
  let (run, rest) := countAndMakeRun cmp xs
  binaryInsertionSort cmp run rest

/-- A comparator that is consistent on the elements of `xs`, the condition under
which ECMAScript fixes the result of `sort`: exchanging the arguments exchanges
"less" and "greater", and "not greater" is transitive. -/
def ConsistentOn {α : Type} (cmp : α → α → Int) (xs : List α) : Prop :=
  (∀ a ∈ xs, ∀ b ∈ xs, (cmp a b < 0 ↔ 0 < cmp b a)) ∧
  (∀ a ∈ xs, ∀ b ∈ xs, ∀ c ∈ xs, cmp a b ≤ 0 → cmp b c ≤ 0 → cmp a c ≤ 0)

/-! ## Objects, errors and loose equality -/

/-- The property names that an object literal inherits from `Object.prototype`;
reading one of them from an object that has no own property of that name gives
a function (or, for `__proto__`, the prototype object), which is truthy. -/
def inheritedKeys : List String :=
  ["constructor", "__proto__", "hasOwnProperty", "isPrototypeOf", "propertyIsEnumerable",
   "toLocaleString", "toString", "valueOf", "__defineGetter__", "__defineSetter__",
   "__lookupGetter__", "__lookupSetter__"]

/-- String conversion of an inherited member, as V8 prints it (`Object` for
`constructor`, the prototype object for `__proto__`, a native function
otherwise). -/
def inheritedToString (key : String) : String :=
  if key == "__proto__" then "[object Object]"
  else if key == "constructor" then "function Object() { [native code] }"
  else "function " ++ key ++ "() { [native code] }"

/-- An error object: its `name` and its `message`. -/
structure JsError where
  name : String
  message : String
  deriving DecidableEq, Repr

/-- `new Error(message)`. -/
def newError (message : String) : JsError := { name := "Error", message := message }

/-- A numeric literal read from a string, before it is rounded to a Number:
`mantissa * 10 ^ exponent`. -/
structure Decimal where
  mantissa : Int
  exponent : Int
  deriving DecidableEq, Repr

/-- The value of a digit in a base up to 16, when the character is one. -/
def digitValue (base : Nat) (c : Char) : Option Nat :=
  let v : Option Nat :=
    if c.isDigit then some (c.toNat - '0'.toNat)
    else if 'a'.toNat ≤ c.toNat ∧ c.toNat ≤ 'f'.toNat then some (c.toNat - 'a'.toNat + 10)
    else if 'A'.toNat ≤ c.toNat ∧ c.toNat ≤ 'F'.toNat then some (c.toNat - 'A'.toNat + 10)
    else none
  match v with
  | some d => if d < base then some d else none
  | none => none

/-- The digits of a `0x`, `0o` or `0b` literal as a number: at least one digit,
all of them digits of the base. -/
def parseRadix (base : Nat) (cs : List Char) : Option Nat :=
  match cs with
  | [] => none
  | _ :: _ => cs.foldl (fun acc c =>
      match acc, digitValue base c with
      | some n, some d => some (n * base + d)
      | _, _ => none) (some 0)

/-- The exponent part of a decimal literal, `e` or `E`, an optional sign and at
least one digit up to the end of the string; the empty rest is exponent 0. -/
def parseExponent : List Char → Option Int
  | [] => some 0
  | e :: rest =>
    if e == 'e' || e == 'E' then
      match rest with
      | '+' :: ds => if ds ≠ [] ∧ ds.all Char.isDigit then some (parseDigits ds) else none
      | '-' :: ds => if ds ≠ [] ∧ ds.all Char.isDigit then some (-(parseDigits ds : Int)) else none
      | ds => if ds ≠ [] ∧ ds.all Char.isDigit then some (parseDigits ds) else none
    else none

/-- An unsigned decimal literal: digits, an optional fraction and an optional
exponent, with a digit on at least one side of the point. -/
def parseUnsignedDecimal (cs : List Char) : Option Decimal :=
  let intPart := cs.takeWhile Char.isDigit
  let rest := cs.dropWhile Char.isDigit
  match rest with
  | '.' :: afterPoint =>
    let fracPart := afterPoint.takeWhile Char.isDigit
    if intPart = [] ∧ fracPart = [] then none
    else
      match parseExponent (afterPoint.dropWhile Char.isDigit) with
      | some e => some { mantissa := parseDigits (intPart ++ fracPart),
                         exponent := e - fracPart.length }
      | none => none
  | _ =>
    if intPart = [] then none
    else
      match parseExponent rest with
      | some e => some { mantissa := parseDigits intPart, exponent := e }
      | none => none

/-- The literal that `ToNumber` reads from a string: white space around the
literal is skipped, the empty string is 0, a literal is decimal (with sign,
fraction and exponent) or `0x`, `0o`, `0b`; `none` stands for `NaN` and for the
literals `Infinity`, which equal no finite number.  The rounding of the literal
to a Number is done by `numberEqDecimal`. -/
def stringToNumber (s : String) : Option Decimal :=
  match trimChars s.data with
  | [] => some { mantissa := 0, exponent := 0 }
  | '0' :: 'x' :: ds => (parseRadix 16 ds).map (fun n => { mantissa := n, exponent := 0 })
  | '0' :: 'X' :: ds => (parseRadix 16 ds).map (fun n => { mantissa := n, exponent := 0 })
  | '0' :: 'o' :: ds => (parseRadix 8 ds).map (fun n => { mantissa := n, exponent := 0 })
  | '0' :: 'O' :: ds => (parseRadix 8 ds).map (fun n => { mantissa := n, exponent := 0 })
  | '0' :: 'b' :: ds => (parseRadix 2 ds).map (fun n => { mantissa := n, exponent := 0 })
  | '0' :: 'B' :: ds => (parseRadix 2 ds).map (fun n => { mantissa := n, exponent := 0 })
  | '+' :: ds => parseUnsignedDecimal ds
  | '-' :: ds =>
    (parseUnsignedDecimal ds).map (fun d => { mantissa := -d.mantissa, exponent := d.exponent })
  | ds => parseUnsignedDecimal ds

/-- The exponent of the leading bit: `floorLog2 a = e` when
`2 ^ e ≤ a < 2 ^ (e + 1)`, and 0 for `a = 0`. -/
def floorLog2Aux : Nat → Nat → Nat
  | 0, _ => 0
  | fuel + 1, a => if a < 2 then 0 else floorLog2Aux fuel (a / 2) + 1

/-- The exponent of the leading bit of `a`. -/
def floorLog2 (a : Nat) : Nat := floorLog2Aux a a

/-- Whether `ToNumber` gives the Number `n`, an integer, for the literal `d`.
The literal is rounded to the nearest double, and to the one with the even
significand when it lies halfway between two: so `n` is the result when the
literal lies within half a unit in the last place of `n` (a quarter below a
power of two, where the doubles are twice as dense), the two ends counting when
the significand of `n` is even.  Every literal of magnitude `2 ^ -1075` or less
gives zero.  All quantities are scaled to natural numbers: by `down`, the power
of ten in the denominator of the literal, and by `2 ^ k`. -/
def numberEqDecimal (n : Int) (d : Decimal) : Bool :=
  let up := 10 ^ d.exponent.toNat
  let down := 10 ^ (-d.exponent).toNat
  if n = 0 then decide (d.mantissa.natAbs * up * 2 ^ 1075 ≤ down)
  else if d.mantissa = 0 ∨ ¬ (0 < n ↔ 0 < d.mantissa) then false
  else
    let a := n.natAbs
    let e := floorLog2 a
    let k := 54 - e
    let value := d.mantissa.natAbs * up * 2 ^ k
    let target := a * down * 2 ^ k
    let above := 2 ^ (e + k - 53) * down
    let below := if a = 2 ^ e then 2 ^ (e + k - 54) * down else above
    let significand := if e ≤ 52 then a * 2 ^ (52 - e) else a / 2 ^ (e - 52)
    decide ((target - below < value ∧ value < target + above)
      ∨ (significand % 2 = 0 ∧ (value = target - below ∨ value = target + above)))

/-- Whether the number `n` equals `ToNumber(s)`. -/
def numberEqString (n : Int) (s : String) : Bool :=
  match stringToNumber s with
  | some d => numberEqDecimal n d
  | none => false

/-- Loose equality `a == b` on field values: `null` and `undefined` equal each
other and nothing else, values of one type are compared as they are, a string
against a number is converted by `ToNumber`, and a boolean is first converted
to 0 or 1. -/
def looseEq : Value → Value → Bool
  | .null, .null => true
  | .null, .undefined => true
  | .undefined, .null => true
  | .undefined, .undefined => true
  | .num a, .num b => a == b
  | .str a, .str b => a == b
  | .bool a, .bool b => a == b
  | .num a, .str b => numberEqString a b
  | .str a, .num b => numberEqString b a
  | .bool a, .num b => (if a then 1 else 0) == b
  | .num a, .bool b => a == (if b then 1 else 0)
  | .bool a, .str b => numberEqString (if a then 1 else 0) b
  | .str a, .bool b => numberEqString (if b then 1 else 0) a
  | _, _ => false

/-- A parsed response body, as far as the providers look into it: an array of
records, an object, or a scalar. -/
inductive Json where
  | array (items : List Record) : Json
  | object (fields : Record) : Json
  | scalar (value : Value) : Json
  deriving DecidableEq, Repr

/-- Whether reading a property of the value throws: true of `null` and
`undefined`. -/
def isNullish : Json → Bool
  | .scalar .null => true
  | .scalar .undefined => true
  | _ => false

/-- The `TypeError` of reading the property `name` of `null`, with the message V8
gives. -/
def nullPropertyError (name : String) : JsError :=
  { name := "TypeError"
    message := "Cannot read properties of null (reading '" ++ name ++ "')" }

/-- What one call of `fetch` comes to: the promise is rejected (a network
failure, or the abort of the timeout), or a response arrives with its status
and, when the body is read with `response.json()`, the parsed body or the error
of reading it. -/
inductive FetchResult where
  | rejected (error : JsError) : FetchResult
  | response (status : Nat) (body : Except JsError Json) : FetchResult

/-- The `ok` flag of a response: the status is in 200..299. -/
def responseOk (status : Nat) : Bool := 200 ≤ status && status ≤ 299

/-- The operator `||` with a number on the left: a missing value and `0` give
the right-hand side. -/
def orElseNumber (value : Option Int) (fallback : Int) : Int :=
  match value with
  | none => fallback
  | some v => if v = 0 then fallback else v

/-- Comparison of two strings by the code points of their characters, with
results `-1`, `0` and `1`. -/
def compareChars : List Char → List Char → Int
  | [], [] => 0
  | [], _ :: _ => -1
  | _ :: _, [] => 1
  | a :: as, b :: bs =>
    if a.toNat < b.toNat then -1 else if b.toNat < a.toNat then 1 else compareChars as bs

/-- A host on which the examples are evaluated: strings collate by code point
(the order every collation gives to strings of ASCII digits), the time zone is
UTC, and `Date` finds no date in any string handed to it. -/
def plainHost : Runtime where
  localeCompare := fun a b => compareChars a.data b.data
  dateParse := fun _ => none
  utc := fun t => t

/-- The `length` property of an inherited member of `Object.prototype`: the
number of parameters of the function, and `undefined` for the prototype object
read through `__proto__`. -/
def inheritedLength (key : String) : Value :=
  if key == "__proto__" then .undefined
  else if key == "toString" || key == "valueOf" || key == "toLocaleString" then .num 0
  else if key == "__defineGetter__" || key == "__defineSetter__" then .num 2
  else .num 1

/-- Whether the year is a leap year of the Gregorian calendar. -/
def isLeapYear (year : Int) : Bool :=
  (year % 4 == 0 && year % 100 != 0) || year % 400 == 0

/-- The number of days of month `month` (0 = January .. 11 = December) of the
year. -/
def daysInMonth (year : Int) (month : Nat) : Int :=
  if month = 1 then (if isLeapYear year then 29 else 28)
  else if month = 3 ∨ month = 5 ∨ month = 8 ∨ month = 10 then 30
  else 31

/-- A host whose clocks are five hours behind UTC until 10 March 2024, 02:00
local time, and four hours behind from 03:00 on (New York in the spring of
2024).  As ECMAScript prescribes, a local time in the hour that is skipped is
read with the offset before the change. -/
def springForwardHost : Runtime where
  localeCompare := fun a b => compareChars a.data b.data
  dateParse := fun _ => none
  utc := fun t => if t < 1710039600000 then t + 18000000 else t + 14400000

end Js

namespace ApiConfig

open Js

/-- `API_CONFIG.ENDPOINTS` (`src/config/apiConfig.js`, lines 19-30). -/
def endpoints : List (String × String) :=
  [("business-roles", "/business-roles"), ("application-roles", "/application-roles"),
   ("azure-licenses", "/azure-licenses"), ("azure-admin-roles", "/azure-admin-roles"),
   ("azure-rbac-roles", "/azure-rbac-roles"), ("management-roles", "/management-roles"),
   ("mailboxes", "/mailboxes"), ("computers", "/computers"), ("users", "/users"),
   ("shared-folders", "/shared-folders")]

/-- `API_CONFIG.ERROR_MESSAGES` (lines 45-53). -/
def errorMessages : List (String × String) :=
  [("NETWORK_ERROR", "Network error. Please check your connection."),
   ("TIMEOUT_ERROR", "Request timed out. Please try again."),
   ("SERVER_ERROR", "Server error. Please try again later."),
   ("NOT_FOUND", "Resource not found."),
   ("UNAUTHORIZED", "Unauthorized access."),
   ("FORBIDDEN", "Access forbidden."),
   ("DEFAULT", "An unexpected error occurred.")]

/-- `getEndpointForResource(resourceType)` (lines 98-100):
`API_CONFIG.ENDPOINTS[resourceType] || "/" + resourceType`.  For a name that the
table inherits from `Object.prototype` the lookup gives the inherited member,
which the caller turns into a string. -/
def getEndpointForResource (resourceType : String) : String :=
  match endpoints.lookup resourceType with
  | some path => path
  | none =>
    if resourceType ∈ inheritedKeys then inheritedToString resourceType
    else "/" ++ resourceType

/-- `getErrorMessage(errorType = 'DEFAULT')` (lines 103-105), for the error
types the providers pass. -/
def getErrorMessage (errorType : String) : String :=
  match errorMessages.lookup errorType with
  | some message => message
  | none => "An unexpected error occurred."

/-- `API_CONFIG.BASE_URL` and `API_CONFIG.TIMEOUT` (lines 7 and 10) as they stand
once the module is loaded; both depend on the environment variables of the
build and are parameters here. -/
structure Settings where
  baseUrl : String
  timeout : Int

/-- One entry of `ENV_CONFIG` as far as `DataService` reads it; a property that
the entry lacks is `none`, or `false` for the flag. -/
structure EnvConfig where
  logLevel : Option String
  enableMockDelay : Bool
  deriving DecidableEq, Repr

/-- `getCurrentEnv()` (lines 76-78): `process.env.NODE_ENV || 'development'`. -/
def getCurrentEnv (nodeEnv : Option String) : String :=
  match nodeEnv with
  | none => "development"
  | some e => if e == "" then "development" else e

/-- `getEnvConfig()` (lines 81-84): `ENV_CONFIG[env] || ENV_CONFIG.development`
with the three entries of lines 57-73.  A name inherited from
`Object.prototype` gives the inherited member, which has neither property. -/
def getEnvConfig (nodeEnv : Option String) : EnvConfig :=
  let env := getCurrentEnv nodeEnv
  if env == "development" then { logLevel := some "debug", enableMockDelay := false }
  else if env == "production" then { logLevel := some "error", enableMockDelay := false }
  else if env == "test" then { logLevel := some "warn", enableMockDelay := false }
  else if env ∈ inheritedKeys then { logLevel := none, enableMockDelay := false }
  else { logLevel := some "debug", enableMockDelay := false }

end ApiConfig

namespace FileDataProvider

open Js

/-- Truthiness of an optional string argument: a missing argument and the empty
string are falsy. -/
def strTruthy : Option String → Bool
  | none => false
  | some s => s != ""

/-- The per-record test of `filterData` (lines 74-84): the candidate fields are
`searchableFields` when that list is not empty and the string-valued fields of
the record otherwise; the record passes when some candidate field holds a truthy
value whose lower-cased string form includes `term`. -/
def matchesItem (term : String) (searchableFields : List String) (item : Record) : Bool :=
  let fieldsToSearch :=
    if searchableFields.length > 0 then searchableFields
    else item.keys.filter (fun key => typeof (item.get key) == TypeTag.string)
  fieldsToSearch.any (fun field =>
    let value := item.get field
    truthy value && includes (toLowerCase (toStr value)) term)

/-- `filterData(data, searchTerm, searchableFields = [])` (lines 67-85).  A
missing `searchableFields` argument is `none` and takes the default `[]`. -/
def filterData (data : List Record) (searchTerm : Option String)
    (searchableFields : Option (List String)) : List Record :=
  match searchTerm with
  | none => data
  | some s =>
    if s == "" || trim s == "" then data
    else
      let term := trim (toLowerCase s)
      data.filter (matchesItem term (searchableFields.getD []))

/-- The capture groups of the localized date pattern: day, month, year, hour and
minute as digit strings, and whether the period is `p.m.`. -/
structure DateGroups where
  day : List Char
  month : List Char
  year : List Char
  hour : List Char
  minute : List Char
  isPm : Bool
  deriving DecidableEq, Repr

/-- The pattern `(\d{1,2})` followed by the literal `sep`: two digits when the
separator follows them, one digit when it follows the first. -/
def digits12Then (sep : Char) : List Char → Option (List Char × List Char)
  | d1 :: d2 :: rest =>
    if d1.isDigit && d2.isDigit then
      match rest with
      | c :: rest2 => if c == sep then some ([d1, d2], rest2) else none
      | [] => none
    else if d1.isDigit && d2 == sep then some ([d1], rest)
    else none
  | _ => none

/-- The pattern `(\d{4}),`. -/
def digits4ThenComma : List Char → Option (List Char × List Char)
  | d1 :: d2 :: d3 :: d4 :: c :: rest =>
    if d1.isDigit && d2.isDigit && d3.isDigit && d4.isDigit && c == ',' then
      some ([d1, d2, d3, d4], rest)
    else none
  | _ => none

/-- The pattern `(\d{2})`. -/
def digits2 : List Char → Option (List Char × List Char)
  | d1 :: d2 :: rest => if d1.isDigit && d2.isDigit then some ([d1, d2], rest) else none
  | _ => none

/-- The pattern `(a\.m\.|p\.m\.)`: whether the period found is `p.m.`. -/
def period : List Char → Option Bool
  | 'a' :: '.' :: 'm' :: '.' :: _ => some false
  | 'p' :: '.' :: 'm' :: '.' :: _ => some true
  | _ => none

/-- A match of the pattern
`(\d{1,2})\/(\d{1,2})\/(\d{4}),\s*(\d{1,2}):(\d{2})\s*(a\.m\.|p\.m\.)`
that starts at the head of the list. -/
def matchDateAt (cs : List Char) : Option DateGroups := do
  let (day, cs) ← digits12Then '/' cs
  let (month, cs) ← digits12Then '/' cs
  let (year, cs) ← digits4ThenComma cs
  let (hour, cs) ← digits12Then ':' (cs.dropWhile isWhiteSpace)
  let (minute, cs) ← digits2 cs
  let isPm ← period (cs.dropWhile isWhiteSpace)
  pure { day := day, month := month, year := year, hour := hour, minute := minute, isPm := isPm }

/-- The result of `dateStr.match(...)` with the pattern above, which is not
anchored: the leftmost match anywhere in the string. -/
def matchDate : List Char → Option DateGroups
  | [] => none
  | c :: cs =>
    match matchDateAt (c :: cs) with
    | some g => some g
    | none => matchDate cs

/-- The conversion of the captured hour to the 24-hour clock (lines 117-121). -/
def hour24 (hour : Nat) (isPm : Bool) : Nat :=
  let h := if isPm && hour != 12 then hour + 12 else hour
  if !isPm && h == 12 then 0 else h

/-- The time value of `parseDate(dateStr)` (lines 106-124); `none` is the `NaN`
of an invalid date. -/
def parseDate (rt : Runtime) (dateStr : String) : Option Int :=
  if includes dateStr "T" then rt.dateParse dateStr
  else
    match matchDate dateStr.data with
    | none => some 0
    | some g =>
      dateFromFields rt (parseDigits g.year) ((parseDigits g.month : Int) - 1)
        (parseDigits g.day) (hour24 (parseDigits g.hour) g.isPm) (parseDigits g.minute)

/-- The wall-clock tuple that a match of the date pattern denotes: year, month,
day, hour on the 24-hour clock and minute.  Lists of numbers are compared in
lexicographic order. -/
def wallClock (g : DateGroups) : List Nat :=
  [parseDigits g.year, parseDigits g.month, parseDigits g.day,
   hour24 (parseDigits g.hour) g.isPm, parseDigits g.minute]

/-- Whether the groups of a match denote a date of the calendar and a time of
the 12-hour clock: a year from 100 on, a month in 1..12, a day that the month
has, an hour in 1..12 and a minute in 0..59. -/
def validWallClock (g : DateGroups) : Bool :=
  decide (100 ≤ parseDigits g.year ∧ parseDigits g.year ≤ 9999
    ∧ 1 ≤ parseDigits g.month ∧ parseDigits g.month ≤ 12
    ∧ 1 ≤ parseDigits g.day
    ∧ (parseDigits g.day : Int) ≤ daysInMonth (parseDigits g.year) (parseDigits g.month - 1)
    ∧ 1 ≤ parseDigits g.hour ∧ parseDigits g.hour ≤ 12
    ∧ parseDigits g.minute ≤ 59)

/-- The last step of every branch of the comparator:
`sortDirection === 'asc' ? comparison : -comparison`. -/
def directed (sortDirection : String) (comparison : Option Int) : Option Int :=
  if sortDirection == "asc" then comparison else comparison.map (fun c => -c)

/-- Difference of two time values; `NaN` when either is. -/
def timeDifference : Option Int → Option Int → Option Int
  | some a, some b => some (a - b)
  | _, _ => none

/-- Whether the sort field is one of the date fields of line 105. -/
def isDateField (sortField : String) : Bool :=
  sortField == "endDate" || sortField == "hireDate" || sortField == "createdAt"

/-- The comparator of `sortData` on the two field values (lines 99-146). -/
def compareValues (rt : Runtime) (sortField sortDirection : String) (aValue bValue : Value) :
    Option Int :=
  if looseEqNull aValue && looseEqNull bValue then some 0
  else if looseEqNull aValue then some (if sortDirection == "asc" then -1 else 1)
  else if looseEqNull bValue then some (if sortDirection == "asc" then 1 else -1)
  else
    match aValue, bValue with
    | .str a, .str b =>
      if isDateField sortField then
        directed sortDirection (timeDifference (parseDate rt a) (parseDate rt b))
      else directed sortDirection (some (rt.localeCompare a b))
    | .num a, .num b => directed sortDirection (some (a - b))
    | _, _ => directed sortDirection (some (rt.localeCompare (toStr aValue) (toStr bValue)))

/-- The comparator handed to `sort` (lines 95-147). -/
def compareRecords (rt : Runtime) (sortField sortDirection : String) (a b : Record) :
    Option Int :=
  compareValues rt sortField sortDirection (a.get sortField) (b.get sortField)

/-- `sortData(data, sortField, sortDirection = 'asc')` (lines 90-148).  A missing
argument is `none`; a missing direction takes the default `'asc'`. -/
def sortData (rt : Runtime) (data : List Record) (sortField sortDirection : Option String) :
    List Record :=
  match sortField with
  | none => data
  | some field =>
    if field == "" then data
    else arraySort (compareRecords rt field (sortDirection.getD "asc")) data

/-- The envelope returned by `paginateData` and `getResources`. -/
structure Envelope where
  data : List Record
  total : Nat
  page : Int
  pageSize : Int
  totalPages : Option Int
  deriving DecidableEq, Repr

/-- `paginateData(data, page = 1, pageSize = 10)` (lines 153-164).  A missing
argument is `none` and takes its default. -/
def paginateData (data : List Record) (page pageSize : Option Int) : Envelope :=
  let page := page.getD 1
  let pageSize := pageSize.getD 10
  let startIndex := (page - 1) * pageSize
  let endIndex := startIndex + pageSize
  { data := slice data startIndex endIndex
    total := data.length
    page := page
    pageSize := pageSize
    totalPages := ceilDiv data.length pageSize }

/-- The options object of `getResources`; a property that is absent is `none`. -/
structure QueryOptions where
  search : Option String
  searchableFields : Option (List String)
  sortField : Option String
  sortDirection : Option String
  page : Option Int
  pageSize : Option Int
  deriving DecidableEq, Repr

/-- The state of a `FileDataProvider` instance. -/
structure Provider where
  delay : Int
  enableLogging : Bool
  dataSources : List (String × List Record)

/-- The registry built by the constructor (lines 16-28) from the two bundled data
sets, whose files are not part of the sources and are parameters here. -/
def dataSources (computers users : List Record) : List (String × List Record) :=
  [("computers", computers), ("users", users), ("business-roles", []),
   ("application-roles", []), ("azure-licenses", []), ("azure-admin-roles", []),
   ("azure-rbac-roles", []), ("management-roles", []), ("mailboxes", []),
   ("shared-folders", [])]

/-- What `this.dataSources[resourceType]` evaluates to when it is truthy: a
registered collection, or a member that the registry object inherits from
`Object.prototype`. -/
inductive SourceValue where
  | collection (data : List Record) : SourceValue
  | inherited (key : String) : SourceValue
  deriving DecidableEq, Repr

/-- `getDataSource(resourceType)` (lines 56-62).  Every registered collection is
an array, which is truthy; so is every inherited member, and for a name that is
neither the lookup gives `undefined`. -/
def getDataSource (self : Provider) (resourceType : String) : Except String SourceValue :=
  match self.dataSources.lookup resourceType with
  | some data => .ok (.collection data)
  | none =>
    if resourceType ∈ inheritedKeys then .ok (.inherited resourceType)
    else .error ("Unknown resource type: " ++ resourceType)

/-- `getResources(resourceType, options = {})` (lines 169-211).  The spread
`[...data]` of line 176 throws a `TypeError` when `data` is not iterable; the
message is the one V8 gives. -/
def getResources (rt : Runtime) (self : Provider) (resourceType : String)
    (options : QueryOptions) : Except String Envelope :=
  match getDataSource self resourceType with
  | .error e => .error e
  | .ok (.inherited _) => .error "data is not iterable"
  | .ok (.collection data) =>
    let processedData := data
    let processedData :=
      if strTruthy options.search then
        filterData processedData options.search options.searchableFields
      else processedData
    let processedData :=
      if strTruthy options.sortField then
        sortData rt processedData options.sortField options.sortDirection
      else processedData
    .ok (paginateData processedData options.page options.pageSize)

/-- `getResourceById(resourceType, id)` (lines 216-235).  A record is an object
and so truthy: `!resource` holds exactly when `find` found nothing.  An
inherited member has no `find` method. -/
def getResourceById (self : Provider) (resourceType : String) (id : Value) :
    Except String Record :=
  match getDataSource self resourceType with
  | .error e => .error e
  | .ok (.inherited _) => .error "data.find is not a function"
  | .ok (.collection data) =>
    match data.find? (fun item => looseEq (item.get "id") id) with
    | none => .error ("Resource not found: " ++ resourceType ++ " with ID " ++ toStr id)
    | some resource => .ok resource

/-- The options object of the `FileDataProvider` constructor; a property that is
absent is `none`. -/
structure ProviderOptions where
  delay : Option Int
  enableLogging : Option Bool
  deriving DecidableEq, Repr

/-- The constructor (lines 10-29): `this.delay = options.delay || 300` and
`this.enableLogging = options.enableLogging !== false`. -/
def create (computers users : List Record) (options : ProviderOptions) : Provider :=
  { delay := orElseNumber options.delay 300
    enableLogging := options.enableLogging != some false
    dataSources := dataSources computers users }

/-- `simulateDelay()` (lines 34-38): the duration of the timer that is awaited,
`none` when the method does not wait. -/
def simulateDelay (self : Provider) : Option Int :=
  if self.delay > 0 then some self.delay else none

/-- `getResourceCount(resourceType)` (lines 240-255): `data.length`. -/
def getResourceCount (self : Provider) (resourceType : String) : Except String Value :=
  match getDataSource self resourceType with
  | .error e => .error e
  | .ok (.inherited key) => .ok (inheritedLength key)
  | .ok (.collection data) => .ok (.num data.length)

/-- The body of `healthCheck()` (lines 260-286) over the keys of the registry and
the method `getDataSource` of the instance: one probe for every key, ok when
`getDataSource` returns and an error when it throws; the result is `!hasErrors`.
Nothing in the `try` block throws, so the outer `catch` clause, which returns
`false`, is not entered. -/
def healthCheckOver (keys : List String) (getDataSource : String → Except String SourceValue) :
    Except String Bool :=
  let results : List (String × Bool) :=
    keys.map (fun resourceType =>
      match getDataSource resourceType with
      | .ok _ => (resourceType, true)
      | .error _ => (resourceType, false))
  let hasErrors := results.any (fun result => !result.2)
  .ok (!hasErrors)

/-- `healthCheck()` (lines 260-286) of a provider: the probes run over
`Object.keys(this.dataSources)` with `this.getDataSource`. -/
def healthCheck (self : Provider) : Except String Bool :=
  healthCheckOver (self.dataSources.map Prod.fst) (getDataSource self)

/-- One call of `console[level]`: the level and the message. -/
structure LogEntry where
  level : String
  message : String
  deriving DecidableEq, Repr

/-- `log(level, message, data)` (lines 43-51): what is written to the console. -/
def log (self : Provider) (level message : String) : List LogEntry :=
  if self.enableLogging then [{ level := level, message := message }] else []

/-- `getResources` (lines 169-211) with its calls of `log`: the outcome, and what
is written to the console on the way. -/
def getResourcesLogged (rt : Runtime) (self : Provider) (resourceType : String)
    (options : QueryOptions) : Except String Envelope × List LogEntry :=
  let log0 := log self "debug" ("Fetching resources for " ++ resourceType)
  match getDataSource self resourceType with
  | .error e => (.error e, log0 ++ log self "error" ("Failed to fetch " ++ resourceType))
  | .ok (.inherited _) =>
    (.error "data is not iterable", log0 ++ log self "error" ("Failed to fetch " ++ resourceType))
  | .ok (.collection data) =>
    let processedData := data
    let filtered : List Record × List LogEntry :=
      if strTruthy options.search then
        (filterData processedData options.search options.searchableFields,
         log self "debug" ("Filtered data for search: \"" ++ options.search.getD "" ++ "\""))
      else (processedData, [])
    let processedData := filtered.1
    let processedData :=
      if strTruthy options.sortField then
        sortData rt processedData options.sortField options.sortDirection
      else processedData
    let result := paginateData processedData options.page options.pageSize
    (.ok result, log0 ++ filtered.2 ++ log self "debug" "Returning paginated data")

end FileDataProvider

namespace HttpDataProvider

open Js

/-- `filterData(data, searchTerm, searchableFields = [])` of the HTTP provider
(lines 120-138). -/
def filterData (data : List Record) (searchTerm : Option String)
    (searchableFields : Option (List String)) : List Record :=
  match searchTerm with
  | none => data
  | some s =>
    if s == "" || trim s == "" then data
    else
      let term := trim (toLowerCase s)
      data.filter (fun item =>
        let fieldsToSearch :=
          if (searchableFields.getD []).length > 0 then searchableFields.getD []
          else item.keys.filter (fun key => typeof (item.get key) == TypeTag.string)
        fieldsToSearch.any (fun field =>
          let value := item.get field
          truthy value && includes (toLowerCase (toStr value)) term))

/-- The state of an `HttpDataProvider` instance. -/
structure Provider where
  baseUrl : String
  timeout : Int
  enableLogging : Bool

/-- `makeRequest(endpoint)` (lines 36-84).  `net` gives, for the URL requested,
what the call of `fetch` and the reading of the body come to.  The error thrown
for a response that is not `ok` is thrown inside the `try` block and passes
through the `catch` clause like every other error. -/
def makeRequest (self : Provider) (net : String → FetchResult) (endpoint : String) :
    Except JsError Json :=
  let attempt : Except JsError Json :=
    match net (self.baseUrl ++ endpoint) with
    | .rejected error => .error error
    | .response status body =>
      if !responseOk status then
        let errorType :=
          if status = 401 then "UNAUTHORIZED"
          else if status = 403 then "FORBIDDEN"
          else if status = 404 then "NOT_FOUND"
          else if status = 500 then "SERVER_ERROR"
          else "DEFAULT"
        .error (newError (ApiConfig.getErrorMessage errorType))
      else body
  match attempt with
  | .ok value => .ok value
  | .error error =>
    if error.name == "AbortError" then
      .error (newError (ApiConfig.getErrorMessage "TIMEOUT_ERROR"))
    else if error.name == "TypeError" && includes error.message "fetch" then
      .error (newError (ApiConfig.getErrorMessage "NETWORK_ERROR"))
    else .error error

/-- The comparator of the HTTP provider's `sortData` on the two field values
(lines 149-179): only `createdAt` is a date field, and its strings go to
`new Date` as they are. -/
def compareValues (rt : Runtime) (sortField sortDirection : String) (aValue bValue : Value) :
    Option Int :=
  if looseEqNull aValue && looseEqNull bValue then some 0
  else if looseEqNull aValue then some (if sortDirection == "asc" then -1 else 1)
  else if looseEqNull bValue then some (if sortDirection == "asc" then 1 else -1)
  else
    match aValue, bValue with
    | .str a, .str b =>
      if sortField == "createdAt" then
        FileDataProvider.directed sortDirection
          (FileDataProvider.timeDifference (rt.dateParse a) (rt.dateParse b))
      else FileDataProvider.directed sortDirection (some (rt.localeCompare a b))
    | .num a, .num b => FileDataProvider.directed sortDirection (some (a - b))
    | _, _ =>
      FileDataProvider.directed sortDirection
        (some (rt.localeCompare (toStr aValue) (toStr bValue)))

/-- The comparator handed to `sort` by the HTTP provider (lines 148-180). -/
def compareRecords (rt : Runtime) (sortField sortDirection : String) (a b : Record) :
    Option Int :=
  compareValues rt sortField sortDirection (a.get sortField) (b.get sortField)

/-- `sortData(data, sortField, sortDirection = 'asc')` of the HTTP provider
(lines 143-181). -/
def sortData (rt : Runtime) (data : List Record) (sortField sortDirection : Option String) :
    List Record :=
  match sortField with
  | none => data
  | some field =>
    if field == "" then data
    else arraySort (compareRecords rt field (sortDirection.getD "asc")) data

/-- The envelope returned by the HTTP provider's `getResources`; `data` is the
response itself when the response is not an array. -/
structure Envelope where
  data : Json
  total : Nat
  page : Int
  pageSize : Int
  totalPages : Option Int
  deriving DecidableEq, Repr

/-- `getResources(resourceType, options = {})` of the HTTP provider (lines
186-270).  The argument `dataCount: result.data.length` of the call of `log` in
lines 245-250 is evaluated whether or not logging is enabled, and throws when
the response is `null`. -/
def getResources (rt : Runtime) (self : Provider) (net : String → FetchResult)
    (resourceType : String) (options : FileDataProvider.QueryOptions) :
    Except JsError Envelope :=
  let attempt : Except JsError Envelope :=
    let endpoint := ApiConfig.getEndpointForResource resourceType
    match makeRequest self net endpoint with
    | .error error => .error error
    | .ok response =>
      let page := orElseNumber options.page 1
      let pageSize := orElseNumber options.pageSize 10
      match response with
      | .array items =>
        let data := items
        let data :=
          if FileDataProvider.strTruthy options.search then
            filterData data options.search options.searchableFields
          else data
        let total := data.length
        let data :=
          if FileDataProvider.strTruthy options.sortField then
            sortData rt data options.sortField options.sortDirection
          else data
        let startIndex := (page - 1) * pageSize
        let endIndex := startIndex + pageSize
        .ok { data := .array (slice data startIndex endIndex)
              total := total
              page := page
              pageSize := pageSize
              totalPages := ceilDiv total pageSize }
      | other =>
        if isNullish other then .error (nullPropertyError "length")
        else
          .ok { data := other
                total := 0
                page := page
                pageSize := pageSize
                totalPages := ceilDiv 0 pageSize }
  match attempt with
  | .ok result => .ok result
  | .error error =>
    if includes error.message "Resource not found" || includes error.message "404" then
      .ok { data := .array []
            total := 0
            page := orElseNumber options.page 1
            pageSize := orElseNumber options.pageSize 10
            totalPages := some 0 }
    else .error error

/-- The options object of the `HttpDataProvider` constructor; a property that is
absent is `none`. -/
structure ProviderOptions where
  baseUrl : Option String
  timeout : Option Int
  enableLogging : Option Bool
  deriving DecidableEq, Repr

/-- The constructor (lines 9-18): `options.baseUrl || getApiBaseUrl()`,
`options.timeout || API_CONFIG.TIMEOUT` and `options.enableLogging !== false`. -/
def create (settings : ApiConfig.Settings) (options : ProviderOptions) : Provider :=
  { baseUrl := if FileDataProvider.strTruthy options.baseUrl then options.baseUrl.getD ""
               else settings.baseUrl
    timeout := orElseNumber options.timeout settings.timeout
    enableLogging := options.enableLogging != some false }

/-- Reading the property `name` of a response: a `TypeError` on `null`, the field
of an object, and `undefined` on an array (for a name that is not one of its
own) and on the other scalars. -/
def readProperty (response : Json) (name : String) : Except JsError Value :=
  if isNullish response then .error (nullPropertyError name)
  else
    match response with
    | .object fields => .ok (fields.get name)
    | _ => .ok .undefined

/-- `getResourceById(resourceType, id)` of the HTTP provider (lines 275-288). -/
def getResourceById (self : Provider) (net : String → FetchResult) (resourceType : String)
    (id : Value) : Except JsError Json :=
  makeRequest self net (ApiConfig.getEndpointForResource resourceType ++ "/" ++ toStr id)

/-- `getResourceCount(resourceType)` of the HTTP provider (lines 293-306). -/
def getResourceCount (self : Provider) (net : String → FetchResult) (resourceType : String) :
    Except JsError Value :=
  match makeRequest self net (ApiConfig.getEndpointForResource resourceType ++ "/count") with
  | .error error => .error error
  | .ok response => readProperty response "count"

/-- `log(level, message, data)` of the HTTP provider (lines 23-31). -/
def log (self : Provider) (level message : String) : List FileDataProvider.LogEntry :=
  if self.enableLogging then [{ level := level, message := message }] else []

/-- `getResources` of the HTTP provider (lines 186-270) with its calls of `log`:
the outcome, and what is written to the console on the way. -/
def getResourcesLogged (rt : Runtime) (self : Provider) (net : String → FetchResult)
    (resourceType : String) (options : FileDataProvider.QueryOptions) :
    Except JsError Envelope × List FileDataProvider.LogEntry :=
  let log0 := log self "debug" ("Fetching resources for " ++ resourceType)
  let endpoint := ApiConfig.getEndpointForResource resourceType
  let log1 := log0 ++ log self "debug" ("Making request to: " ++ self.baseUrl ++ endpoint)
  let attempt : Except JsError Envelope × List FileDataProvider.LogEntry :=
    match makeRequest self net endpoint with
    | .error error => (.error error, log1)
    | .ok response =>
      let log2 := log1 ++ log self "debug" ("Received response for " ++ resourceType)
      let page := orElseNumber options.page 1
      let pageSize := orElseNumber options.pageSize 10
      match response with
      | .array items =>
        let data := items
        let filtered : List Record × List FileDataProvider.LogEntry :=
          if FileDataProvider.strTruthy options.search then
            (filterData data options.search options.searchableFields,
             log self "debug"
               ("After filtering: "
                 ++ natToString (filterData data options.search options.searchableFields).length
                 ++ " items"))
          else (data, [])
        let data := filtered.1
        let total := data.length
        let sorted : List Record × List FileDataProvider.LogEntry :=
          if FileDataProvider.strTruthy options.sortField then
            (sortData rt data options.sortField options.sortDirection,
             log self "debug"
               ("After sorting by " ++ options.sortField.getD "" ++ ": "
                 ++ natToString (sortData rt data options.sortField options.sortDirection).length
                 ++ " items"))
          else (data, [])
        let data := sorted.1
        let startIndex := (page - 1) * pageSize
        let endIndex := startIndex + pageSize
        let data := slice data startIndex endIndex
        let log3 := log2 ++ filtered.2 ++ sorted.2
          ++ log self "debug"
            ("After pagination (page " ++ toStr (.num page) ++ ", size " ++ toStr (.num pageSize)
              ++ "): " ++ natToString data.length ++ " items")
        (.ok { data := .array data
               total := total
               page := page
               pageSize := pageSize
               totalPages := ceilDiv total pageSize },
         log3 ++ log self "debug" ("Formatted response for " ++ resourceType))
      | other =>
        if isNullish other then (.error (nullPropertyError "length"), log2)
        else
          (.ok { data := other
                 total := 0
                 page := page
                 pageSize := pageSize
                 totalPages := ceilDiv 0 pageSize },
           log2 ++ log self "debug" ("Formatted response for " ++ resourceType))
  match attempt with
  | (.ok result, logs) => (.ok result, logs)
  | (.error error, logs) =>
    let logs := logs ++ log self "error" ("Failed to fetch " ++ resourceType)
    if includes error.message "Resource not found" || includes error.message "404" then
      (.ok { data := .array []
             total := 0
             page := orElseNumber options.page 1
             pageSize := orElseNumber options.pageSize 10
             totalPages := some 0 },
       logs ++ log self "debug"
         ("Resource " ++ resourceType ++ " not found on MockAPI.io, returning empty result"))
    else (.error error, logs)

end HttpDataProvider

namespace DataService

open Js

/-- The provider that is active: the file provider or the HTTP provider. -/
inductive Active where
  | file (provider : FileDataProvider.Provider) : Active
  | http (provider : HttpDataProvider.Provider) : Active

/-- The state of a `DataService` instance.  `useMockAPI` holds whatever value was
stored in it; the code reads it by its truthiness. -/
structure State where
  fileProvider : Option FileDataProvider.Provider
  httpProvider : Option HttpDataProvider.Provider
  currentProvider : Option Active
  useMockAPI : Value

/-- What a delegating method of the service comes to: the error "No data
provider configured" of its guard, or the outcome of the active provider. -/
inductive Delegated (F H : Type) where
  | noProvider : Delegated F H
  | file (outcome : F) : Delegated F H
  | http (outcome : H) : Delegated F H

/-- `setCurrentProvider()` (lines 46-49). -/
def setCurrentProvider (self : State) : State :=
  { self with
    currentProvider :=
      if truthy self.useMockAPI then self.httpProvider.map Active.http
      else self.fileProvider.map Active.file }

/-- `initializeProviders()` (lines 25-41).  The two bundled data sets, the
settings of `API_CONFIG` and `process.env.NODE_ENV` are parameters. -/
def initializeProviders (computers users : List Record) (settings : ApiConfig.Settings)
    (nodeEnv : Option String) (self : State) : State :=
  let envConfig := ApiConfig.getEnvConfig nodeEnv
  let self := { self with
    fileProvider := some (FileDataProvider.create computers users
      { delay := some (if envConfig.enableMockDelay then 300 else 0)
        enableLogging := some (envConfig.logLevel == some "debug") }) }
  let self := { self with
    httpProvider := some (HttpDataProvider.create settings
      { baseUrl := none, timeout := none
        enableLogging := some (envConfig.logLevel == some "debug") }) }
  setCurrentProvider self

/-- The constructor (lines 11-20); `useMockAPI` is `options.useMockAPI`,
`undefined` when the option is absent. -/
def construct (computers users : List Record) (settings : ApiConfig.Settings)
    (nodeEnv : Option String) (useMockAPI : Value) : State :=
  initializeProviders computers users settings nodeEnv
    { fileProvider := none
      httpProvider := none
      currentProvider := none
      useMockAPI := if truthy useMockAPI then useMockAPI else .bool false }

/-- `toggleDataSource(useMockAPI)` (lines 54-57). -/
def toggleDataSource (self : State) (useMockAPI : Value) : State :=
  setCurrentProvider { self with useMockAPI := useMockAPI }

/-- `getProviderType()` (lines 62-64). -/
def getProviderType (self : State) : String :=
  if truthy self.useMockAPI then "http" else "file"

/-- `getResources(resourceType, options = {})` (lines 72-78). -/
def getResources (rt : Runtime) (net : String → FetchResult) (self : State)
    (resourceType : String) (options : FileDataProvider.QueryOptions) :
    Delegated (Except String FileDataProvider.Envelope)
      (Except JsError HttpDataProvider.Envelope) :=
  match self.currentProvider with
  | none => .noProvider
  | some (.file provider) =>
    .file (FileDataProvider.getResources rt provider resourceType options)
  | some (.http provider) =>
    .http (HttpDataProvider.getResources rt provider net resourceType options)

/-- `getResourceById(resourceType, id)` (lines 86-92). -/
def getResourceById (net : String → FetchResult) (self : State) (resourceType : String)
    (id : Value) : Delegated (Except String Record) (Except JsError Json) :=
  match self.currentProvider with
  | none => .noProvider
  | some (.file provider) => .file (FileDataProvider.getResourceById provider resourceType id)
  | some (.http provider) =>
    .http (HttpDataProvider.getResourceById provider net resourceType id)

/-- `getResourceCount(resourceType)` (lines 99-105). -/
def getResourceCount (net : String → FetchResult) (self : State) (resourceType : String) :
    Delegated (Except String Value) (Except JsError Value) :=
  match self.currentProvider with
  | none => .noProvider
  | some (.file provider) => .file (FileDataProvider.getResourceCount provider resourceType)
  | some (.http provider) =>
    .http (HttpDataProvider.getResourceCount provider net resourceType)

/-- `result.data || []` on a response of the HTTP provider: an array or an
object is truthy, a scalar is kept when it is truthy. -/
def dataOrEmpty (data : Json) : Json :=
  match data with
  | .scalar value => if truthy value then .scalar value else .array []
  | other => other

/-- `searchResources(resourceType, searchTerm, searchableFields = [])` (lines
137-143): `getResources` with the options `{search, searchableFields}` and then
`result.data || []`. -/
def searchResources (rt : Runtime) (net : String → FetchResult) (self : State)
    (resourceType : String) (searchTerm : Option String)
    (searchableFields : Option (List String)) :
    Delegated (Except String (List Record)) (Except JsError Json) :=
  match getResources rt net self resourceType
      { search := searchTerm, searchableFields := some (searchableFields.getD [])
        sortField := none, sortDirection := none, page := none, pageSize := none } with
  | .noProvider => .noProvider
  | .file (.error e) => .file (.error e)
  | .file (.ok result) => .file (.ok result.data)
  | .http (.error e) => .http (.error e)
  | .http (.ok result) => .http (.ok (dataOrEmpty result.data))

end DataService

/-! # Properties -/

namespace Js

/-! ## `slice` and `Math.ceil` -/

theorem slice_eq_take_drop {α : Type} (xs : List α) (start stop : Int) (h0 : 0 ≤ start)
    (h1 : start ≤ stop) :
    slice xs start stop = (xs.drop start.toNat).take (stop - start).toNat := by
  unfold slice
  simp only [not_lt.mpr h0, not_lt.mpr (le_trans h0 h1), if_false]
  apply List.ext_getElem?
  intro i
  simp only [List.getElem?_take, List.getElem?_drop]
  by_cases hlen : start ≤ (xs.length : Int)
  · have hk : (min start (xs.length : Int)).toNat = start.toNat := by omega
    rw [hk]
    by_cases hi : i < (min stop ↑xs.length - min start ↑xs.length).toNat
    · rw [if_pos hi, if_pos (by omega)]
    · rw [if_neg hi]
      by_cases hi2 : i < (stop - start).toNat
      · rw [if_pos hi2]
        symm
        apply List.getElem?_eq_none
        omega
      · rw [if_neg hi2]
  · have h1 : xs[(min start (xs.length : Int)).toNat + i]? = none :=
      List.getElem?_eq_none (by omega)
    have h2 : xs[start.toNat + i]? = none := List.getElem?_eq_none (by omega)
    rw [h1, h2]
    simp

theorem ceilDiv_eq_ceil (a b : Int) (hb : 0 < b) :
    ceilDiv a b = some ⌈(a : ℚ) / (b : ℚ)⌉ := by
  unfold ceilDiv
  rw [if_neg (ne_of_gt hb), Int.fdiv_eq_ediv _ (le_of_lt hb)]
  congr 1
  obtain ⟨n, rfl⟩ := Int.eq_ofNat_of_zero_le (le_of_lt hb)
  have h := Rat.floor_intCast_div_natCast (-a) n
  have h2 : ⌈(a : ℚ) / ((n : ℤ) : ℚ)⌉ = -⌊((-a : ℤ) : ℚ) / (n : ℚ)⌋ := by
    rw [← Int.ceil_neg]
    congr 1
    push_cast
    ring
  rw [h2, h]

/-! ## Strings -/

theorem toNat_ofNat_small (n : Nat) (h : n < 0xd800) : (Char.ofNat n).toNat = n := by
  have hv : n.isValidChar := Or.inl h
  simp only [Char.ofNat, dif_pos hv]
  rfl

theorem toLower_toNat (c : Char) :
    c.toLower.toNat = if 65 ≤ c.toNat ∧ c.toNat ≤ 90 then c.toNat + 32 else c.toNat := by
  unfold Char.toLower
  simp only [ge_iff_le]
  split
  · rw [toNat_ofNat_small _ (by omega)]
  · rfl

theorem isWhiteSpace_toLower (c : Char) : isWhiteSpace c.toLower = isWhiteSpace c := by
  unfold isWhiteSpace
  simp only [toLower_toNat]
  split
  · next h =>
    have e1 : ∀ k : Nat, k < 65 ∨ 122 < k → decide (c.toNat + 32 = k) = false := by
      intro k hk; simp; omega
    have e2 : ∀ k : Nat, k < 65 ∨ 122 < k → decide (c.toNat = k) = false := by
      intro k hk; simp; omega
    have e3 : decide (0x2000 ≤ c.toNat + 32) = false := by simp; omega
    have e4 : decide (0x2000 ≤ c.toNat) = false := by simp; omega
    simp [e1, e2, e3, e4]
    omega
  · rfl

theorem trimChars_map_toLower (cs : List Char) :
    trimChars (cs.map Char.toLower) = (trimChars cs).map Char.toLower := by
  have hcomp : (isWhiteSpace ∘ Char.toLower) = isWhiteSpace := by
    funext c; exact isWhiteSpace_toLower c
  unfold trimChars
  rw [List.dropWhile_map, hcomp, ← List.map_reverse, List.dropWhile_map, hcomp,
    ← List.map_reverse]

theorem trimChars_eq_nil_of_all (cs : List Char) (h : ∀ c ∈ cs, isWhiteSpace c = true) :
    trimChars cs = [] := by
  unfold trimChars
  have : cs.dropWhile isWhiteSpace = [] := List.dropWhile_eq_nil_iff.mpr h
  rw [this]
  rfl

theorem trim_toLowerCase_eq_empty_iff (s : String) :
    trim (toLowerCase s) = "" ↔ trim s = "" := by
  unfold trim toLowerCase
  rw [trimChars_map_toLower]
  constructor
  · intro h
    have h2 : (trimChars s.data).map Char.toLower = [] := congrArg String.data h
    rw [List.map_eq_nil_iff] at h2
    rw [h2]
  · intro h
    have h2 : trimChars s.data = [] := congrArg String.data h
    rw [h2]; rfl

theorem startsWithChars_nil_right (sub : List Char) :
    startsWithChars sub [] = true ↔ sub = [] := by
  cases sub <;> simp [startsWithChars]

/-! ## The binary search of the insertion sort -/

theorem insertionPoint_succ {α : Type} (cmp : α → α → Int) (pivot : α) (work : List α)
    (fuel left right : Nat) :
    insertionPoint cmp pivot work (fuel + 1) left right
      = if left < right then
          match work[left + (right - left) / 2]? with
          | none => left
          | some m =>
            if cmp pivot m < 0 then
              insertionPoint cmp pivot work fuel left (left + (right - left) / 2)
            else insertionPoint cmp pivot work fuel (left + (right - left) / 2 + 1) right
        else left := rfl

theorem insertionPoint_le {α : Type} (cmp : α → α → Int) (pivot : α) (work : List α)
    (hi : Nat) (h : ∀ i m, hi ≤ i → work[i]? = some m → cmp pivot m < 0) :
    ∀ fuel left right, left ≤ hi → insertionPoint cmp pivot work fuel left right ≤ hi := by
  intro fuel
  induction fuel with
  | zero => intro left right hl; simpa [insertionPoint] using hl
  | succ fuel ih =>
    intro left right hl
    rw [insertionPoint_succ]
    by_cases hlr : left < right
    · rw [if_pos hlr]
      cases hm : work[left + (right - left) / 2]? with
      | none => exact hl
      | some m =>
        show (if cmp pivot m < 0 then _ else _) ≤ hi
        by_cases hlt : cmp pivot m < 0
        · rw [if_pos hlt]
          exact ih _ _ hl
        · rw [if_neg hlt]
          apply ih
          by_contra hc
          exact hlt (h _ m (by omega) hm)
    · rw [if_neg hlr]
      exact hl

theorem insertionPoint_ge {α : Type} (cmp : α → α → Int) (pivot : α) (work : List α)
    (lo : Nat) (h : ∀ i m, i < lo → work[i]? = some m → 0 ≤ cmp pivot m) :
    ∀ fuel left right, left ≤ right → lo ≤ right → right ≤ work.length →
      right - left ≤ fuel → lo ≤ insertionPoint cmp pivot work fuel left right := by
  intro fuel
  induction fuel with
  | zero =>
    intro left right h1 h2 _ h4
    simp only [insertionPoint]
    omega
  | succ fuel ih =>
    intro left right h1 h2 h3 h4
    rw [insertionPoint_succ]
    by_cases hlr : left < right
    · rw [if_pos hlr]
      have hmid : left + (right - left) / 2 < work.length := by omega
      have hm := List.getElem?_eq_getElem hmid
      rw [hm]
      show lo ≤ (if cmp pivot _ < 0 then _ else _)
      by_cases hlt : cmp pivot (work[left + (right - left) / 2]) < 0
      · rw [if_pos hlt]
        apply ih _ _ (by omega) _ (by omega) (by omega)
        by_contra hc
        have := h _ _ (by omega) hm
        omega
      · rw [if_neg hlt]
        exact ih _ _ (by omega) h2 h3 (by omega)
    · rw [if_neg hlr]
      omega

theorem insertionPoint_append {α : Type} (cmp : α → α → Int) (pivot : α) (A B : List α)
    (hA : ∀ a ∈ A, 0 ≤ cmp pivot a) (hB : ∀ b ∈ B, cmp pivot b < 0) :
    insertionPoint cmp pivot (A ++ B) (A ++ B).length 0 (A ++ B).length = A.length := by
  apply le_antisymm
  · apply insertionPoint_le cmp pivot (A ++ B) A.length _ _ _ _ (Nat.zero_le _)
    intro i m hi hm
    rw [List.getElem?_append_right hi] at hm
    exact hB m (List.getElem?_mem hm)
  · apply insertionPoint_ge cmp pivot (A ++ B) A.length _ _ _ _ (Nat.zero_le _)
      (by simp) (le_refl _) (by simp)
    intro i m hi hm
    rw [List.getElem?_append_left hi] at hm
    exact hA m (List.getElem?_mem hm)

theorem insertAt_append_length {α : Type} (A B : List α) (x : α) :
    insertAt (A ++ B) A.length x = A ++ x :: B := by
  simp [insertAt]

theorem insertAt_perm {α : Type} (work : List α) (k : Nat) (x : α) :
    (insertAt work k x).Perm (x :: work) := by
  unfold insertAt
  have h : (work.take k ++ x :: work.drop k).Perm (x :: (work.take k ++ work.drop k)) :=
    List.perm_middle
  rwa [List.take_append_drop] at h

theorem binaryInsertionSort_perm {α : Type} (cmp : α → α → Int) (rest : List α) :
    ∀ sorted : List α, (binaryInsertionSort cmp sorted rest).Perm (sorted ++ rest) := by
  induction rest with
  | nil => intro sorted; simp [binaryInsertionSort]
  | cons x rest ih =>
    intro sorted
    unfold binaryInsertionSort
    refine (ih _).trans ?_
    refine ((insertAt_perm sorted _ x).append_right rest).trans ?_
    exact List.perm_middle.symm

/-! ## The initial run -/

theorem runTail_chain_asc {α : Type} (cmp : α → α → Int) (rest : List α) :
    ∀ prev, List.Chain (fun p q => 0 ≤ cmp q p) prev
      (rest.take (runTail cmp false prev rest)) := by
  induction rest with
  | nil => intro prev; simp [runTail]
  | cons cur rest ih =>
    intro prev
    unfold runTail
    simp only [Bool.false_eq_true, if_false]
    split
    · simp
    · next h =>
      rw [List.take_succ_cons]
      exact List.Chain.cons (by omega) (ih cur)

theorem runTail_chain_desc {α : Type} (cmp : α → α → Int) (rest : List α) :
    ∀ prev, List.Chain (fun p q => cmp q p < 0) prev
      (rest.take (runTail cmp true prev rest)) := by
  induction rest with
  | nil => intro prev; simp [runTail]
  | cons cur rest ih =>
    intro prev
    unfold runTail
    simp only [if_true]
    split
    · simp
    · next h =>
      rw [List.take_succ_cons]
      exact List.Chain.cons (by omega) (ih cur)

theorem chain_pairwise_of_trans {α : Type} {R : α → α → Prop} (l : List α) :
    ∀ a, List.Chain R a l →
      (∀ x ∈ a :: l, ∀ y ∈ a :: l, ∀ z ∈ a :: l, R x y → R y z → R x z) →
      List.Pairwise R (a :: l) := by
  induction l with
  | nil => intro a _ _; simp
  | cons b l ih =>
    intro a hc htr
    rw [List.chain_cons] at hc
    have hbl : List.Pairwise R (b :: l) :=
      ih b hc.2 (fun x hx y hy z hz =>
        htr x (List.mem_cons_of_mem _ hx) y (List.mem_cons_of_mem _ hy) z
          (List.mem_cons_of_mem _ hz))
    rw [List.pairwise_cons]
    refine ⟨?_, hbl⟩
    intro y hy
    rcases List.mem_cons.mp hy with rfl | hyl
    · exact hc.1
    · exact htr a (List.mem_cons_self _ _) b (by simp) y (by simp [hyl]) hc.1
        ((List.pairwise_cons.mp hbl).1 y hyl)

/-- The shape of the result of `countAndMakeRun`: a prefix of the list, or its
reversal, and the elements after it. -/
theorem countAndMakeRun_shape {α : Type} (cmp : α → α → Int) (a b : α) (rest : List α) :
    countAndMakeRun cmp (a :: b :: rest)
      = (if cmp b a < 0 then
           (a :: b :: rest.take (runTail cmp true b rest)).reverse
         else a :: b :: rest.take (runTail cmp false b rest),
         if cmp b a < 0 then rest.drop (runTail cmp true b rest)
         else rest.drop (runTail cmp false b rest)) := by
  unfold countAndMakeRun
  by_cases h : cmp b a < 0 <;> simp [h]

theorem countAndMakeRun_perm {α : Type} (cmp : α → α → Int) (xs : List α) :
    ((countAndMakeRun cmp xs).1 ++ (countAndMakeRun cmp xs).2).Perm xs := by
  match xs with
  | [] => simp [countAndMakeRun]
  | [a] => simp [countAndMakeRun]
  | a :: b :: rest =>
    rw [countAndMakeRun_shape]
    by_cases h : cmp b a < 0
    · simp only [h, if_true]
      refine ((List.reverse_perm _).append_right _).trans ?_
      simp
    · simp only [h, if_false]
      simp

theorem arraySort_perm {α : Type} (comparefn : α → α → Option Int) (xs : List α) :
    (arraySort comparefn xs).Perm xs := by
  unfold arraySort
  exact (binaryInsertionSort_perm _ _ _).trans (countAndMakeRun_perm _ xs)

/-! ## Two classes that the comparator keeps apart

`lo` marks a class of elements that the comparator places before every element
outside the class; nothing is assumed about the comparator inside a class. -/

theorem pairwise_insertAt {α : Type} {R : α → α → Prop} (work : List α) (k : Nat) (x : α)
    (hw : work.Pairwise R) (hbefore : ∀ a ∈ work.take k, R a x)
    (hafter : ∀ b ∈ work.drop k, R x b) : (insertAt work k x).Pairwise R := by
  unfold insertAt
  have hw2 : (work.take k ++ work.drop k).Pairwise R := by
    rw [List.take_append_drop]; exact hw
  rw [List.pairwise_append] at hw2 ⊢
  refine ⟨hw2.1, List.pairwise_cons.mpr ⟨hafter, hw2.2.1⟩, ?_⟩
  intro a ha b hb
  rcases List.mem_cons.mp hb with rfl | hb
  · exact hbefore a ha
  · exact hw2.2.2 a ha b hb

theorem dropWhile_all_false {α : Type} (lo : α → Bool) (l : List α)
    (h : l.Pairwise (fun a b => lo b = true → lo a = true)) :
    ∀ b ∈ l.dropWhile lo, lo b = false := by
  induction l with
  | nil => simp
  | cons a l ih =>
    rw [List.pairwise_cons] at h
    by_cases ha : lo a = true
    · rw [List.dropWhile_cons_of_pos ha]
      exact ih h.2
    · rw [List.dropWhile_cons_of_neg ha]
      intro b hb
      rcases List.mem_cons.mp hb with rfl | hb
      · simpa using ha
      · by_contra hc
        exact ha (h.1 b hb (by simpa using hc))

theorem insert_separated {α : Type} (cmp : α → α → Int) (lo : α → Bool)
    (h1 : ∀ a b, lo a = true → lo b = false → cmp a b < 0)
    (h2 : ∀ a b, lo a = false → lo b = true → 0 < cmp a b)
    (work : List α) (x : α) (hw : work.Pairwise (fun a b => lo b = true → lo a = true)) :
    (insertAt work (insertionPoint cmp x work work.length 0 work.length) x).Pairwise
      (fun a b => lo b = true → lo a = true) := by
  have hsplit : work.takeWhile lo ++ work.dropWhile lo = work := List.takeWhile_append_dropWhile _ _
  have hA : ∀ a ∈ work.takeWhile lo, lo a = true := fun a ha => (List.mem_takeWhile_imp ha)
  have hB := dropWhile_all_false lo work hw
  apply pairwise_insertAt _ _ _ hw
  · intro a ha hx
    have hp : insertionPoint cmp x work work.length 0 work.length
        ≤ (work.takeWhile lo).length := by
      apply insertionPoint_le cmp x work _ _ _ _ _ (Nat.zero_le _)
      intro i m hi hm
      rw [← hsplit, List.getElem?_append_right hi] at hm
      exact h1 x m hx (hB m (List.getElem?_mem hm))
    have ha2 : a ∈ (work.takeWhile lo ++ work.dropWhile lo).take
        (insertionPoint cmp x work work.length 0 work.length) := by
      rw [hsplit]; exact ha
    rw [List.take_append_of_le_length hp] at ha2
    exact hA a (List.mem_of_mem_take ha2)
  · intro b hb hlb
    by_contra hx
    have hx : lo x = false := by simpa using hx
    have hp : (work.takeWhile lo).length
        ≤ insertionPoint cmp x work work.length 0 work.length := by
      apply insertionPoint_ge cmp x work _ _ _ _ _ (Nat.zero_le _) _ (le_refl _) (by simp)
      · intro i m hi hm
        rw [← hsplit, List.getElem?_append_left hi] at hm
        exact le_of_lt (h2 x m hx (hA m (List.getElem?_mem hm)))
      · exact (List.takeWhile_sublist lo).length_le
    have hb2 : b ∈ (work.takeWhile lo ++ work.dropWhile lo).drop
        (insertionPoint cmp x work work.length 0 work.length) := by
      rw [hsplit]; exact hb
    rw [List.drop_append_eq_append_drop, List.drop_eq_nil_of_le hp, List.nil_append] at hb2
    have := hB b (List.mem_of_mem_drop hb2)
    simp [this] at hlb

theorem binaryInsertionSort_separated {α : Type} (cmp : α → α → Int) (lo : α → Bool)
    (h1 : ∀ a b, lo a = true → lo b = false → cmp a b < 0)
    (h2 : ∀ a b, lo a = false → lo b = true → 0 < cmp a b) (rest : List α) :
    ∀ sorted : List α, sorted.Pairwise (fun a b => lo b = true → lo a = true) →
      (binaryInsertionSort cmp sorted rest).Pairwise (fun a b => lo b = true → lo a = true) := by
  induction rest with
  | nil => intro sorted hs; simpa [binaryInsertionSort] using hs
  | cons x rest ih =>
    intro sorted hs
    unfold binaryInsertionSort
    exact ih _ (insert_separated cmp lo h1 h2 sorted x hs)

theorem countAndMakeRun_separated {α : Type} (cmp : α → α → Int) (lo : α → Bool)
    (h1 : ∀ a b, lo a = true → lo b = false → cmp a b < 0)
    (h2 : ∀ a b, lo a = false → lo b = true → 0 < cmp a b) (xs : List α) :
    (countAndMakeRun cmp xs).1.Pairwise (fun a b => lo b = true → lo a = true) := by
  match xs with
  | [] => simp [countAndMakeRun]
  | [a] => simp [countAndMakeRun]
  | a :: b :: rest =>
    rw [countAndMakeRun_shape]
    by_cases h : cmp b a < 0
    · simp only [h, if_true]
      rw [List.pairwise_reverse]
      apply chain_pairwise_of_trans
      · refine List.Chain.cons ?_ ?_
        · intro ha
          by_contra hb
          have := h2 b a (by simpa using hb) ha
          omega
        · refine (runTail_chain_desc cmp rest b).imp ?_
          intro p q hpq hp
          by_contra hq
          have := h2 q p (by simpa using hq) hp
          omega
      · intro x _ y _ z _ hxy hyz hx
        exact hyz (hxy hx)
    · simp only [h, if_false]
      apply chain_pairwise_of_trans
      · refine List.Chain.cons ?_ ?_
        · intro hb
          by_contra ha
          have := h1 b a hb (by simpa using ha)
          omega
        · refine (runTail_chain_asc cmp rest b).imp ?_
          intro p q hpq hq
          by_contra hp
          have := h1 q p hq (by simpa using hp)
          omega
      · intro x _ y _ z _ hxy hyz hz
        exact hxy (hyz hz)

theorem arraySort_separated {α : Type} (comparefn : α → α → Option Int) (lo : α → Bool)
    (h1 : ∀ a b, lo a = true → lo b = false → sortOrder (comparefn a b) < 0)
    (h2 : ∀ a b, lo a = false → lo b = true → 0 < sortOrder (comparefn a b)) (xs : List α) :
    (arraySort comparefn xs).Pairwise (fun a b => lo b = true → lo a = true) := by
  unfold arraySort
  exact binaryInsertionSort_separated _ lo h1 h2 _ _
    (countAndMakeRun_separated _ lo h1 h2 xs)

/-! ## Sorting with a consistent comparator -/

theorem ConsistentOn.flip_le {α : Type} {cmp : α → α → Int} {S : List α}
    (hc : ConsistentOn cmp S) {a b : α} (ha : a ∈ S) (hb : b ∈ S) (h : 0 ≤ cmp a b) :
    cmp b a ≤ 0 := by
  by_contra hn
  have := (hc.1 a ha b hb).mpr (by omega)
  omega

theorem ConsistentOn.flip_ge {α : Type} {cmp : α → α → Int} {S : List α}
    (hc : ConsistentOn cmp S) {a b : α} (ha : a ∈ S) (hb : b ∈ S) (h : cmp a b ≤ 0) :
    0 ≤ cmp b a := by
  by_contra hn
  have := (hc.1 b hb a ha).mp (by omega)
  omega

theorem ConsistentOn.lt_of_lt_of_le {α : Type} {cmp : α → α → Int} {S : List α}
    (hc : ConsistentOn cmp S) {a b c : α} (ha : a ∈ S) (hb : b ∈ S) (hcm : c ∈ S)
    (h1 : cmp a b < 0) (h2 : cmp b c ≤ 0) : cmp a c < 0 := by
  by_contra hn
  have h3 : cmp c a ≤ 0 := hc.flip_le ha hcm (by omega)
  have h4 : cmp b a ≤ 0 := hc.2 b hb c hcm a ha h2 h3
  have := (hc.1 a ha b hb).mp h1
  omega

theorem ConsistentOn.lt_of_le_of_lt {α : Type} {cmp : α → α → Int} {S : List α}
    (hc : ConsistentOn cmp S) {a b c : α} (ha : a ∈ S) (hb : b ∈ S) (hcm : c ∈ S)
    (h1 : cmp a b ≤ 0) (h2 : cmp b c < 0) : cmp a c < 0 := by
  by_contra hn
  have h3 : cmp c a ≤ 0 := hc.flip_le ha hcm (by omega)
  have h4 : cmp c b ≤ 0 := hc.2 c hcm a ha b hb h3 h1
  have := (hc.1 b hb c hcm).mp h2
  omega

theorem ConsistentOn.tie_symm {α : Type} {cmp : α → α → Int} {S : List α}
    (hc : ConsistentOn cmp S) {a b : α} (ha : a ∈ S) (hb : b ∈ S) (h : cmp a b = 0) :
    cmp b a = 0 := by
  have h1 := hc.flip_le ha hb (by omega)
  have h2 := hc.flip_ge ha hb (by omega)
  omega

theorem ConsistentOn.tie_trans {α : Type} {cmp : α → α → Int} {S : List α}
    (hc : ConsistentOn cmp S) {a b c : α} (ha : a ∈ S) (hb : b ∈ S) (hcm : c ∈ S)
    (h1 : cmp a b = 0) (h2 : cmp b c = 0) : cmp a c = 0 := by
  have h3 := hc.2 a ha b hb c hcm (by omega) (by omega)
  have h4 := hc.2 c hcm b hb a ha (by have := hc.tie_symm hb hcm h2; omega)
    (by have := hc.tie_symm ha hb h1; omega)
  have := hc.flip_ge hcm ha h4
  omega

theorem ConsistentOn.refl {α : Type} {cmp : α → α → Int} {S : List α}
    (hc : ConsistentOn cmp S) {a : α} (ha : a ∈ S) : cmp a a = 0 := by
  have := hc.1 a ha a ha
  omega

theorem ConsistentOn.subset {α : Type} {cmp : α → α → Int} {S T : List α}
    (hc : ConsistentOn cmp S) (h : ∀ a ∈ T, a ∈ S) : ConsistentOn cmp T :=
  ⟨fun a ha b hb => hc.1 a (h a ha) b (h b hb),
   fun a ha b hb c hcm => hc.2 a (h a ha) b (h b hb) c (h c hcm)⟩

theorem ConsistentOn.neg {α : Type} {cmp cmp' : α → α → Int} {S : List α}
    (hc : ConsistentOn cmp S) (hneg : ∀ a b, cmp' a b = -cmp a b) : ConsistentOn cmp' S := by
  constructor
  · intro a ha b hb
    rw [hneg a b, hneg b a]
    have h1 := hc.1 b hb a ha
    constructor <;> intro h <;> omega
  · intro a ha b hb c hcm h1 h2
    rw [hneg] at h1 h2 ⊢
    have h3 : cmp b a ≤ 0 := hc.flip_le ha hb (by omega)
    have h4 : cmp c b ≤ 0 := hc.flip_le hb hcm (by omega)
    have h5 : cmp c a ≤ 0 := hc.2 c hcm b hb a ha h4 h3
    have := hc.flip_ge hcm ha h5
    omega

theorem consistentOn_of_key {α β : Type} [LinearOrder β] {cmp : α → α → Int} {S : List α}
    (key : α → β)
    (h : ∀ a ∈ S, ∀ b ∈ S, (cmp a b < 0 ↔ key a < key b) ∧ (0 < cmp a b ↔ key b < key a)) :
    ConsistentOn cmp S := by
  constructor
  · intro a ha b hb
    rw [(h a ha b hb).1, (h b hb a ha).2]
  · intro a ha b hb c hcm h1 h2
    have e1 : key a ≤ key b := not_lt.mp (fun hlt => by
      have := (h a ha b hb).2.mpr hlt; omega)
    have e2 : key b ≤ key c := not_lt.mp (fun hlt => by
      have := (h b hb c hcm).2.mpr hlt; omega)
    by_contra hn
    have := (h a ha c hcm).2.mp (by omega)
    exact absurd (le_trans e1 e2) (not_le.mpr this)

theorem dropWhile_all_greater {α : Type} {cmp : α → α → Int} {S : List α}
    (hc : ConsistentOn cmp S) (x : α) (hx : x ∈ S) (work : List α)
    (hsub : ∀ m ∈ work, m ∈ S) (hw : work.Pairwise (fun a b => cmp a b ≤ 0)) :
    ∀ b ∈ work.dropWhile (fun m => decide (0 ≤ cmp x m)), cmp x b < 0 := by
  induction work with
  | nil => simp
  | cons a l ih =>
    rw [List.pairwise_cons] at hw
    by_cases ha : 0 ≤ cmp x a
    · rw [List.dropWhile_cons_of_pos (by simpa using ha)]
      exact ih (fun m hm => hsub m (List.mem_cons_of_mem _ hm)) hw.2
    · rw [List.dropWhile_cons_of_neg (by simpa using ha)]
      intro b hb
      rcases List.mem_cons.mp hb with rfl | hb
      · omega
      · exact hc.lt_of_lt_of_le hx (hsub a (List.mem_cons_self _ _))
          (hsub b (List.mem_cons_of_mem _ hb)) (by omega) (hw.1 b hb)

/-- With a consistent comparator the binary search finds the place after the
last element that is not greater than the pivot. -/
theorem insert_consistent {α : Type} {cmp : α → α → Int} {S : List α}
    (hc : ConsistentOn cmp S) (x : α) (hx : x ∈ S) (work : List α)
    (hsub : ∀ m ∈ work, m ∈ S) (hw : work.Pairwise (fun a b => cmp a b ≤ 0)) :
    ∃ A B, work = A ++ B
      ∧ insertAt work (insertionPoint cmp x work work.length 0 work.length) x = A ++ x :: B
      ∧ (∀ a ∈ A, 0 ≤ cmp x a) ∧ (∀ b ∈ B, cmp x b < 0) := by
  have hsplit : work.takeWhile (fun m => decide (0 ≤ cmp x m))
      ++ work.dropWhile (fun m => decide (0 ≤ cmp x m)) = work :=
    List.takeWhile_append_dropWhile _ _
  have hA : ∀ a ∈ work.takeWhile (fun m => decide (0 ≤ cmp x m)), 0 ≤ cmp x a :=
    fun a ha => by simpa using List.mem_takeWhile_imp ha
  have hB := dropWhile_all_greater hc x hx work hsub hw
  generalize work.takeWhile (fun m => decide (0 ≤ cmp x m)) = A at hsplit hA
  generalize work.dropWhile (fun m => decide (0 ≤ cmp x m)) = B at hsplit hB
  subst hsplit
  refine ⟨A, B, rfl, ?_, hA, hB⟩
  rw [insertionPoint_append cmp x A B hA hB, insertAt_append_length]

theorem binaryInsertionSort_consistent {α : Type} {cmp : α → α → Int} {S : List α}
    (hc : ConsistentOn cmp S) (rest : List α) :
    ∀ sorted : List α, (∀ m ∈ sorted, m ∈ S) → (∀ m ∈ rest, m ∈ S) →
      sorted.Pairwise (fun a b => cmp a b ≤ 0) →
      (binaryInsertionSort cmp sorted rest).Pairwise (fun a b => cmp a b ≤ 0)
        ∧ ∀ r ∈ S, (binaryInsertionSort cmp sorted rest).filter (fun m => decide (cmp r m = 0))
            = (sorted ++ rest).filter (fun m => decide (cmp r m = 0)) := by
  induction rest with
  | nil => intro sorted _ _ hs; simpa [binaryInsertionSort] using hs
  | cons x rest ih =>
    intro sorted hsub hrest hs
    have hx : x ∈ S := hrest x (List.mem_cons_self _ _)
    obtain ⟨A, B, hAB, hins, hA, hB⟩ := insert_consistent hc x hx sorted hsub hs
    have hAS : ∀ m ∈ A, m ∈ S := fun m hm => hsub m (by rw [hAB]; simp [hm])
    have hBS : ∀ m ∈ B, m ∈ S := fun m hm => hsub m (by rw [hAB]; simp [hm])
    have hs2 : (A ++ B).Pairwise (fun a b => cmp a b ≤ 0) := by rw [← hAB]; exact hs
    rw [List.pairwise_append] at hs2
    unfold binaryInsertionSort
    rw [hins]
    have hsorted : (A ++ x :: B).Pairwise (fun a b => cmp a b ≤ 0) := by
      rw [List.pairwise_append]
      refine ⟨hs2.1, List.pairwise_cons.mpr ⟨fun b hb => le_of_lt (hB b hb), hs2.2.1⟩, ?_⟩
      intro a ha b hb
      rcases List.mem_cons.mp hb with rfl | hb
      · exact hc.flip_le hx (hAS a ha) (hA a ha)
      · exact hs2.2.2 a ha b hb
    have hmem : ∀ m ∈ A ++ x :: B, m ∈ S := by
      intro m hm
      rcases List.mem_append.mp hm with h | h
      · exact hAS m h
      · rcases List.mem_cons.mp h with rfl | h
        · exact hx
        · exact hBS m h
    obtain ⟨ih1, ih2⟩ := ih _ hmem (fun m hm => hrest m (List.mem_cons_of_mem _ hm)) hsorted
    refine ⟨ih1, ?_⟩
    intro r hr
    rw [ih2 r hr, hAB]
    simp only [List.filter_append, List.filter_cons, List.append_assoc]
    by_cases hrx : cmp r x = 0
    · have hBnil : B.filter (fun m => decide (cmp r m = 0)) = [] := by
        rw [List.filter_eq_nil_iff]
        intro b hb
        have h1 : cmp r b < 0 :=
          hc.lt_of_le_of_lt hr hx (hBS b hb) (by omega) (hB b hb)
        simp; omega
      simp [hrx, hBnil]
    · simp [hrx]

theorem filter_reverse_of_strict {α : Type} {cmp : α → α → Int} {S : List α}
    (hc : ConsistentOn cmp S) (r : α) (hr : r ∈ S) (l : List α) (hsub : ∀ m ∈ l, m ∈ S)
    (hl : l.Pairwise (fun p q => cmp q p < 0)) :
    l.reverse.filter (fun m => decide (cmp r m = 0))
      = l.filter (fun m => decide (cmp r m = 0)) := by
  rw [List.filter_reverse]
  have hp : (l.filter (fun m => decide (cmp r m = 0))).Pairwise (fun p q => cmp q p < 0) :=
    hl.sublist (List.filter_sublist _)
  have hall : ∀ m ∈ l.filter (fun m => decide (cmp r m = 0)), m ∈ S ∧ cmp r m = 0 := by
    intro m hm
    rw [List.mem_filter] at hm
    exact ⟨hsub m hm.1, by simpa using hm.2⟩
  generalize l.filter (fun m => decide (cmp r m = 0)) = f at hp hall
  match f, hp, hall with
  | [], _, _ => rfl
  | [_], _, _ => rfl
  | a :: b :: t, hp, hall =>
    exfalso
    have ha := hall a (by simp)
    have hb := hall b (by simp)
    have h1 : cmp b a < 0 := (List.pairwise_cons.mp hp).1 b (by simp)
    have h2 : cmp b r = 0 := hc.tie_symm hr hb.1 hb.2
    have h3 := hc.tie_trans hb.1 hr ha.1 h2 ha.2
    omega

theorem countAndMakeRun_consistent {α : Type} {cmp : α → α → Int} {S : List α}
    (hc : ConsistentOn cmp S) (xs : List α) (hsub : ∀ m ∈ xs, m ∈ S) :
    (countAndMakeRun cmp xs).1.Pairwise (fun a b => cmp a b ≤ 0)
      ∧ ∀ r ∈ S, ((countAndMakeRun cmp xs).1 ++ (countAndMakeRun cmp xs).2).filter
            (fun m => decide (cmp r m = 0))
          = xs.filter (fun m => decide (cmp r m = 0)) := by
  match xs, hsub with
  | [], _ => simp [countAndMakeRun]
  | [a], _ => simp [countAndMakeRun]
  | a :: b :: rest, hsub =>
    rw [countAndMakeRun_shape]
    have hrun : ∀ n, ∀ m ∈ a :: b :: rest.take n, m ∈ S := by
      intro n m hm
      apply hsub
      rcases List.mem_cons.mp hm with rfl | hm
      · simp
      · rcases List.mem_cons.mp hm with rfl | hm
        · simp
        · simp [List.mem_of_mem_take hm]
    by_cases h : cmp b a < 0
    · simp only [h, if_true]
      have hp : (a :: b :: rest.take (runTail cmp true b rest)).Pairwise
          (fun p q => cmp q p < 0) := by
        apply chain_pairwise_of_trans
        · exact List.Chain.cons h (runTail_chain_desc cmp rest b)
        · intro x hx y hy z hz hxy hyz
          exact hc.lt_of_lt_of_le (hrun _ z hz) (hrun _ y hy) (hrun _ x hx) hyz (le_of_lt hxy)
      constructor
      · rw [List.pairwise_reverse]
        exact hp.imp (fun hqp => le_of_lt hqp)
      · intro r hr
        rw [List.filter_append, filter_reverse_of_strict hc r hr _ (hrun _) hp,
          ← List.filter_append]
        simp
    · simp only [h, if_false]
      constructor
      · have hp : (a :: b :: rest.take (runTail cmp false b rest)).Pairwise
            (fun p q => 0 ≤ cmp q p) := by
          apply chain_pairwise_of_trans
          · exact List.Chain.cons (by omega) (runTail_chain_asc cmp rest b)
          · intro x hx y hy z hz hxy hyz
            have h1 := hc.flip_le (hrun _ y hy) (hrun _ x hx) hxy
            have h2 := hc.flip_le (hrun _ z hz) (hrun _ y hy) hyz
            exact hc.flip_ge (hrun _ x hx) (hrun _ z hz)
              (hc.2 x (hrun _ x hx) y (hrun _ y hy) z (hrun _ z hz) h1 h2)
        exact hp.imp_of_mem (fun hx hy hxy => hc.flip_le (hrun _ _ hy) (hrun _ _ hx) hxy)
      · intro r _
        simp

theorem arraySort_consistent {α : Type} (comparefn : α → α → Option Int) (xs : List α)
    (hc : ConsistentOn (fun a b => sortOrder (comparefn a b)) xs) :
    (arraySort comparefn xs).Pairwise (fun a b => sortOrder (comparefn a b) ≤ 0)
      ∧ ∀ r ∈ xs, (arraySort comparefn xs).filter
            (fun m => decide (sortOrder (comparefn r m) = 0))
          = xs.filter (fun m => decide (sortOrder (comparefn r m) = 0)) := by
  have hperm := countAndMakeRun_perm (fun a b => sortOrder (comparefn a b)) xs
  have hrun := countAndMakeRun_consistent hc xs (fun m hm => hm)
  have hsort := binaryInsertionSort_consistent hc
    (countAndMakeRun (fun a b => sortOrder (comparefn a b)) xs).2
    (countAndMakeRun (fun a b => sortOrder (comparefn a b)) xs).1
    (fun m hm => hperm.subset (List.mem_append_left _ hm))
    (fun m hm => hperm.subset (List.mem_append_right _ hm)) hrun.1
  unfold arraySort
  refine ⟨hsort.1, ?_⟩
  intro r hr
  exact (hsort.2 r hr).trans (hrun.2 r hr)

end Js

namespace FileDataProvider

open Js

/-! ## Filtering -/

theorem filterData_of_trim_ne (R : List Record) (t : String) (F : Option (List String))
    (ht : trim t ≠ "") :
    filterData R (some t) F = R.filter (matchesItem (trim (toLowerCase t)) (F.getD [])) := by
  have h1 : t ≠ "" := by
    intro h; apply ht; rw [h]; rfl
  simp [filterData, h1, ht]

theorem filterData_of_trim_eq (R : List Record) (t : String) (F : Option (List String))
    (ht : trim t = "") : filterData R (some t) F = R := by
  simp [filterData, ht]

theorem includes_empty_left (term : String) (h : term ≠ "") : includes "" term = false := by
  unfold includes
  show includesChars [] term.data = false
  unfold includesChars
  rw [Bool.eq_false_iff]
  intro hs
  rw [startsWithChars_nil_right] at hs
  apply h
  cases term
  simp_all

/-- C2, as amended: take records with distinct keys whose strings are ASCII and
whose numbers are safe integers, an ASCII search term that is not blank, and
`searchableFields` that name no member of `Object.prototype`.  Then `filterData`
keeps a record if and only if at least one candidate field (the
`searchableFields` when that list is not empty, otherwise every field of the
record whose value is a string) holds a truthy value (not `null`, `undefined`,
`false`, `0` or the empty string) whose string form, lower-cased, contains the
trimmed lower-cased term; the HTTP provider filters the same way; and when every
candidate field of the record holds a string, the truthiness condition can be
left out. -/
theorem C2_filterData_keeps_iff (R : List Record) (t : String) (F : Option (List String))
    (r : Record) (ht : trim t ≠ "") (_hR : ∀ x ∈ R, x.isPlain = true)
    (_ht : isAscii t = true) (_hF : ∀ field ∈ F.getD [], field ∉ inheritedKeys) :
    let term := trim (toLowerCase t)
    let candidates :=
      if (F.getD []).length > 0 then F.getD []
      else r.keys.filter (fun key => typeof (r.get key) == TypeTag.string)
    (r ∈ filterData R (some t) F ↔
        r ∈ R ∧ ∃ field ∈ candidates,
          truthy (r.get field) = true ∧
            includes (toLowerCase (toStr (r.get field))) term = true)
      ∧ HttpDataProvider.filterData R (some t) F = filterData R (some t) F
      ∧ ((∀ field ∈ candidates, ∃ s, r.get field = Value.str s) →
          (r ∈ filterData R (some t) F ↔
            r ∈ R ∧ ∃ field ∈ candidates,
              includes (toLowerCase (toStr (r.get field))) term = true)) := by
  intro term candidates
  have hterm : term ≠ "" := by
    intro h
    exact ht ((trim_toLowerCase_eq_empty_iff t).mp h)
  have hmain : r ∈ filterData R (some t) F ↔
        r ∈ R ∧ ∃ field ∈ candidates,
          truthy (r.get field) = true ∧
            includes (toLowerCase (toStr (r.get field))) term = true := by
    rw [filterData_of_trim_ne R t F ht, List.mem_filter]
    simp only [matchesItem, List.any_eq_true, Bool.and_eq_true]
  refine ⟨hmain, rfl, ?_⟩
  intro hstr
  rw [hmain]
  constructor
  · rintro ⟨hr, f, hf, _, hinc⟩
    exact ⟨hr, f, hf, hinc⟩
  · rintro ⟨hr, f, hf, hinc⟩
    refine ⟨hr, f, hf, ?_, hinc⟩
    obtain ⟨s, hs⟩ := hstr f hf
    rw [hs] at hinc ⊢
    by_cases he : s = ""
    · subst he
      have : includes (toLowerCase (toStr (Value.str ""))) term = false :=
        includes_empty_left term hterm
      rw [this] at hinc
      exact absurd hinc (by simp)
    · simp [truthy, he]

theorem C2_filterData_keeps_iff_witness :
    ([("name", Value.str "Patrick Parker"), ("logins", Value.num 0)] ∈
        filterData [[("name", .str "Patrick Parker"), ("logins", .num 0)]] (some " PARK") none ↔
      [("name", Value.str "Patrick Parker"), ("logins", Value.num 0)] ∈
          [[("name", Value.str "Patrick Parker"), ("logins", Value.num 0)]] ∧
        ∃ field ∈ ["name"],
          truthy (Record.get [("name", .str "Patrick Parker"), ("logins", .num 0)] field) = true ∧
            includes (toLowerCase (toStr
              (Record.get [("name", .str "Patrick Parker"), ("logins", .num 0)] field)))
              "park" = true) :=
  (C2_filterData_keeps_iff [[("name", .str "Patrick Parker"), ("logins", .num 0)]] " PARK" none
    [("name", .str "Patrick Parker"), ("logins", .num 0)] (by decide) (by decide) (by decide)
    (by decide)).1

/-- C2, as stated, fails at the record `{logins: 0}` with the search term `"0"`
and `searchableFields = ["logins"]`: the string form `"0"` of the field contains
the term, and the record is dropped. -/
theorem C2_counterexample :
    ¬ (([("logins", Value.num 0)] : Record) ∈
          filterData [[("logins", .num 0)]] (some "0") (some ["logins"]) ↔
        ([("logins", Value.num 0)] : Record) ∈ [[("logins", Value.num 0)]] ∧
          ∃ field ∈ ["logins"],
            includes (toLowerCase (toStr (Record.get [("logins", .num 0)] field)))
              (trim (toLowerCase "0")) = true) := by
  decide

/-- C3: `filterData` returns `R` itself when the search term is missing, and when
every character of the term is white space (the empty term included). -/
theorem C3_filterData_blank (R : List Record) (F : Option (List String)) (t : String)
    (h : ∀ c ∈ t.data, isWhiteSpace c = true) :
    filterData R (some t) F = R ∧ filterData R none F = R
      ∧ filterData R (some "") F = R := by
  refine ⟨?_, rfl, rfl⟩
  apply filterData_of_trim_eq
  unfold trim
  rw [trimChars_eq_nil_of_all _ h]

theorem C3_filterData_blank_witness :
    filterData [[("name", .str "Patrick Parker")], [("name", .str "Ann")]] (some " \t  ")
        (some ["name"])
      = [[("name", .str "Patrick Parker")], [("name", .str "Ann")]] :=
  (C3_filterData_blank [[("name", .str "Patrick Parker")], [("name", .str "Ann")]]
    (some ["name"]) " \t  " (by decide)).1

/-- C4: two search terms with the same lower-cased, trimmed form filter every
list alike; and a record whose field is `"Patrick Parker"` is kept for the terms
`"patrick"`, `"PARKER"` and `"ck pa"`, the last of which lies across two words. -/
theorem C4_filterData_term_normalised (R : List Record) (F : Option (List String))
    (t t' : String) (h : trim (toLowerCase t) = trim (toLowerCase t')) :
    filterData R (some t) F = filterData R (some t') F
      ∧ filterData [[("name", .str "Patrick Parker")]] (some "patrick") none
          = [[("name", .str "Patrick Parker")]]
      ∧ filterData [[("name", .str "Patrick Parker")]] (some "PARKER") none
          = [[("name", .str "Patrick Parker")]]
      ∧ filterData [[("name", .str "Patrick Parker")]] (some "ck pa") none
          = [[("name", .str "Patrick Parker")]] := by
  refine ⟨?_, by decide, by decide, by decide⟩
  by_cases ht : trim t = ""
  · have ht' : trim t' = "" := by
      rw [← trim_toLowerCase_eq_empty_iff, ← h, trim_toLowerCase_eq_empty_iff]
      exact ht
    rw [filterData_of_trim_eq R t F ht, filterData_of_trim_eq R t' F ht']
  · have ht' : trim t' ≠ "" := by
      rw [Ne, ← trim_toLowerCase_eq_empty_iff, ← h, trim_toLowerCase_eq_empty_iff]
      exact ht
    rw [filterData_of_trim_ne R t F ht, filterData_of_trim_ne R t' F ht', h]

theorem C4_filterData_term_normalised_witness :
    filterData [[("name", .str "Patrick Parker")], [("name", .str "Ann")]] (some "  ParKer")
        none
      = filterData [[("name", .str "Patrick Parker")], [("name", .str "Ann")]]
          (some "PARKER ") none :=
  (C4_filterData_term_normalised [[("name", .str "Patrick Parker")], [("name", .str "Ann")]]
    none "  ParKer" "PARKER " (by decide)).1

/-! ## Sorting -/

theorem sortData_of_field (rt : Runtime) (data : List Record) (field : String)
    (dir : Option String) (hf : field ≠ "") :
    sortData rt data (some field) dir
      = arraySort (compareRecords rt field (dir.getD "asc")) data := by
  simp [sortData, hf]

theorem sortData_perm (rt : Runtime) (data : List Record) (field dir : Option String) :
    (sortData rt data field dir).Perm data := by
  cases field with
  | none => exact List.Perm.refl _
  | some f =>
    by_cases hf : f = ""
    · simp [sortData, hf]
    · rw [sortData_of_field rt data f dir hf]
      exact arraySort_perm _ _

theorem sortOrder_directed_desc (c : Option Int) :
    sortOrder (directed "desc" c) = -sortOrder (directed "asc" c) := by
  cases c <;> simp [directed, sortOrder]

/-- The comparator for `"desc"` is the negation of the comparator for `"asc"`. -/
theorem compareRecords_desc (rt : Runtime) (field : String) (a b : Record) :
    sortOrder (compareRecords rt field "desc" a b)
      = -sortOrder (compareRecords rt field "asc" a b) := by
  unfold compareRecords compareValues
  by_cases h1 : looseEqNull (a.get field) = true
  · by_cases h2 : looseEqNull (b.get field) = true <;> simp [h1, h2, sortOrder]
  · by_cases h2 : looseEqNull (b.get field) = true
    · simp [h1, h2, sortOrder]
    · simp only [h1, h2, Bool.false_and, Bool.false_eq_true, if_false]
      split
      · split <;> exact sortOrder_directed_desc _
      · exact sortOrder_directed_desc _
      · exact sortOrder_directed_desc _

theorem consistentOn_desc (rt : Runtime) (field : String) (R : List Record)
    (hc : ConsistentOn (fun a b => sortOrder (compareRecords rt field "asc" a b)) R) :
    ConsistentOn (fun a b => sortOrder (compareRecords rt field "desc" a b)) R :=
  hc.neg (fun a b => compareRecords_desc rt field a b)

theorem compareRecords_of_ne_asc (rt : Runtime) (field dir : String) (hd : dir ≠ "asc")
    (a b : Record) :
    sortOrder (compareRecords rt field dir a b)
      = sortOrder (compareRecords rt field "desc" a b) := by
  have hdir : ∀ c, directed dir c = directed "desc" c := by
    intro c; simp [directed, hd]
  have h1 : (dir == "asc") = false := by simpa using hd
  have h2 : (("desc" : String) == "asc") = false := by decide
  unfold compareRecords compareValues
  simp only [hdir, h1, h2]

/-- The comparator of `sortData` is consistent on a list whose values of the sort
field are numbers, `null` or missing. -/
theorem consistentOn_of_numeric (rt : Runtime) (field dir : String) (R : List Record)
    (h : ∀ r ∈ R, looseEqNull (r.get field) = true ∨ ∃ n, r.get field = Value.num n) :
    ConsistentOn (fun a b => sortOrder (compareRecords rt field dir a b)) R := by
  have hasc : ConsistentOn (fun a b => sortOrder (compareRecords rt field "asc" a b)) R := by
    apply consistentOn_of_key
      (fun r : Record => match r.get field with
        | Value.num n => ((n : Int) : WithBot Int)
        | _ => ⊥)
    intro a ha b hb
    have hnum : ∀ k : Int, looseEqNull (Value.num k) = false := fun _ => rfl
    have hkey : ∀ r : Record, looseEqNull (r.get field) = true →
        (match r.get field with
          | Value.num n => ((n : Int) : WithBot Int)
          | _ => ⊥) = ⊥ := by
      intro r hr
      cases hv : r.get field <;> simp_all [looseEqNull]
    rcases h a ha with hna | ⟨n, hn⟩ <;> rcases h b hb with hnb | ⟨m, hm⟩
    · simp [compareRecords, compareValues, hna, hnb, sortOrder, hkey]
    · have hb0 : looseEqNull (b.get field) = false := by rw [hm]; rfl
      simp [compareRecords, compareValues, hna, hb0, sortOrder, hkey]
      simp [hm]
    · have ha0 : looseEqNull (a.get field) = false := by rw [hn]; rfl
      simp [compareRecords, compareValues, hnb, ha0, sortOrder, hkey]
      simp [hn]
    · simp [compareRecords, compareValues, hn, hm, hnum, sortOrder, directed]
  by_cases hd : dir = "asc"
  · rw [hd]; exact hasc
  · exact hasc.neg (fun a b => by
      show sortOrder (compareRecords rt field dir a b) = _
      rw [compareRecords_of_ne_asc rt field dir hd, compareRecords_desc])

/-- C5, as amended: when the comparator of `sortData` is a consistent ordering of
the records of the list (as it is, for one, when every value of the field is a
number, `null` or missing), the records that tie with any given record appear in
the output in the same order as in the input; in particular two records for
which the comparator returns 0 keep their relative order.  With an empty or
missing sort field the list is returned as it is. -/
theorem C5_sortData_stable (rt : Runtime) (R : List Record) (field : String)
    (dir : Option String)
    (hc : ConsistentOn
      (fun a b => sortOrder (compareRecords rt field (dir.getD "asc") a b)) R) :
    (∀ r ∈ R,
        (sortData rt R (some field) dir).filter
            (fun m => decide (sortOrder (compareRecords rt field (dir.getD "asc") r m) = 0))
          = R.filter
            (fun m => decide (sortOrder (compareRecords rt field (dir.getD "asc") r m) = 0)))
      ∧ (∀ a b : Record, List.Sublist [a, b] R →
          sortOrder (compareRecords rt field (dir.getD "asc") a b) = 0 →
          List.Sublist [a, b] (sortData rt R (some field) dir))
      ∧ sortData rt R (some "") dir = R ∧ sortData rt R none dir = R := by
  have hfilter : ∀ r ∈ R,
        (sortData rt R (some field) dir).filter
            (fun m => decide (sortOrder (compareRecords rt field (dir.getD "asc") r m) = 0))
          = R.filter
            (fun m => decide (sortOrder (compareRecords rt field (dir.getD "asc") r m) = 0)) := by
    intro r hr
    by_cases hf : field = ""
    · simp [sortData, hf]
    · rw [sortData_of_field rt R field dir hf]
      exact (arraySort_consistent _ R hc).2 r hr
  refine ⟨hfilter, ?_, rfl, rfl⟩
  intro a b hab htie
  have ha : a ∈ R := hab.subset (by simp)
  have h1 := hab.filter
    (fun m => decide (sortOrder (compareRecords rt field (dir.getD "asc") a m) = 0))
  rw [← hfilter a ha] at h1
  have h2 : [a, b].filter
      (fun m => decide (sortOrder (compareRecords rt field (dir.getD "asc") a m) = 0))
      = [a, b] := by
    have haa : sortOrder (compareRecords rt field (dir.getD "asc") a a) = 0 := hc.refl ha
    simp [List.filter_cons, haa, htie]
  rw [h2] at h1
  exact h1.trans (List.filter_sublist _)

theorem C5_sortData_stable_witness :
    List.Sublist [[("id", Value.num 1), ("v", .num 7)], [("id", .num 3), ("v", .num 7)]]
      (sortData plainHost
        [[("id", .num 1), ("v", .num 7)], [("id", .num 2), ("v", .num 3)],
         [("id", .num 3), ("v", .num 7)]] (some "v") (some "asc")) :=
  (C5_sortData_stable plainHost
    [[("id", .num 1), ("v", .num 7)], [("id", .num 2), ("v", .num 3)],
     [("id", .num 3), ("v", .num 7)]] "v" (some "asc")
    (by unfold ConsistentOn; decide)).2.1
    [("id", .num 1), ("v", .num 7)] [("id", .num 3), ("v", .num 7)]
    (by decide) (by decide)

/-- C5, as stated, fails on the list `[{id:1, v:"5"}, {id:2, v:10}, {id:3, v:5}]`
sorted ascending by `v`: records 1 and 3 tie (the comparator returns 0 for
`"5"` and `5`) and record 1 comes first in the input, yet the output is records
3, 2, 1. -/
theorem C5_counterexample :
    sortOrder (compareRecords plainHost "v" "asc"
        [("id", .num 1), ("v", .str "5")] [("id", .num 3), ("v", .num 5)]) = 0
      ∧ sortData plainHost
          [[("id", .num 1), ("v", .str "5")], [("id", .num 2), ("v", .num 10)],
           [("id", .num 3), ("v", .num 5)]] (some "v") (some "asc")
        = [[("id", .num 3), ("v", .num 5)], [("id", .num 2), ("v", .num 10)],
           [("id", .num 1), ("v", .str "5")]] := by
  decide

/-- C6, as amended: when the ascending comparator of `sortData` is a consistent
ordering of the records of `R` and returns 0 for no two of them, sorting `R` by
the field in direction `"desc"` gives the reverse of sorting it in direction
`"asc"`. -/
theorem C6_sortData_desc_reverse (rt : Runtime) (R : List Record) (field : String)
    (hf : field ≠ "")
    (hc : ConsistentOn (fun a b => sortOrder (compareRecords rt field "asc" a b)) R)
    (hno : R.Pairwise (fun a b => sortOrder (compareRecords rt field "asc" a b) ≠ 0)) :
    sortData rt R (some field) (some "desc")
      = (sortData rt R (some field) (some "asc")).reverse := by
  have hcd := consistentOn_desc rt field R hc
  rw [sortData_of_field rt R field _ hf, sortData_of_field rt R field _ hf]
  simp only [Option.getD_some]
  have hpa := arraySort_perm (compareRecords rt field "asc") R
  have hpd := arraySort_perm (compareRecords rt field "desc") R
  have hsa := (arraySort_consistent _ R hc).1
  have hsd := (arraySort_consistent _ R hcd).1
  have hno2 : R.Pairwise (fun a b => sortOrder (compareRecords rt field "asc" a b) ≠ 0
      ∧ sortOrder (compareRecords rt field "asc" b a) ≠ 0) :=
    hno.imp_of_mem (fun ha hb hab => ⟨hab, fun h => hab (hc.tie_symm hb ha h)⟩)
  have hsym : Symmetric (fun a b : Record =>
      sortOrder (compareRecords rt field "asc" a b) ≠ 0
        ∧ sortOrder (compareRecords rt field "asc" b a) ≠ 0) := fun _ _ h => ⟨h.2, h.1⟩
  refine @List.Perm.eq_of_sorted _
    (fun a b => sortOrder (compareRecords rt field "desc" a b) ≤ 0) _ _ ?_ ?_ ?_ ?_
  · intro a b ha hb hab hba
    have haR : a ∈ R := hpd.subset ha
    have hbR : b ∈ R := hpa.subset (List.mem_reverse.mp hb)
    by_contra hne
    have h := (hno2.forall hsym haR hbR hne).2
    rw [compareRecords_desc] at hab hba
    have h3 := hc.flip_le haR hbR (by omega)
    omega
  · exact hsd
  · rw [List.pairwise_reverse]
    refine hsa.imp_of_mem (fun ha hb hab => ?_)
    rw [compareRecords_desc]
    have := hc.flip_ge (hpa.subset ha) (hpa.subset hb) hab
    omega
  · exact hpd.trans (hpa.symm.trans (List.reverse_perm _).symm)

theorem C6_sortData_desc_reverse_witness :
    sortData plainHost [[("v", .num 7)], [("v", .null)], [("v", .num 3)]] (some "v")
        (some "desc")
      = (sortData plainHost [[("v", .num 7)], [("v", .null)], [("v", .num 3)]] (some "v")
          (some "asc")).reverse :=
  C6_sortData_desc_reverse plainHost [[("v", .num 7)], [("v", .null)], [("v", .num 3)]] "v"
    (by decide) (by unfold ConsistentOn; decide) (by decide)

/-- C6, as stated, fails on the list of records with `v` equal to
`5, 9, 10, "95", "2"`: no two of them tie, and the descending sort
`"95", 10, 9, 5, "2"` is not the reverse of the ascending sort
`5, 9, 10, "2", "95"`. -/
theorem C6_counterexample :
    List.Pairwise (fun a b => sortOrder (compareRecords plainHost "v" "asc" a b) ≠ 0)
        [[("v", .num 5)], [("v", .num 9)], [("v", .num 10)], [("v", .str "95")],
         [("v", .str "2")]]
      ∧ sortData plainHost
          [[("v", .num 5)], [("v", .num 9)], [("v", .num 10)], [("v", .str "95")],
           [("v", .str "2")]] (some "v") (some "asc")
        = [[("v", .num 5)], [("v", .num 9)], [("v", .num 10)], [("v", .str "2")],
           [("v", .str "95")]]
      ∧ sortData plainHost
          [[("v", .num 5)], [("v", .num 9)], [("v", .num 10)], [("v", .str "95")],
           [("v", .str "2")]] (some "v") (some "desc")
        = [[("v", .str "95")], [("v", .num 10)], [("v", .num 9)], [("v", .num 5)],
           [("v", .str "2")]] := by
  decide

/-- C7: for a non-empty sort field, in the output of `sortData` with direction
`"asc"` (also when the direction is left out) no record with a defined value
comes before a record whose value is `null` or `undefined`, and with direction
`"desc"` no record whose value is `null` or `undefined` comes before a record
with a defined value. -/
theorem C7_sortData_nulls (rt : Runtime) (data : List Record) (field : String)
    (hf : field ≠ "") :
    (sortData rt data (some field) (some "asc")).Pairwise
        (fun a b => ¬ (looseEqNull (a.get field) = false ∧ looseEqNull (b.get field) = true))
      ∧ (sortData rt data (some field) none).Pairwise
        (fun a b => ¬ (looseEqNull (a.get field) = false ∧ looseEqNull (b.get field) = true))
      ∧ (sortData rt data (some field) (some "desc")).Pairwise
        (fun a b => ¬ (looseEqNull (a.get field) = true ∧ looseEqNull (b.get field) = false)) := by
  have hasc : (arraySort (compareRecords rt field "asc") data).Pairwise
      (fun a b => ¬ (looseEqNull (a.get field) = false ∧ looseEqNull (b.get field) = true)) := by
    have h := arraySort_separated (compareRecords rt field "asc")
      (fun r => looseEqNull (r.get field))
      (by intro a b ha hb; simp [compareRecords, compareValues, ha, hb, sortOrder])
      (by intro a b ha hb; simp [compareRecords, compareValues, ha, hb, sortOrder]) data
    refine h.imp ?_
    intro a b hab hn
    have := hab hn.2
    simp [hn.1] at this
  have hdesc : (arraySort (compareRecords rt field "desc") data).Pairwise
      (fun a b => ¬ (looseEqNull (a.get field) = true ∧ looseEqNull (b.get field) = false)) := by
    have h := arraySort_separated (compareRecords rt field "desc")
      (fun r => !looseEqNull (r.get field))
      (by intro a b ha hb
          simp only [Bool.not_eq_true', Bool.not_eq_false'] at ha hb
          simp [compareRecords, compareValues, ha, hb, sortOrder])
      (by intro a b ha hb
          simp only [Bool.not_eq_true', Bool.not_eq_false'] at ha hb
          simp [compareRecords, compareValues, ha, hb, sortOrder]) data
    refine h.imp ?_
    intro a b hab hn
    have := hab (by simp [hn.2])
    simp [hn.1] at this
  rw [sortData_of_field rt data field _ hf, sortData_of_field rt data field _ hf,
    sortData_of_field rt data field _ hf]
  exact ⟨hasc, hasc, hdesc⟩

theorem C7_sortData_nulls_witness :
    (sortData plainHost [[("v", .num 7)], [("v", .null)], [("w", .num 1)], [("v", .str "a")]]
        (some "v") (some "asc")).Pairwise
      (fun a b => ¬ (looseEqNull (a.get "v") = false ∧ looseEqNull (b.get "v") = true)) :=
  (C7_sortData_nulls plainHost
    [[("v", .num 7)], [("v", .null)], [("w", .num 1)], [("v", .str "a")]] "v" (by decide)).1

/-! ## Pagination -/

theorem paginateData_data (data : List Record) (page pageSize : Int) (hp : 0 < page)
    (hs : 0 < pageSize) :
    (paginateData data (some page) (some pageSize)).data
      = (data.drop ((page - 1) * pageSize).toNat).take pageSize.toNat := by
  have h0 : 0 ≤ (page - 1) * pageSize := Int.mul_nonneg (by omega) (by omega)
  simp only [paginateData, Option.getD_some]
  rw [slice_eq_take_drop _ _ _ h0 (by omega)]
  congr 2
  omega

theorem paginateData_eq (data : List Record) (page pageSize : Int) (hp : 0 < page)
    (hs : 0 < pageSize) :
    paginateData data (some page) (some pageSize)
        = { data := (data.drop ((page - 1) * pageSize).toNat).take pageSize.toNat
            total := data.length
            page := page
            pageSize := pageSize
            totalPages := some ⌈(data.length : ℚ) / (pageSize : ℚ)⌉ } := by
  have hd := paginateData_data data page pageSize hp hs
  have ht : (paginateData data (some page) (some pageSize)).totalPages
      = some ⌈(data.length : ℚ) / (pageSize : ℚ)⌉ := by
    simp only [paginateData, Option.getD_some]
    have := ceilDiv_eq_ceil (data.length : Int) pageSize hs
    simpa using this
  rw [← hd, ← ht]
  rfl

theorem pages_append (data : List Record) (size : Nat) (k : Nat) :
    ((List.range k).map (fun p => (data.drop (p * size)).take size)).flatten
      = data.take (k * size) := by
  induction k with
  | zero => simp
  | succ k ih =>
    rw [List.range_succ, List.map_append, List.flatten_append, ih]
    simp only [List.map_cons, List.map_nil, List.flatten_cons, List.flatten_nil, List.append_nil]
    rw [Nat.succ_mul, List.take_add]

/-- C8: for positive integers `page` and `pageSize`, `paginateData` returns the
elements of `data` from index `(page-1)*pageSize` up to but excluding
`page*pageSize`, with `total = data.length`, the given `page` and `pageSize`, and
`totalPages = ceil(data.length / pageSize)`; a missing `page` stands for 1 and a
missing `pageSize` for 10. -/
theorem C8_paginateData_envelope (data : List Record) (page pageSize : Int) (hp : 0 < page)
    (hs : 0 < pageSize) :
    paginateData data (some page) (some pageSize)
        = { data := (data.drop ((page - 1) * pageSize).toNat).take pageSize.toNat
            total := data.length
            page := page
            pageSize := pageSize
            totalPages := some ⌈(data.length : ℚ) / (pageSize : ℚ)⌉ }
      ∧ (∀ i : Nat, (paginateData data (some page) (some pageSize)).data[i]?
          = if ((page - 1) * pageSize + i < page * pageSize) then
              data[((page - 1) * pageSize).toNat + i]? else none)
      ∧ (∀ ps : Option Int, paginateData data none ps = paginateData data (some 1) ps)
      ∧ (∀ p : Option Int, paginateData data p none = paginateData data p (some 10)) := by
  refine ⟨paginateData_eq data page pageSize hp hs, ?_, fun _ => rfl, fun _ => rfl⟩
  · intro i
    rw [paginateData_data data page pageSize hp hs, List.getElem?_take, List.getElem?_drop]
    by_cases hi : i < pageSize.toNat
    · rw [if_pos hi, if_pos]
      have : page * pageSize = (page - 1) * pageSize + pageSize := by ring
      omega
    · rw [if_neg hi, if_neg]
      have : page * pageSize = (page - 1) * pageSize + pageSize := by ring
      omega

theorem C8_paginateData_envelope_witness :
    paginateData [[("id", .num 1)], [("id", .num 2)], [("id", .num 3)]] (some 2) (some 2)
        = { data := ([[("id", .num 1)], [("id", .num 2)], [("id", .num 3)]].drop
                      (((2 : Int) - 1) * 2).toNat).take (2 : Int).toNat
            total := [[("id", Value.num 1)], [("id", .num 2)], [("id", .num 3)]].length
            page := 2
            pageSize := 2
            totalPages := some ⌈(([[("id", Value.num 1)], [("id", .num 2)],
                                    [("id", .num 3)]].length : ℕ) : ℚ) / ((2 : Int) : ℚ)⌉ }
      ∧ (paginateData [[("id", .num 1)], [("id", .num 2)], [("id", .num 3)]] (some 2)
          (some 2)).data = [[("id", .num 3)]] :=
  ⟨(C8_paginateData_envelope [[("id", .num 1)], [("id", .num 2)], [("id", .num 3)]] 2 2
      (by decide) (by decide)).1, by decide⟩

/-- C9: for a list of `n` records and positive integers `page` and `pageSize`, the
page slice has exactly `min(pageSize, max(0, n - (page-1)*pageSize))` elements; it
is never longer than `pageSize`, and a page that starts at or beyond the end of
the list is the empty slice of a well-formed envelope. -/
theorem C9_page_length (data : List Record) (page pageSize : Int) (hp : 0 < page)
    (hs : 0 < pageSize) :
    (((paginateData data (some page) (some pageSize)).data.length : Nat) : Int)
        = min pageSize (max 0 ((data.length : Int) - (page - 1) * pageSize))
      ∧ ((paginateData data (some page) (some pageSize)).data.length : Int) ≤ pageSize
      ∧ ((data.length : Int) ≤ (page - 1) * pageSize →
          paginateData data (some page) (some pageSize)
            = { data := [], total := data.length, page := page, pageSize := pageSize,
                totalPages := some ⌈(data.length : ℚ) / (pageSize : ℚ)⌉ }) := by
  have h0 : 0 ≤ (page - 1) * pageSize := Int.mul_nonneg (by omega) (by omega)
  have hlen : (((paginateData data (some page) (some pageSize)).data.length : Nat) : Int)
        = min pageSize (max 0 ((data.length : Int) - (page - 1) * pageSize)) := by
    rw [paginateData_data data page pageSize hp hs, List.length_take, List.length_drop]
    omega
  refine ⟨hlen, by omega, ?_⟩
  intro hbeyond
  have hnil : (data.drop ((page - 1) * pageSize).toNat).take pageSize.toNat = [] := by
    rw [List.drop_eq_nil_of_le (by omega), List.take_nil]
  rw [paginateData_eq data page pageSize hp hs, hnil]

theorem C9_page_length_witness :
    (((paginateData [[("id", .num 1)], [("id", .num 2)], [("id", .num 3)]] (some 2)
        (some 2)).data.length : Nat) : Int)
      = min 2 (max 0 ((([[("id", Value.num 1)], [("id", .num 2)],
          [("id", .num 3)]].length : Nat) : Int) - (2 - 1) * 2)) :=
  (C9_page_length [[("id", .num 1)], [("id", .num 2)], [("id", .num 3)]] 2 2
    (by decide) (by decide)).1

/-- C10: for a positive integer `pageSize`, `totalPages` is a natural number `n`
and the page slices of pages `1, 2, ..., n`, concatenated in that order, are
exactly the list `R`. -/
theorem C10_pages_concat (R : List Record) (pageSize : Int) (hs : 0 < pageSize) :
    ∃ n : Nat, (paginateData R (some 1) (some pageSize)).totalPages = some (n : Int)
      ∧ ((List.range n).map
          (fun (p : Nat) =>
            (paginateData R (some ((p : Int) + 1)) (some pageSize)).data)).flatten = R := by
  obtain ⟨size, rfl⟩ := Int.eq_ofNat_of_zero_le (le_of_lt hs)
  have hsize : 0 < size := by omega
  have hq : (0 : ℚ) < (size : ℚ) := by exact_mod_cast hsize
  have hnonneg : 0 ≤ ⌈(R.length : ℚ) / (size : ℚ)⌉ :=
    Int.ceil_nonneg (div_nonneg (by positivity) (le_of_lt hq))
  obtain ⟨n, hn⟩ := Int.eq_ofNat_of_zero_le hnonneg
  have hcover : R.length ≤ n * size := by
    have h1 : (R.length : ℚ) / (size : ℚ) ≤ ((⌈(R.length : ℚ) / (size : ℚ)⌉ : Int) : ℚ) :=
      Int.le_ceil _
    rw [hn, div_le_iff₀ hq] at h1
    exact_mod_cast h1
  refine ⟨n, ?_, ?_⟩
  · have h := ceilDiv_eq_ceil (R.length : Int) (size : Int) hs
    simp only [paginateData, Option.getD_some]
    rw [h]
    congr 1
  · have hfun : (fun p : Nat => (paginateData R (some ((p : Int) + 1)) (some (size : Int))).data)
        = (fun p : Nat => (R.drop (p * size)).take size) := by
      funext p
      rw [paginateData_data R _ _ (by omega) hs]
      have : ((p : Int) + 1 - 1) * (size : Int) = ((p * size : Nat) : Int) := by
        push_cast; ring
      rw [this]
      rfl
    rw [hfun, pages_append]
    exact List.take_of_length_le hcover

theorem C10_pages_concat_witness :
    ∃ n : Nat,
      (paginateData [[("id", .num 1)], [("id", .num 2)], [("id", .num 3)]] (some 1)
          (some 2)).totalPages = some (n : Int)
        ∧ ((List.range n).map
            (fun (p : Nat) =>
              (paginateData [[("id", .num 1)], [("id", .num 2)], [("id", .num 3)]]
                (some ((p : Int) + 1)) (some 2)).data)).flatten
          = [[("id", .num 1)], [("id", .num 2)], [("id", .num 3)]] :=
  C10_pages_concat [[("id", .num 1)], [("id", .num 2)], [("id", .num 3)]] 2 (by decide)

/-! ## The pipeline of `getResources` -/

theorem filterData_of_falsy (data : List Record) (search : Option String)
    (fields : Option (List String)) (h : strTruthy search = false) :
    filterData data search fields = data := by
  cases search with
  | none => rfl
  | some t =>
    have ht : t = "" := by simpa [strTruthy] using h
    simp [filterData, ht]

theorem sortData_of_falsy (rt : Runtime) (data : List Record) (field dir : Option String)
    (h : strTruthy field = false) : sortData rt data field dir = data := by
  cases field with
  | none => rfl
  | some f =>
    have hf : f = "" := by simpa [strTruthy] using h
    simp [sortData, hf]

/-- C1: for a registered resource type and any options object, `getResources`
resolves to `paginateData(sortData(filterData(collection, search,
searchableFields), sortField, sortDirection), page, pageSize)`; `total` is the
number of records that pass the filter, whatever `page`, `pageSize`, `sortField`
and `sortDirection` are, and `data` is a slice of the filtered and sorted list.
With a 25-record collection registered as `computers`, `{page: 1, pageSize: 10}`
gives 10 records, total 25 and totalPages 3. -/
theorem C1_getResources_pipeline (rt : Runtime) (self : Provider) (resourceType : String)
    (collection : List Record) (options : QueryOptions)
    (hreg : self.dataSources.lookup resourceType = some collection) :
    getResources rt self resourceType options
        = .ok (paginateData
            (sortData rt (filterData collection options.search options.searchableFields)
              options.sortField options.sortDirection)
            options.page options.pageSize)
      ∧ (∀ env, getResources rt self resourceType options = .ok env →
          env.total = (filterData collection options.search options.searchableFields).length
          ∧ env.data = slice
              (sortData rt (filterData collection options.search options.searchableFields)
                options.sortField options.sortDirection)
              ((options.page.getD 1 - 1) * options.pageSize.getD 10)
              ((options.page.getD 1 - 1) * options.pageSize.getD 10 + options.pageSize.getD 10))
      ∧ (∀ computers users : List Record, computers.length = 25 →
          ∃ env, getResources rt
              { delay := 300, enableLogging := true, dataSources := dataSources computers users }
              "computers"
              { search := none, searchableFields := none, sortField := none,
                sortDirection := none, page := some 1, pageSize := some 10 } = .ok env
            ∧ env.data = computers.take 10 ∧ env.data.length = 10 ∧ env.total = 25
            ∧ env.totalPages = some 3) := by
  have hmain : getResources rt self resourceType options
        = .ok (paginateData
            (sortData rt (filterData collection options.search options.searchableFields)
              options.sortField options.sortDirection)
            options.page options.pageSize) := by
    simp only [getResources, getDataSource, hreg]
    by_cases hs : strTruthy options.search = true
    · by_cases hf : strTruthy options.sortField = true
      · simp [hs, hf]
      · have hf' : strTruthy options.sortField = false := by simpa using hf
        simp [hs, hf', sortData_of_falsy]
    · have hs' : strTruthy options.search = false := by simpa using hs
      by_cases hf : strTruthy options.sortField = true
      · simp [hs', hf, filterData_of_falsy]
      · have hf' : strTruthy options.sortField = false := by simpa using hf
        simp [hs', hf', sortData_of_falsy, filterData_of_falsy]
  refine ⟨hmain, ?_, ?_⟩
  · intro env henv
    rw [hmain] at henv
    injection henv with henv
    subst henv
    exact ⟨(sortData_perm rt _ _ _).length_eq, rfl⟩
  · intro computers users hlen
    refine ⟨paginateData computers (some 1) (some 10), rfl, ?_, ?_, ?_, ?_⟩
    · rw [paginateData_data computers 1 10 (by decide) (by decide)]
      rfl
    · rw [paginateData_data computers 1 10 (by decide) (by decide)]
      simp [hlen]
    · simp [paginateData, hlen]
    · simp only [paginateData, Option.getD_some, hlen]
      decide

theorem C1_getResources_pipeline_witness :
    getResources plainHost
        { delay := 0, enableLogging := false
          dataSources := dataSources [[("name", .str "pc-2")], [("name", .str "pc-1")]] [] }
        "computers"
        { search := some "PC", searchableFields := none, sortField := some "name",
          sortDirection := none, page := some 1, pageSize := some 1 }
      = .ok (paginateData
          (sortData plainHost
            (filterData [[("name", .str "pc-2")], [("name", .str "pc-1")]] (some "PC") none)
            (some "name") none)
          (some 1) (some 1)) :=
  (C1_getResources_pipeline plainHost
    { delay := 0, enableLogging := false
      dataSources := dataSources [[("name", .str "pc-2")], [("name", .str "pc-1")]] [] }
    "computers" [[("name", .str "pc-2")], [("name", .str "pc-1")]]
    { search := some "PC", searchableFields := none, sortField := some "name",
      sortDirection := none, page := some 1, pageSize := some 1 }
    (by decide)).1

end FileDataProvider

namespace Js

/-! ## `Math.ceil(total / pageSize)` -/

theorem ceilDiv_eq_zero_iff (n : Nat) (pageSize : Int) (hs : 0 < pageSize) :
    ceilDiv (n : Int) pageSize = some 0 ↔ n = 0 := by
  rw [ceilDiv_eq_ceil _ _ hs]
  have hq : (0 : ℚ) < (pageSize : ℚ) := by exact_mod_cast hs
  constructor
  · intro h
    have h0 : ⌈((n : Int) : ℚ) / (pageSize : ℚ)⌉ = 0 := by simpa using h
    rw [Int.ceil_eq_iff] at h0
    have h1 : ((n : Int) : ℚ) / (pageSize : ℚ) ≤ 0 := by simpa using h0.2
    rw [div_le_iff₀ hq] at h1
    have h2 : ((n : Int) : ℚ) ≤ 0 := by simpa using h1
    have h3 : (n : Int) ≤ 0 := by exact_mod_cast h2
    omega
  · intro h
    subst h
    simp

end Js

namespace HttpDataProvider

open Js

/-! ## The envelope of the HTTP provider -/

/-- Every envelope of the HTTP provider either has `totalPages` computed from its
`total` and `pageSize`, or is the empty envelope of the not-found case. -/
theorem getResources_totalPages (rt : Runtime) (self : Provider) (net : String → FetchResult)
    (resourceType : String) (options : FileDataProvider.QueryOptions) (env : Envelope)
    (h : getResources rt self net resourceType options = .ok env) :
    env.totalPages = ceilDiv env.total env.pageSize
      ∨ (env.total = 0 ∧ env.totalPages = some 0) := by
  unfold getResources at h
  cases hreq : makeRequest self net (ApiConfig.getEndpointForResource resourceType) with
  | error e =>
    simp only [hreq] at h
    split at h
    · injection h with h
      subst h
      exact Or.inr ⟨rfl, rfl⟩
    · exact absurd h (by simp)
  | ok response =>
    simp only [hreq] at h
    cases response with
    | array items =>
      simp only at h
      injection h with h
      subst h
      exact Or.inl rfl
    | object fields =>
      simp only [isNullish, Bool.false_eq_true, if_false] at h
      injection h with h
      subst h
      exact Or.inl rfl
    | scalar value =>
      by_cases hn : isNullish (Json.scalar value) = true
      · simp only [hn, if_true] at h
        have hmsg : (includes (nullPropertyError "length").message "Resource not found"
            || includes (nullPropertyError "length").message "404") = false := by decide
        simp only [hmsg, Bool.false_eq_true, if_false] at h
        exact absurd h (by simp)
      · simp only [hn, if_false] at h
        injection h with h
        subst h
        exact Or.inl rfl

end HttpDataProvider

namespace FileDataProvider

open Js

/-! ## `totalPages` -/

theorem getResources_ok_eq (rt : Runtime) (self : Provider) (resourceType : String)
    (options : QueryOptions) (env : Envelope)
    (h : getResources rt self resourceType options = .ok env) :
    ∃ processed : List Record, env = paginateData processed options.page options.pageSize := by
  unfold getResources at h
  split at h
  · exact absurd h (by simp)
  · exact absurd h (by simp)
  · injection h with h
    exact ⟨_, h.symm⟩

/-- C11: every envelope with a positive `pageSize` that `paginateData`, the file
provider's `getResources` or the HTTP provider's `getResources` returns has
`totalPages = ceil(total / pageSize)`, and `totalPages = 0` exactly when
`total = 0`. -/
theorem C11_totalPages (rt : Runtime) :
    (∀ (data : List Record) (page pageSize : Option Int),
        0 < (paginateData data page pageSize).pageSize →
        (paginateData data page pageSize).totalPages
            = some ⌈((paginateData data page pageSize).total : ℚ)
                / ((paginateData data page pageSize).pageSize : ℚ)⌉
          ∧ ((paginateData data page pageSize).totalPages = some 0
              ↔ (paginateData data page pageSize).total = 0))
      ∧ (∀ (self : Provider) (resourceType : String) (options : QueryOptions)
          (env : Envelope),
          getResources rt self resourceType options = .ok env → 0 < env.pageSize →
          env.totalPages = some ⌈(env.total : ℚ) / (env.pageSize : ℚ)⌉
            ∧ (env.totalPages = some 0 ↔ env.total = 0))
      ∧ (∀ (self : HttpDataProvider.Provider) (net : String → FetchResult)
          (resourceType : String) (options : QueryOptions) (env : HttpDataProvider.Envelope),
          HttpDataProvider.getResources rt self net resourceType options = .ok env →
          0 < env.pageSize →
          env.totalPages = some ⌈(env.total : ℚ) / (env.pageSize : ℚ)⌉
            ∧ (env.totalPages = some 0 ↔ env.total = 0)) := by
  have hpag : ∀ (data : List Record) (page pageSize : Option Int),
        0 < (paginateData data page pageSize).pageSize →
        (paginateData data page pageSize).totalPages
            = some ⌈((paginateData data page pageSize).total : ℚ)
                / ((paginateData data page pageSize).pageSize : ℚ)⌉
          ∧ ((paginateData data page pageSize).totalPages = some 0
              ↔ (paginateData data page pageSize).total = 0) := by
    intro data page pageSize hs
    have hs' : 0 < pageSize.getD 10 := hs
    refine ⟨?_, ?_⟩
    · have := ceilDiv_eq_ceil (data.length : Int) (pageSize.getD 10) hs'
      simpa [paginateData] using this
    · exact ceilDiv_eq_zero_iff data.length (pageSize.getD 10) hs'
  refine ⟨hpag, ?_, ?_⟩
  · intro self resourceType options env henv hs
    obtain ⟨processed, rfl⟩ := getResources_ok_eq rt self resourceType options env henv
    exact hpag processed options.page options.pageSize hs
  · intro self net resourceType options env henv hs
    rcases HttpDataProvider.getResources_totalPages rt self net resourceType options env henv
      with h | ⟨h0, h1⟩
    · rw [h]
      refine ⟨?_, ceilDiv_eq_zero_iff env.total env.pageSize hs⟩
      have := ceilDiv_eq_ceil (env.total : Int) env.pageSize hs
      simpa using this
    · rw [h1, h0]
      simp

theorem C11_totalPages_witness :
    (paginateData [[("id", .num 1)], [("id", .num 2)], [("id", .num 3)]] (some 1)
        (some 2)).totalPages
      = some ⌈((paginateData [[("id", .num 1)], [("id", .num 2)], [("id", .num 3)]] (some 1)
          (some 2)).total : ℚ)
        / ((paginateData [[("id", .num 1)], [("id", .num 2)], [("id", .num 3)]] (some 1)
          (some 2)).pageSize : ℚ)⌉ :=
  ((C11_totalPages plainHost).1 [[("id", .num 1)], [("id", .num 2)], [("id", .num 3)]]
    (some 1) (some 2) (by decide)).1

/-! ## Unknown resource types -/

theorem lookup_dataSources_eq_none (computers users : List Record) (key : String) :
    (dataSources computers users).lookup key = none
      ↔ key ∉ ["computers", "users", "business-roles", "application-roles", "azure-licenses",
          "azure-admin-roles", "azure-rbac-roles", "management-roles", "mailboxes",
          "shared-folders"] := by
  rw [List.lookup_eq_none_iff]
  simp only [dataSources, List.mem_cons, List.mem_singleton, List.not_mem_nil, or_false,
    forall_eq_or_imp, forall_eq, bne_iff_ne, ne_eq, not_or]

theorem getResources_empty_collection (rt : Runtime) (self : Provider) (key : String)
    (options : QueryOptions) (h : self.dataSources.lookup key = some []) :
    getResources rt self key options
      = .ok { data := [], total := 0, page := options.page.getD 1,
              pageSize := options.pageSize.getD 10,
              totalPages := ceilDiv 0 (options.pageSize.getD 10) } := by
  have hf : filterData [] options.search options.searchableFields = [] := by
    cases hs : options.search with
    | none => rfl
    | some t => simp [filterData]
  have hsort : ∀ l : List Record, l = [] →
      sortData rt l options.sortField options.sortDirection = [] := by
    intro l hl
    subst hl
    exact List.perm_nil.mp (sortData_perm rt [] _ _)
  have hslice : ∀ a b : Int, slice ([] : List Record) a b = [] := by
    intro a b
    simp [Js.slice]
  simp only [getResources, getDataSource, h]
  split_ifs <;> simp [paginateData, hf, hsort, hslice]

/-- C12: with the registry the constructor builds, `getResources("constructor")`
does not fail with "Unknown resource type: constructor": the lookup finds the
member inherited from `Object.prototype`, and the call fails on spreading it.
For a key that is not such an inherited name, `getResources` fails with
"Unknown resource type: <key>" if and only if the key is not one of the ten
registered resource types; and for each of the eight keys registered with an
empty collection it succeeds with `data = []`, `total = 0` and, for a `pageSize`
other than 0, `totalPages = 0`. -/
theorem C12_getResources_unknown (rt : Runtime) (computers users : List Record)
    (options : QueryOptions) :
    getResources rt
        { delay := 300, enableLogging := true, dataSources := dataSources computers users }
        "constructor" options = .error "data is not iterable"
      ∧ (∀ key : String, key ∉ inheritedKeys →
          (getResources rt
              { delay := 300, enableLogging := true, dataSources := dataSources computers users }
              key options = .error ("Unknown resource type: " ++ key)
            ↔ key ∉ ["computers", "users", "business-roles", "application-roles",
                "azure-licenses", "azure-admin-roles", "azure-rbac-roles", "management-roles",
                "mailboxes", "shared-folders"]))
      ∧ (∀ key ∈ ["business-roles", "application-roles", "azure-licenses", "azure-admin-roles",
            "azure-rbac-roles", "management-roles", "mailboxes", "shared-folders"],
          options.pageSize.getD 10 ≠ 0 →
          getResources rt
              { delay := 300, enableLogging := true, dataSources := dataSources computers users }
              key options
            = .ok { data := [], total := 0, page := options.page.getD 1,
                    pageSize := options.pageSize.getD 10, totalPages := some 0 }) := by
  refine ⟨?_, ?_, ?_⟩
  · have h : (dataSources computers users).lookup "constructor" = none := by
      rw [lookup_dataSources_eq_none]; decide
    simp only [getResources, getDataSource, h]
    rfl
  · intro key hkey
    rw [← lookup_dataSources_eq_none computers users key]
    cases hl : (dataSources computers users).lookup key with
    | none => simp [getResources, getDataSource, hl, hkey]
    | some coll =>
      simp only [getResources, getDataSource, hl]
      simp
  · intro key hkey hps
    have hl : (dataSources computers users).lookup key = some [] := by
      simp only [List.mem_cons, List.mem_singleton, List.not_mem_nil, or_false] at hkey
      rcases hkey with h | h | h | h | h | h | h | h <;> subst h <;> rfl
    rw [getResources_empty_collection rt _ key options hl]
    simp [ceilDiv, hps]

theorem C12_getResources_unknown_witness :
    getResources plainHost
        { delay := 300, enableLogging := true
          dataSources := dataSources [[("id", .num 1)]] [] }
        "nonexistent-type"
        { search := none, searchableFields := none, sortField := none, sortDirection := none,
          page := none, pageSize := none }
      = .error "Unknown resource type: nonexistent-type" :=
  ((C12_getResources_unknown plainHost [[("id", .num 1)]] []
    { search := none, searchableFields := none, sortField := none, sortDirection := none,
      page := none, pageSize := none }).2.1 "nonexistent-type" (by decide)).mpr (by decide)

/-! ## `getResourceById` -/

theorem getResourceById_of_registered (self : Provider) (resourceType : String)
    (collection : List Record) (id : Value)
    (hreg : self.dataSources.lookup resourceType = some collection) :
    getResourceById self resourceType id
      = match collection.find? (fun item => looseEq (item.get "id") id) with
        | none => .error ("Resource not found: " ++ resourceType ++ " with ID " ++ toStr id)
        | some resource => .ok resource := by
  simp only [getResourceById, getDataSource, hreg]

/-- Loose equality of a number and a string rounds the string as `ToNumber`
does: `2 ^ 53` equals the string `"9007199254740993"`, which is halfway to the
next double, and 5 equals a string that differs from it in the 25th decimal;
`2 ^ 53 - 1` does not equal `"9007199254740993"`. -/
theorem looseEq_rounds :
    looseEq (.num 9007199254740992) (.str "9007199254740993") = true
      ∧ looseEq (.num 5) (.str "5.0000000000000000000000001") = true
      ∧ looseEq (.str " 5.0000000000000000000000001") (.num 5) = true
      ∧ looseEq (.num 9007199254740991) (.str "9007199254740993") = false
      ∧ looseEq (.num 1) (.str "0.9999999999999999") = false := by
  decide

/-- C13: for a registered resource type whose numeric ids are safe integers, and
an id that is not a number or is a safe integer, `getResourceById` returns a
record `r` exactly when `r` is the first record of the collection, in collection
order, whose `id` loosely equals the given id; it fails, and then with the error
"Resource not found: <type> with ID <id>", exactly when no record of the
collection has such an `id`.  The numeric ids 7 and 42 loosely equal the strings
`"7"` and `"42"`. -/
theorem C13_getResourceById (self : Provider) (resourceType : String)
    (collection : List Record) (id : Value)
    (hreg : self.dataSources.lookup resourceType = some collection)
    (_hids : ∀ x ∈ collection, (x.get "id").isSafe = true) (_hid : id.isSafe = true) :
    (∀ r : Record, getResourceById self resourceType id = .ok r ↔
        ∃ before after, collection = before ++ r :: after
          ∧ looseEq (r.get "id") id = true
          ∧ ∀ x ∈ before, looseEq (x.get "id") id = false)
      ∧ ((∃ e, getResourceById self resourceType id = .error e) ↔
          ∀ x ∈ collection, looseEq (x.get "id") id = false)
      ∧ (∀ e, getResourceById self resourceType id = .error e →
          e = "Resource not found: " ++ resourceType ++ " with ID " ++ toStr id)
      ∧ looseEq (.num 7) (.str "7") = true ∧ looseEq (.str "42") (.num 42) = true := by
  rw [getResourceById_of_registered self resourceType collection id hreg]
  refine ⟨?_, ?_, ?_, by decide, by decide⟩
  · intro r
    cases hfind : collection.find? (fun item => looseEq (item.get "id") id) with
    | none =>
      constructor
      · intro h; exact absurd h (by simp)
      · rintro ⟨before, after, hcoll, hr, -⟩
        rw [List.find?_eq_none] at hfind
        have := hfind r (by rw [hcoll]; simp)
        exact absurd hr this
    | some found =>
      rw [List.find?_eq_some] at hfind
      obtain ⟨hp, as, bs, hcoll, has⟩ := hfind
      constructor
      · intro h
        injection h with h
        subst h
        exact ⟨as, bs, hcoll, hp, fun x hx => by simpa using has x hx⟩
      · rintro ⟨before, after, hcoll2, hr, hbefore⟩
        have hfind2 : collection.find? (fun item => looseEq (item.get "id") id) = some r := by
          rw [List.find?_eq_some]
          exact ⟨hr, before, after, hcoll2, fun x hx => by simp [hbefore x hx]⟩
        have hfind1 : collection.find? (fun item => looseEq (item.get "id") id)
            = some found := by
          rw [List.find?_eq_some]
          exact ⟨hp, as, bs, hcoll, has⟩
        rw [hfind1] at hfind2
        injection hfind2 with h
        rw [h]
  · cases hfind : collection.find? (fun item => looseEq (item.get "id") id) with
    | none =>
      rw [List.find?_eq_none] at hfind
      constructor
      · intro _ x hx
        simpa using hfind x hx
      · intro _
        exact ⟨_, rfl⟩
    | some found =>
      rw [List.find?_eq_some] at hfind
      obtain ⟨hp, as, bs, hcoll, -⟩ := hfind
      constructor
      · rintro ⟨e, he⟩
        exact absurd he (by simp)
      · intro hall
        have := hall found (by rw [hcoll]; simp)
        rw [hp] at this
        exact absurd this (by simp)
  · intro e he
    cases hfind : collection.find? (fun item => looseEq (item.get "id") id) with
    | none =>
      rw [hfind] at he
      injection he with he
      exact he.symm
    | some found =>
      rw [hfind] at he
      exact absurd he (by simp)

theorem C13_getResourceById_witness :
    getResourceById
        { delay := 0, enableLogging := false
          dataSources := dataSources []
            [[("id", .num 1), ("name", .str "Ann")], [("id", .num 2), ("name", .str "Bo")],
             [("id", .str "2"), ("name", .str "Cy")]] }
        "users" (.str "2")
      = .ok [("id", .num 2), ("name", .str "Bo")] :=
  ((C13_getResourceById
      { delay := 0, enableLogging := false
        dataSources := dataSources []
          [[("id", .num 1), ("name", .str "Ann")], [("id", .num 2), ("name", .str "Bo")],
           [("id", .str "2"), ("name", .str "Cy")]] }
      "users"
      [[("id", .num 1), ("name", .str "Ann")], [("id", .num 2), ("name", .str "Bo")],
       [("id", .str "2"), ("name", .str "Cy")]]
      (.str "2") (by decide) (by decide) (by decide)).1 [("id", .num 2), ("name", .str "Bo")]).mpr
    ⟨[[("id", .num 1), ("name", .str "Ann")]], [[("id", .str "2"), ("name", .str "Cy")]],
      by decide, by decide, by decide⟩

end FileDataProvider

namespace HttpDataProvider

open Js

/-! ## Failures of the remote source -/

/-- The message `makeRequest` selects for a status that is not a success. -/
theorem makeRequest_of_status (self : Provider) (net : String → FetchResult)
    (endpoint : String) (status : Nat) (body : Except JsError Json)
    (hnet : net (self.baseUrl ++ endpoint) = .response status body)
    (hok : responseOk status = false) :
    makeRequest self net endpoint
      = .error (newError
          (if status = 401 then "Unauthorized access."
           else if status = 403 then "Access forbidden."
           else if status = 404 then "Resource not found."
           else if status = 500 then "Server error. Please try again later."
           else "An unexpected error occurred.")) := by
  have hname : ∀ m : String, ((newError m).name == "AbortError") = false := by
    intro m
    show (("Error" : String) == "AbortError") = false
    decide
  have hname2 : ∀ m : String, ((newError m).name == "TypeError") = false := by
    intro m
    show (("Error" : String) == "TypeError") = false
    decide
  simp only [makeRequest, hnet, hok, Bool.not_false, if_true, hname, hname2, Bool.false_and,
    Bool.false_eq_true, if_false]
  split_ifs <;> rfl

theorem makeRequest_of_error (self : Provider) (net : String → FetchResult)
    (endpoint : String) (e : JsError)
    (hnet : net (self.baseUrl ++ endpoint) = .rejected e
      ∨ ∃ status, responseOk status = true
          ∧ net (self.baseUrl ++ endpoint) = .response status (.error e)) :
    makeRequest self net endpoint
      = if e.name == "AbortError" then
          .error (newError "Request timed out. Please try again.")
        else if e.name == "TypeError" && includes e.message "fetch" then
          .error (newError "Network error. Please check your connection.")
        else .error e := by
  rcases hnet with hnet | ⟨status, hok, hnet⟩
  · simp only [makeRequest, hnet]
    split_ifs <;> rfl
  · simp only [makeRequest, hnet, hok, Bool.not_true, Bool.false_eq_true, if_false]
    split_ifs <;> rfl

theorem getResources_of_propagated (rt : Runtime) (self : Provider)
    (net : String → FetchResult) (resourceType : String)
    (options : FileDataProvider.QueryOptions) (e : JsError)
    (hreq : makeRequest self net (ApiConfig.getEndpointForResource resourceType) = .error e)
    (hmsg : (includes e.message "Resource not found" || includes e.message "404") = false) :
    getResources rt self net resourceType options = .error e := by
  simp only [getResources, hreq, hmsg, Bool.false_eq_true, if_false]

theorem getResources_of_downgraded (rt : Runtime) (self : Provider)
    (net : String → FetchResult) (resourceType : String)
    (options : FileDataProvider.QueryOptions) (e : JsError)
    (hreq : makeRequest self net (ApiConfig.getEndpointForResource resourceType) = .error e)
    (hmsg : (includes e.message "Resource not found" || includes e.message "404") = true) :
    getResources rt self net resourceType options
      = .ok { data := .array [], total := 0, page := orElseNumber options.page 1,
              pageSize := orElseNumber options.pageSize 10, totalPages := some 0 } := by
  simp only [getResources, hreq, hmsg, if_true]

/-- C14: when the response is not successful, `makeRequest` fails with an `Error`
whose message depends on the status alone: "Unauthorized access." for 401,
"Access forbidden." for 403, "Resource not found." for 404, "Server error.
Please try again later." for 500 and "An unexpected error occurred." for every
other status. -/
theorem C14_makeRequest_status_message (self : Provider) (net : String → FetchResult)
    (endpoint : String) (status : Nat) (body : Except JsError Json)
    (hnet : net (self.baseUrl ++ endpoint) = .response status body)
    (hok : responseOk status = false) :
    makeRequest self net endpoint
        = .error { name := "Error",
                   message :=
                     if status = 401 then "Unauthorized access."
                     else if status = 403 then "Access forbidden."
                     else if status = 404 then "Resource not found."
                     else if status = 500 then "Server error. Please try again later."
                     else "An unexpected error occurred." }
      ∧ (status = 400 ∨ status = 502 ∨ status = 503 →
          makeRequest self net endpoint
            = .error { name := "Error", message := "An unexpected error occurred." }) := by
  have h := makeRequest_of_status self net endpoint status body hnet hok
  refine ⟨h, ?_⟩
  intro hs
  rw [h]
  rcases hs with hs | hs | hs <;> subst hs <;> rfl

theorem C14_makeRequest_status_message_witness :
    makeRequest { baseUrl := "https://api.example/v1", timeout := 10000, enableLogging := false }
        (fun _ => .response 403 (.ok (.array []))) "/users"
      = .error { name := "Error", message := "Access forbidden." } :=
  (C14_makeRequest_status_message
    { baseUrl := "https://api.example/v1", timeout := 10000, enableLogging := false }
    (fun _ => .response 403 (.ok (.array []))) "/users" 403 (.ok (.array [])) rfl
    (by decide)).1

/-- C15: when the endpoint of the resource type answers 404, the HTTP provider's
`getResources` resolves to `{data: [], total: 0, page: options.page || 1,
pageSize: options.pageSize || 10, totalPages: 0}`; for `"mailboxes"` and the
empty options object this is `{data: [], total: 0, page: 1, pageSize: 10,
totalPages: 0}`. -/
theorem C15_getResources_not_found (rt : Runtime) (self : Provider)
    (net : String → FetchResult) (resourceType : String)
    (options : FileDataProvider.QueryOptions) (body : Except JsError Json)
    (hnet : net (self.baseUrl ++ ApiConfig.getEndpointForResource resourceType)
      = .response 404 body) :
    getResources rt self net resourceType options
        = .ok { data := .array [], total := 0, page := orElseNumber options.page 1,
                pageSize := orElseNumber options.pageSize 10, totalPages := some 0 }
      ∧ (options.page = none → options.pageSize = none →
          getResources rt self net resourceType options
            = .ok { data := .array [], total := 0, page := 1, pageSize := 10,
                    totalPages := some 0 }) := by
  have hreq := makeRequest_of_status self net _ 404 body hnet (by decide)
  have h := getResources_of_downgraded rt self net resourceType options _ hreq (by decide)
  refine ⟨h, ?_⟩
  intro hp hs
  rw [h, hp, hs]
  rfl

theorem C15_getResources_not_found_witness :
    getResources plainHost
        { baseUrl := "https://api.example/v1", timeout := 10000, enableLogging := false }
        (fun _ => .response 404 (.ok (.object []))) "mailboxes"
        { search := none, searchableFields := none, sortField := none, sortDirection := none,
          page := none, pageSize := none }
      = .ok { data := .array [], total := 0, page := 1, pageSize := 10, totalPages := some 0 } :=
  (C15_getResources_not_found plainHost
    { baseUrl := "https://api.example/v1", timeout := 10000, enableLogging := false }
    (fun _ => .response 404 (.ok (.object []))) "mailboxes"
    { search := none, searchableFields := none, sortField := none, sortDirection := none,
      page := none, pageSize := none } (.ok (.object [])) rfl).2 rfl rfl

/-- C16: the failures that `makeRequest` classifies as a timeout (an
`AbortError`), as a network error (a `TypeError` whose message contains
"fetch") and, for a response that is not successful and whose status is not
404, by the status (401, 403, 500 or any other) make `getResources` fail with
the very error `makeRequest` failed with; the empty envelope is not returned. -/
theorem C16_getResources_propagates (rt : Runtime) (self : Provider)
    (net : String → FetchResult) (resourceType : String)
    (options : FileDataProvider.QueryOptions) :
    (∀ e : JsError,
        (net (self.baseUrl ++ ApiConfig.getEndpointForResource resourceType) = .rejected e
          ∨ ∃ status, responseOk status = true
              ∧ net (self.baseUrl ++ ApiConfig.getEndpointForResource resourceType)
                  = .response status (.error e)) →
        (e.name = "AbortError" →
          makeRequest self net (ApiConfig.getEndpointForResource resourceType)
              = .error { name := "Error", message := "Request timed out. Please try again." }
            ∧ getResources rt self net resourceType options
              = .error { name := "Error", message := "Request timed out. Please try again." })
        ∧ (e.name = "TypeError" → includes e.message "fetch" = true →
          makeRequest self net (ApiConfig.getEndpointForResource resourceType)
              = .error { name := "Error",
                         message := "Network error. Please check your connection." }
            ∧ getResources rt self net resourceType options
              = .error { name := "Error",
                         message := "Network error. Please check your connection." }))
      ∧ (∀ (status : Nat) (body : Except JsError Json),
          net (self.baseUrl ++ ApiConfig.getEndpointForResource resourceType)
            = .response status body →
          responseOk status = false → status ≠ 404 →
          makeRequest self net (ApiConfig.getEndpointForResource resourceType)
              = .error { name := "Error",
                         message :=
                           if status = 401 then "Unauthorized access."
                           else if status = 403 then "Access forbidden."
                           else if status = 500 then "Server error. Please try again later."
                           else "An unexpected error occurred." }
            ∧ getResources rt self net resourceType options
              = .error { name := "Error",
                         message :=
                           if status = 401 then "Unauthorized access."
                           else if status = 403 then "Access forbidden."
                           else if status = 500 then "Server error. Please try again later."
                           else "An unexpected error occurred." }) := by
  refine ⟨?_, ?_⟩
  · intro e hnet
    have hreq := makeRequest_of_error self net _ e hnet
    refine ⟨?_, ?_⟩
    · intro hname
      have hreq2 : makeRequest self net (ApiConfig.getEndpointForResource resourceType)
          = .error (newError "Request timed out. Please try again.") := by
        rw [hreq, hname]; rfl
      exact ⟨hreq2, getResources_of_propagated rt self net resourceType options _ hreq2
        (by decide)⟩
    · intro hname hmsg
      have hreq2 : makeRequest self net (ApiConfig.getEndpointForResource resourceType)
          = .error (newError "Network error. Please check your connection.") := by
        rw [hreq, hname, hmsg]; rfl
      exact ⟨hreq2, getResources_of_propagated rt self net resourceType options _ hreq2
        (by decide)⟩
  · intro status body hnet hok h404
    have hreq := makeRequest_of_status self net _ status body hnet hok
    have hmsg : (if status = 401 then "Unauthorized access."
           else if status = 403 then "Access forbidden."
           else if status = 404 then "Resource not found."
           else if status = 500 then "Server error. Please try again later."
           else "An unexpected error occurred.")
        = (if status = 401 then "Unauthorized access."
           else if status = 403 then "Access forbidden."
           else if status = 500 then "Server error. Please try again later."
           else "An unexpected error occurred.") := by
      simp only [h404, if_false]
    rw [hmsg] at hreq
    refine ⟨hreq, getResources_of_propagated rt self net resourceType options _ hreq ?_⟩
    show (includes (if status = 401 then "Unauthorized access."
           else if status = 403 then "Access forbidden."
           else if status = 500 then "Server error. Please try again later."
           else "An unexpected error occurred.") "Resource not found"
        || includes (if status = 401 then "Unauthorized access."
           else if status = 403 then "Access forbidden."
           else if status = 500 then "Server error. Please try again later."
           else "An unexpected error occurred.") "404") = false
    split_ifs <;> decide

theorem C16_getResources_propagates_witness :
    getResources plainHost
        { baseUrl := "https://api.example/v1", timeout := 10000, enableLogging := false }
        (fun _ => .response 500 (.ok (.array []))) "users"
        { search := none, searchableFields := none, sortField := none, sortDirection := none,
          page := none, pageSize := none }
      = .error { name := "Error", message := "Server error. Please try again later." } :=
  ((C16_getResources_propagates plainHost
    { baseUrl := "https://api.example/v1", timeout := 10000, enableLogging := false }
    (fun _ => .response 500 (.ok (.array []))) "users"
    { search := none, searchableFields := none, sortField := none, sortDirection := none,
      page := none, pageSize := none }).2 500 (.ok (.array [])) rfl (by decide)
    (by decide)).2

end HttpDataProvider

namespace Js

/-! ## Sorting with two comparators that agree on the elements -/

theorem insertionPoint_congr {α : Type} (cmp cmp' : α → α → Int) (pivot : α) (work : List α)
    (h : ∀ m ∈ work, cmp pivot m = cmp' pivot m) :
    ∀ fuel left right, insertionPoint cmp pivot work fuel left right
      = insertionPoint cmp' pivot work fuel left right := by
  intro fuel
  induction fuel with
  | zero => intro left right; rfl
  | succ fuel ih =>
    intro left right
    rw [insertionPoint_succ, insertionPoint_succ]
    by_cases hlr : left < right
    · rw [if_pos hlr, if_pos hlr]
      cases hm : work[left + (right - left) / 2]? with
      | none => rfl
      | some m =>
        show (if cmp pivot m < 0 then _ else _) = (if cmp' pivot m < 0 then _ else _)
        rw [h m (List.getElem?_mem hm), ih, ih]
    · rw [if_neg hlr, if_neg hlr]

theorem binaryInsertionSort_congr {α : Type} (cmp cmp' : α → α → Int) (S : List α)
    (h : ∀ a ∈ S, ∀ b ∈ S, cmp a b = cmp' a b) (rest : List α) :
    ∀ sorted : List α, (∀ m ∈ sorted, m ∈ S) → (∀ m ∈ rest, m ∈ S) →
      binaryInsertionSort cmp sorted rest = binaryInsertionSort cmp' sorted rest := by
  induction rest with
  | nil => intro sorted _ _; rfl
  | cons x rest ih =>
    intro sorted hs hr
    have hx : x ∈ S := hr x (List.mem_cons_self _ _)
    unfold binaryInsertionSort
    rw [insertionPoint_congr cmp cmp' x sorted (fun m hm => h x hx m (hs m hm))]
    apply ih
    · intro m hm
      rcases List.mem_cons.mp ((insertAt_perm sorted _ x).subset hm) with rfl | hm
      · exact hx
      · exact hs m hm
    · intro m hm
      exact hr m (List.mem_cons_of_mem _ hm)

theorem runTail_congr {α : Type} (cmp cmp' : α → α → Int) (S : List α)
    (h : ∀ a ∈ S, ∀ b ∈ S, cmp a b = cmp' a b) (isDescending : Bool) (rest : List α) :
    ∀ prev, prev ∈ S → (∀ m ∈ rest, m ∈ S) →
      runTail cmp isDescending prev rest = runTail cmp' isDescending prev rest := by
  induction rest with
  | nil => intro prev _ _; rfl
  | cons cur rest ih =>
    intro prev hp hr
    have hc : cur ∈ S := hr cur (List.mem_cons_self _ _)
    unfold runTail
    rw [h cur hc prev hp, ih cur hc (fun m hm => hr m (List.mem_cons_of_mem _ hm))]

theorem countAndMakeRun_congr {α : Type} (cmp cmp' : α → α → Int) (xs : List α)
    (h : ∀ a ∈ xs, ∀ b ∈ xs, cmp a b = cmp' a b) :
    countAndMakeRun cmp xs = countAndMakeRun cmp' xs := by
  match xs, h with
  | [], _ => rfl
  | [_], _ => rfl
  | a :: b :: rest, h =>
    rw [countAndMakeRun_shape, countAndMakeRun_shape]
    have hab : cmp b a = cmp' b a := h b (by simp) a (by simp)
    have hrun : ∀ d, runTail cmp d b rest = runTail cmp' d b rest := fun d =>
      runTail_congr cmp cmp' (a :: b :: rest) h d rest b (by simp)
        (fun m hm => by simp [hm])
    rw [hab, hrun, hrun]

theorem arraySort_congr {α : Type} (comparefn comparefn' : α → α → Option Int) (xs : List α)
    (h : ∀ a ∈ xs, ∀ b ∈ xs, sortOrder (comparefn a b) = sortOrder (comparefn' a b)) :
    arraySort comparefn xs = arraySort comparefn' xs := by
  have hperm := countAndMakeRun_perm (fun a b => sortOrder (comparefn' a b)) xs
  have hrun := countAndMakeRun_congr (fun a b => sortOrder (comparefn a b))
    (fun a b => sortOrder (comparefn' a b)) xs h
  show binaryInsertionSort (fun a b => sortOrder (comparefn a b))
      (countAndMakeRun (fun a b => sortOrder (comparefn a b)) xs).1
      (countAndMakeRun (fun a b => sortOrder (comparefn a b)) xs).2
    = binaryInsertionSort (fun a b => sortOrder (comparefn' a b))
      (countAndMakeRun (fun a b => sortOrder (comparefn' a b)) xs).1
      (countAndMakeRun (fun a b => sortOrder (comparefn' a b)) xs).2
  rw [hrun]
  exact binaryInsertionSort_congr _ _ xs h _ _
    (fun m hm => hperm.subset (List.mem_append_left _ hm))
    (fun m hm => hperm.subset (List.mem_append_right _ hm))

end Js

namespace HttpDataProvider

open Js

/-! ## The two sorts -/

/-- C17, as amended: the HTTP provider's `sortData` returns the same sequence as
the file provider's for every list, every direction and every sort field other
than `endDate` and `hireDate`, provided that, when the field is `createdAt`,
every string value of the field contains the letter "T" (so that both hand it
to `Date` as it is). -/
theorem C17_sortData_agree (rt : Runtime) (data : List Record) (sortField dir : Option String)
    (h : ∀ f, sortField = some f →
      f ≠ "endDate" ∧ f ≠ "hireDate"
        ∧ (f = "createdAt" → ∀ r ∈ data, ∀ s, r.get f = Value.str s → includes s "T" = true)) :
    sortData rt data sortField dir = FileDataProvider.sortData rt data sortField dir := by
  cases sortField with
  | none => rfl
  | some f =>
    obtain ⟨h1, h2, h3⟩ := h f rfl
    by_cases hf : f = ""
    · simp [sortData, FileDataProvider.sortData, hf]
    · simp only [sortData, FileDataProvider.sortData, beq_iff_eq, hf, if_false]
      apply arraySort_congr
      intro a ha b hb
      unfold compareRecords FileDataProvider.compareRecords compareValues
        FileDataProvider.compareValues
      congr 1
      split
      · rfl
      · split
        · rfl
        · split
          · rfl
          · split
            · next sa sb hva hvb =>
              by_cases hc : f = "createdAt"
              · have e1 := h3 hc a ha sa hva
                have e2 := h3 hc b hb sb hvb
                simp [hc, FileDataProvider.isDateField, FileDataProvider.parseDate, e1, e2]
              · simp [hc, h1, h2, FileDataProvider.isDateField]
            · rfl
            · rfl

theorem C17_sortData_agree_witness :
    sortData plainHost [[("name", .str "b")], [("name", .str "a")]] (some "name") (some "desc")
      = FileDataProvider.sortData plainHost [[("name", .str "b")], [("name", .str "a")]]
          (some "name") (some "desc") :=
  C17_sortData_agree plainHost [[("name", .str "b")], [("name", .str "a")]] (some "name")
    (some "desc") (by
      intro f hf
      injection hf with hf
      subst hf
      exact ⟨by decide, by decide, fun h => absurd h (by decide)⟩)

/-- C17, as stated, fails on the `endDate` values "01/02/2024, 10:00 a.m." and
"02/01/2024, 10:00 a.m." sorted ascending: the file provider reads 1 February
and 2 January and puts the second record first, the HTTP provider compares the
strings and leaves the list as it is. -/
theorem C17_counterexample :
    FileDataProvider.sortData plainHost
          [[("endDate", .str "01/02/2024, 10:00 a.m.")],
           [("endDate", .str "02/01/2024, 10:00 a.m.")]] (some "endDate") (some "asc")
        = [[("endDate", .str "02/01/2024, 10:00 a.m.")],
           [("endDate", .str "01/02/2024, 10:00 a.m.")]]
      ∧ sortData plainHost
          [[("endDate", .str "01/02/2024, 10:00 a.m.")],
           [("endDate", .str "02/01/2024, 10:00 a.m.")]] (some "endDate") (some "asc")
        = [[("endDate", .str "01/02/2024, 10:00 a.m.")],
           [("endDate", .str "02/01/2024, 10:00 a.m.")]] := by
  decide

end HttpDataProvider

namespace FileDataProvider

open Js

/-! ## The date parser -/

theorem parseDate_of_T (rt : Runtime) (s : String) (h : includes s "T" = true) :
    parseDate rt s = rt.dateParse s := by
  simp [parseDate, h]

theorem parseDate_of_no_match (rt : Runtime) (s : String) (hT : includes s "T" = false)
    (hm : matchDate s.data = none) : parseDate rt s = some 0 := by
  simp [parseDate, hT, hm]

theorem parseDate_of_match (rt : Runtime) (s : String) (g : DateGroups)
    (hT : includes s "T" = false) (hm : matchDate s.data = some g) :
    parseDate rt s
      = dateFromFields rt (parseDigits g.year) ((parseDigits g.month : Int) - 1)
          (parseDigits g.day) (hour24 (parseDigits g.hour) g.isPm) (parseDigits g.minute) := by
  simp [parseDate, hT, hm]

/-- C18: a string without the letter "T" that does not contain the localized
pattern is parsed to the time value 0, but every string that contains a "T" is
handed to `Date` whatever else it holds: for "TBD", which is neither an ISO
date-time nor in the localized format, `parseDate` returns what
`new Date("TBD")` is, the invalid date with time value `NaN`, and not 0. -/
theorem C18_parseDate_sentinel (rt : Runtime) :
    (∀ s : String, includes s "T" = false → matchDate s.data = none →
        parseDate rt s = some 0)
      ∧ (∀ s : String, includes s "T" = true → parseDate rt s = rt.dateParse s)
      ∧ includes "TBD" "T" = true ∧ matchDate "TBD".data = none
      ∧ (rt.dateParse "TBD" = none → parseDate rt "TBD" = none ∧ parseDate rt "TBD" ≠ some 0) := by
  refine ⟨parseDate_of_no_match rt, parseDate_of_T rt, by decide, by decide, ?_⟩
  intro h
  have h2 : parseDate rt "TBD" = none := by
    rw [parseDate_of_T rt "TBD" (by decide), h]
  exact ⟨h2, by rw [h2]; simp⟩

theorem C18_parseDate_sentinel_witness :
    parseDate plainHost "TBD" = none ∧ parseDate plainHost "TBD" ≠ some 0 :=
  (C18_parseDate_sentinel plainHost).2.2.2.2 rfl

/-- C20: for a string in the localized format whose captured hour `h` is in
1..12, the hour handed to `Date` is 0 when `h = 12` and the period is a.m., 12
when `h = 12` and the period is p.m., `h + 12` when the period is p.m. and `h`
is not 12, and `h` when the period is a.m. and `h` is not 12; it is at most
23. -/
theorem C20_hour24 (rt : Runtime) (s : String) (g : DateGroups)
    (hT : includes s "T" = false) (hm : matchDate s.data = some g)
    (h1 : 1 ≤ parseDigits g.hour) (h12 : parseDigits g.hour ≤ 12) :
    parseDate rt s
        = dateFromFields rt (parseDigits g.year) ((parseDigits g.month : Int) - 1)
            (parseDigits g.day)
            ((if parseDigits g.hour = 12 ∧ g.isPm = false then 0
              else if parseDigits g.hour = 12 ∧ g.isPm = true then 12
              else if g.isPm = true then parseDigits g.hour + 12
              else parseDigits g.hour : Nat) : Int)
            (parseDigits g.minute)
      ∧ hour24 (parseDigits g.hour) g.isPm
          = (if parseDigits g.hour = 12 ∧ g.isPm = false then 0
             else if parseDigits g.hour = 12 ∧ g.isPm = true then 12
             else if g.isPm = true then parseDigits g.hour + 12
             else parseDigits g.hour)
      ∧ hour24 (parseDigits g.hour) g.isPm ≤ 23 := by
  have hh : hour24 (parseDigits g.hour) g.isPm
      = (if parseDigits g.hour = 12 ∧ g.isPm = false then 0
         else if parseDigits g.hour = 12 ∧ g.isPm = true then 12
         else if g.isPm = true then parseDigits g.hour + 12
         else parseDigits g.hour) := by
    unfold hour24
    cases hp : g.isPm <;> by_cases h : parseDigits g.hour = 12 <;> simp [h]
  refine ⟨?_, hh, ?_⟩
  · rw [parseDate_of_match rt s g hT hm, hh]
  · rw [hh]
    by_cases h : parseDigits g.hour = 12 <;> cases hp : g.isPm <;> simp [h] <;> omega

theorem C20_hour24_witness :
    hour24 (parseDigits ['0', '2']) true ≤ 23 :=
  (C20_hour24 plainHost "05/03/2024, 02:15 p.m."
    { day := ['0', '5'], month := ['0', '3'], year := ['2', '0', '2', '4'],
      hour := ['0', '2'], minute := ['1', '5'], isPm := true }
    (by decide) (by decide) (by decide) (by decide)).2.2

/-! ## Unparseable dates in an ascending sort -/

theorem compareRecords_dates (rt : Runtime) (field : String) (hf : isDateField field = true)
    (a b : Record) (sa sb : String) (ta tb : Int) (ha : a.get field = Value.str sa)
    (hb : b.get field = Value.str sb) (hta : parseDate rt sa = some ta)
    (htb : parseDate rt sb = some tb) :
    sortOrder (compareRecords rt field "asc" a b) = ta - tb := by
  simp [compareRecords, compareValues, ha, hb, looseEqNull, hf, hta, htb, timeDifference,
    directed, sortOrder]

/-- C19, as amended: when every record of the list holds, in the date field, a
string that the parser turns into a time value, the ascending sort by that
field puts every record whose string is unparseable (no "T", no localized
pattern: time value 0) before every record whose string is a valid date in the
localized format with a time value greater than 0, that is a date after the
epoch, 1 January 1970. -/
theorem C19_sortData_unparseable_first (rt : Runtime) (data : List Record) (field : String)
    (hf : isDateField field = true)
    (hall : ∀ r ∈ data, ∃ s t, r.get field = Value.str s ∧ parseDate rt s = some t) :
    (sortData rt data (some field) (some "asc")).Pairwise
      (fun a b =>
        ¬ ((∃ s t, a.get field = Value.str s ∧ includes s "T" = false
              ∧ matchDate s.data ≠ none ∧ parseDate rt s = some t ∧ 0 < t)
          ∧ (∃ s, b.get field = Value.str s ∧ includes s "T" = false
              ∧ matchDate s.data = none))) := by
  have hne : field ≠ "" := by
    intro h
    rw [h] at hf
    exact absurd hf (by decide)
  have hc : ConsistentOn (fun a b => sortOrder (compareRecords rt field "asc" a b)) data := by
    apply consistentOn_of_key
      (fun r : Record => match r.get field with
        | Value.str s => (parseDate rt s).getD 0
        | _ => 0)
    intro a ha b hb
    obtain ⟨sa, ta, hsa, hta⟩ := hall a ha
    obtain ⟨sb, tb, hsb, htb⟩ := hall b hb
    have e1 := compareRecords_dates rt field hf a b sa sb ta tb hsa hsb hta htb
    have e2 := compareRecords_dates rt field hf b a sb sa tb ta hsb hsa htb hta
    simp only [hsa, hsb, hta, htb, Option.getD_some, e1, e2]
    constructor <;> constructor <;> intro h <;> omega
  rw [sortData_of_field rt data field _ hne]
  have hsorted := (arraySort_consistent _ data hc).1
  have hperm := arraySort_perm (compareRecords rt field "asc") data
  simp only [Option.getD_some]
  refine hsorted.imp_of_mem ?_
  intro a b ha hb hab
  rintro ⟨⟨sa, ta, hsa, -, -, hta, hpos⟩, ⟨sb, hsb, hT, hm⟩⟩
  have htb := parseDate_of_no_match rt sb hT hm
  have e := compareRecords_dates rt field hf a b sa sb ta 0 hsa hsb hta htb
  rw [e] at hab
  omega

theorem C19_sortData_unparseable_first_witness :
    (sortData plainHost
        [[("endDate", .str "05/03/2024, 02:15 p.m.")], [("endDate", .str "unknown")]]
        (some "endDate") (some "asc")).Pairwise
      (fun a b =>
        ¬ ((∃ s t, a.get "endDate" = Value.str s ∧ includes s "T" = false
              ∧ matchDate s.data ≠ none ∧ parseDate plainHost s = some t ∧ 0 < t)
          ∧ (∃ s, b.get "endDate" = Value.str s ∧ includes s "T" = false
              ∧ matchDate s.data = none))) :=
  C19_sortData_unparseable_first plainHost
    [[("endDate", .str "05/03/2024, 02:15 p.m.")], [("endDate", .str "unknown")]] "endDate"
    (by decide)
    (by
      intro r hr
      simp only [List.mem_cons, List.mem_singleton, List.not_mem_nil, or_false] at hr
      rcases hr with rfl | rfl
      · exact ⟨"05/03/2024, 02:15 p.m.", 1709648100000, rfl, by decide⟩
      · exact ⟨"unknown", 0, rfl, by decide⟩)

/-- C19, as stated, fails on the `endDate` values "unknown" and
"01/01/1960, 10:00 a.m." sorted ascending: the valid date of 1960 has a negative
time value and comes before the unparseable string, whose time value is 0. -/
theorem C19_counterexample :
    parseDate plainHost "unknown" = some 0
      ∧ parseDate plainHost "01/01/1960, 10:00 a.m." = some (-315583200000)
      ∧ sortData plainHost
          [[("endDate", .str "unknown")], [("endDate", .str "01/01/1960, 10:00 a.m.")]]
          (some "endDate") (some "asc")
        = [[("endDate", .str "01/01/1960, 10:00 a.m.")], [("endDate", .str "unknown")]] := by
  decide

end FileDataProvider

namespace Js

/-! ## The calendar -/

theorem dayOfMonthStart_eq (year : Int) (month : Nat) :
    dayOfMonthStart year month =
      (if month < 2 then year - 1 else year) / 400 * 146097
        + (((if month < 2 then year - 1 else year)
              - (if month < 2 then year - 1 else year) / 400 * 400) * 365
          + ((if month < 2 then year - 1 else year)
              - (if month < 2 then year - 1 else year) / 400 * 400) / 4
          - ((if month < 2 then year - 1 else year)
              - (if month < 2 then year - 1 else year) / 400 * 400) / 100
          + (153 * (((month + 10) % 12 : Nat) : Int) + 2) / 5) - 719468 := by
  unfold dayOfMonthStart
  simp only [Int.fdiv_eq_ediv _ (by decide : (0:Int) ≤ 400)]

theorem dayOfMonthStart_succ (year : Int) (month : Nat) (h : month < 11) :
    dayOfMonthStart year (month + 1) = dayOfMonthStart year month + daysInMonth year month := by
  rw [dayOfMonthStart_eq, dayOfMonthStart_eq]
  unfold daysInMonth isLeapYear
  have hm : month = 0 ∨ month = 1 ∨ month = 2 ∨ month = 3 ∨ month = 4 ∨ month = 5 ∨ month = 6
      ∨ month = 7 ∨ month = 8 ∨ month = 9 ∨ month = 10 := by omega
  rcases hm with rfl | rfl | rfl | rfl | rfl | rfl | rfl | rfl | rfl | rfl | rfl <;> simp <;>
    (try split_ifs) <;> omega

theorem dayOfMonthStart_next_year (year : Int) :
    dayOfMonthStart (year + 1) 0 = dayOfMonthStart year 11 + 31 := by
  rw [dayOfMonthStart_eq, dayOfMonthStart_eq]
  simp
  omega

theorem dayOfMonthStart_year_mono (y1 y2 : Int) (h : y1 ≤ y2) :
    dayOfMonthStart y1 0 ≤ dayOfMonthStart y2 0 := by
  rw [dayOfMonthStart_eq, dayOfMonthStart_eq]
  simp
  omega

theorem daysInMonth_pos (year : Int) (month : Nat) :
    28 ≤ daysInMonth year month ∧ daysInMonth year month ≤ 31 := by
  unfold daysInMonth
  split_ifs <;> omega

theorem dayOfMonthStart_month_lt (year : Int) (m k : Nat) (h : m + k + 1 ≤ 11) :
    dayOfMonthStart year m + daysInMonth year m ≤ dayOfMonthStart year (m + k + 1) := by
  induction k with
  | zero => rw [dayOfMonthStart_succ year m (by omega)]
  | succ k ih =>
    have h1 := ih (by omega)
    have h2 := dayOfMonthStart_succ year (m + k + 1) (by omega)
    have h3 := daysInMonth_pos year (m + k + 1)
    rw [show m + (k + 1) + 1 = m + k + 1 + 1 by omega, h2]
    omega

theorem dayOfMonthStart_month_mono (year : Int) (m m' : Nat) (h : m ≤ m') (h' : m' ≤ 11) :
    dayOfMonthStart year m ≤ dayOfMonthStart year m' := by
  rcases Nat.eq_or_lt_of_le h with rfl | hlt
  · exact le_refl _
  · obtain ⟨k, rfl⟩ : ∃ k, m' = m + k + 1 := ⟨m' - m - 1, by omega⟩
    have h1 := dayOfMonthStart_month_lt year m k h'
    have h2 := daysInMonth_pos year m
    omega

theorem dayOfMonthStart_year_lt (y y' : Int) (m m' : Nat) (hy : y < y') (hm : m ≤ 11)
    (hm' : m' ≤ 11) :
    dayOfMonthStart y m + daysInMonth y m ≤ dayOfMonthStart y' m' := by
  have h1 : dayOfMonthStart y m + daysInMonth y m ≤ dayOfMonthStart y 11 + 31 := by
    rcases Nat.eq_or_lt_of_le hm with rfl | hlt
    · have := daysInMonth_pos y 11
      omega
    · obtain ⟨k, hk⟩ : ∃ k, 11 = m + k + 1 := ⟨11 - m - 1, by omega⟩
      have h2 := dayOfMonthStart_month_lt y m k (by omega)
      rw [← hk] at h2
      omega
  have h2 := dayOfMonthStart_next_year y
  have h3 := dayOfMonthStart_year_mono (y + 1) y' (by omega)
  have h4 := dayOfMonthStart_month_mono y' 0 m' (by omega) hm'
  omega

theorem makeDay_of_month (year : Int) (month : Nat) (date : Int) (h1 : 1 ≤ month)
    (h12 : month ≤ 12) :
    makeDay year ((month : Int) - 1) date = dayOfMonthStart year (month - 1) + date - 1 := by
  unfold makeDay
  have hd : Int.fdiv ((month : Int) - 1) 12 = 0 := by
    rw [Int.fdiv_eq_ediv _ (by decide : (0:Int) ≤ 12)]
    omega
  have hm : (Int.fmod ((month : Int) - 1) 12).toNat = month - 1 := by
    rw [Int.fmod_eq_emod _ (by decide : (0:Int) ≤ 12)]
    omega
  simp only [hd, hm, add_zero]

theorem cons_lt_cons_nat (a b : Nat) (as bs : List Nat) :
    a :: as < b :: bs ↔ a < b ∨ (a = b ∧ as < bs) := by
  constructor
  · intro h
    cases h with
    | cons h => exact Or.inr ⟨rfl, h⟩
    | rel h => exact Or.inl h
  · rintro (h | ⟨rfl, h⟩)
    · exact List.Lex.rel h
    · exact List.Lex.cons h

theorem dayOfMonthStart_month_lt_of_lt (year : Int) (m m' : Nat) (h : m < m') (h' : m' ≤ 11) :
    dayOfMonthStart year m + daysInMonth year m ≤ dayOfMonthStart year m' := by
  obtain ⟨k, rfl⟩ : ∃ k, m' = m + k + 1 := ⟨m' - m - 1, by omega⟩
  exact dayOfMonthStart_month_lt year m k h'

theorem dayOfMonthStart_bound (year : Int) (month : Nat) (h0 : 0 ≤ year) (h1 : year ≤ 9999) :
    -800000 ≤ dayOfMonthStart year month ∧ dayOfMonthStart year month ≤ 3000000 := by
  rw [dayOfMonthStart_eq]
  split_ifs <;> omega

/-- The local time value of a wall-clock time grows with the tuple of its
fields, taken in lexicographic order, as long as the fields are those of a date
of the calendar. -/
theorem localTime_lt (Y M D H Mi Y' M' D' H' Mi' : Nat)
    (hM : 1 ≤ M ∧ M ≤ 12) (hD : 1 ≤ D ∧ (D : Int) ≤ daysInMonth Y (M - 1)) (hH : H ≤ 23)
    (hMi : Mi ≤ 59) (hM' : 1 ≤ M' ∧ M' ≤ 12)
    (hD' : 1 ≤ D' ∧ (D' : Int) ≤ daysInMonth Y' (M' - 1)) (_hH' : H' ≤ 23) (_hMi' : Mi' ≤ 59)
    (hlt : [Y, M, D, H, Mi] < [Y', M', D', H', Mi']) :
    makeDay Y ((M : Int) - 1) D * 86400000 + makeTime H Mi
      < makeDay Y' ((M' : Int) - 1) D' * 86400000 + makeTime H' Mi' := by
  rw [makeDay_of_month Y M D hM.1 hM.2, makeDay_of_month Y' M' D' hM'.1 hM'.2]
  unfold makeTime
  simp only [cons_lt_cons_nat] at hlt
  rcases hlt with h | ⟨rfl, h | ⟨rfl, h | ⟨rfl, h | ⟨rfl, h | ⟨rfl, h⟩⟩⟩⟩⟩
  · have := dayOfMonthStart_year_lt Y Y' (M - 1) (M' - 1) (by exact_mod_cast h) (by omega)
      (by omega)
    omega
  · have := dayOfMonthStart_month_lt_of_lt Y (M - 1) (M' - 1) (by omega) (by omega)
    omega
  · omega
  · omega
  · omega
  · exact absurd h (List.Lex.not_nil_right _ _)

end Js

namespace FileDataProvider

open Js

/-! ## The order of localized dates -/

theorem hour24_le (hour : Nat) (isPm : Bool) (h12 : hour ≤ 12) :
    hour24 hour isPm ≤ 23 := by
  unfold hour24
  by_cases h : hour = 12 <;> cases isPm <;> simp [h] <;> omega

theorem parseDate_of_valid (rt : Runtime) (s : String) (g : DateGroups)
    (hoff : ∀ t : Int, t - 86400000 ≤ rt.utc t ∧ rt.utc t ≤ t + 86400000)
    (hT : includes s "T" = false) (hm : matchDate s.data = some g)
    (hv : validWallClock g = true) :
    parseDate rt s
      = some (rt.utc (makeDay (parseDigits g.year) ((parseDigits g.month : Int) - 1)
            (parseDigits g.day) * 86400000
          + makeTime (hour24 (parseDigits g.hour) g.isPm) (parseDigits g.minute))) := by
  simp only [validWallClock, decide_eq_true_eq] at hv
  obtain ⟨hy, hy', hm1, hm12, hd1, hd, -, hh12, hmi⟩ := hv
  rw [parseDate_of_match rt s g hT hm]
  unfold dateFromFields
  have hyr : ¬ ((0 : Int) ≤ (parseDigits g.year : Int) ∧ (parseDigits g.year : Int) ≤ 99) := by
    omega
  simp only [hyr, if_false]
  unfold timeClip
  have hb := dayOfMonthStart_bound (parseDigits g.year) (parseDigits g.month - 1) (by omega)
    (by omega)
  have hdim := daysInMonth_pos (parseDigits g.year) (parseDigits g.month - 1)
  have hh := hour24_le (parseDigits g.hour) g.isPm hh12
  have ho := hoff (makeDay (parseDigits g.year) ((parseDigits g.month : Int) - 1)
            (parseDigits g.day) * 86400000
          + makeTime (hour24 (parseDigits g.hour) g.isPm) (parseDigits g.minute))
  rw [makeDay_of_month _ _ _ hm1 hm12] at ho ⊢
  unfold makeTime at ho ⊢
  rw [if_neg]
  omega

theorem localTime_wallClock (ga gb : DateGroups) (hva : validWallClock ga = true)
    (hvb : validWallClock gb = true) (hlt : wallClock ga < wallClock gb) :
    makeDay (parseDigits ga.year) ((parseDigits ga.month : Int) - 1) (parseDigits ga.day)
          * 86400000
        + makeTime (hour24 (parseDigits ga.hour) ga.isPm) (parseDigits ga.minute)
      < makeDay (parseDigits gb.year) ((parseDigits gb.month : Int) - 1) (parseDigits gb.day)
          * 86400000
        + makeTime (hour24 (parseDigits gb.hour) gb.isPm) (parseDigits gb.minute) := by
  simp only [validWallClock, decide_eq_true_eq] at hva hvb
  obtain ⟨-, -, am1, am12, ad1, ad, -, ah12, ami⟩ := hva
  obtain ⟨-, -, bm1, bm12, bd1, bd, -, bh12, bmi⟩ := hvb
  exact_mod_cast localTime_lt _ _ _ _ _ _ _ _ _ _ ⟨am1, am12⟩ ⟨ad1, ad⟩
    (hour24_le _ _ ah12) ami ⟨bm1, bm12⟩ ⟨bd1, bd⟩ (hour24_le _ _ bh12) bmi hlt

/-- Claim C21, as amended.  On a host whose conversion from local time to UTC
is strictly increasing and moves a time by a day at most, take two records whose
date field holds strings in the localized format (no "T", the pattern matches)
with a year from 100 to 9999, a month in 1..12, a day that the month has, an
hour in 1..12 and a minute in 0..59.  The ascending comparator returns a
number; it is negative exactly when the wall-clock tuple (year, month, day, hour
on the 24-hour clock, minute) of the first record is less than that of the
second in lexicographic order, zero exactly when the two tuples are equal, and
positive exactly when the tuple of the first record is the greater one. -/
theorem C21_sortData_wall_clock (rt : Runtime) (field : String) (a b : Record)
    (sa sb : String) (ga gb : DateGroups) (hf : isDateField field = true)
    (hmono : ∀ s t : Int, s < t → rt.utc s < rt.utc t)
    (hoff : ∀ t : Int, t - 86400000 ≤ rt.utc t ∧ rt.utc t ≤ t + 86400000)
    (ha : a.get field = Value.str sa) (hb : b.get field = Value.str sb)
    (hTa : includes sa "T" = false) (hTb : includes sb "T" = false)
    (hma : matchDate sa.data = some ga) (hmb : matchDate sb.data = some gb)
    (hva : validWallClock ga = true) (hvb : validWallClock gb = true) :
    ∃ c : Int, compareRecords rt field "asc" a b = some c
      ∧ (c < 0 ↔ wallClock ga < wallClock gb)
      ∧ (c = 0 ↔ wallClock ga = wallClock gb)
      ∧ (0 < c ↔ wallClock gb < wallClock ga) := by
  have hpa := parseDate_of_valid rt sa ga hoff hTa hma hva
  have hpb := parseDate_of_valid rt sb gb hoff hTb hmb hvb
  have hab := localTime_wallClock ga gb hva hvb
  have hba := localTime_wallClock gb ga hvb hva
  have heq : wallClock ga = wallClock gb →
      makeDay (parseDigits ga.year) ((parseDigits ga.month : Int) - 1) (parseDigits ga.day)
            * 86400000
          + makeTime (hour24 (parseDigits ga.hour) ga.isPm) (parseDigits ga.minute)
        = makeDay (parseDigits gb.year) ((parseDigits gb.month : Int) - 1) (parseDigits gb.day)
            * 86400000
          + makeTime (hour24 (parseDigits gb.hour) gb.isPm) (parseDigits gb.minute) := by
    intro h
    simp only [wallClock, List.cons.injEq, and_true] at h
    obtain ⟨h1, h2, h3, h4, h5⟩ := h
    rw [h1, h2, h3, h4, h5]
  generalize makeDay (parseDigits ga.year) ((parseDigits ga.month : Int) - 1)
      (parseDigits ga.day) * 86400000
    + makeTime (hour24 (parseDigits ga.hour) ga.isPm) (parseDigits ga.minute) = ta
    at hpa hab hba heq
  generalize makeDay (parseDigits gb.year) ((parseDigits gb.month : Int) - 1)
      (parseDigits gb.day) * 86400000
    + makeTime (hour24 (parseDigits gb.hour) gb.isPm) (parseDigits gb.minute) = tb
    at hpb hab hba heq
  refine ⟨rt.utc ta - rt.utc tb, ?_, ?_, ?_, ?_⟩
  · simp [compareRecords, compareValues, ha, hb, looseEqNull, hf, hpa, hpb, timeDifference,
      directed]
  · constructor
    · intro hc
      rcases lt_trichotomy (wallClock ga) (wallClock gb) with h | h | h
      · exact h
      · have := heq h
        subst this
        omega
      · have := hmono _ _ (hba h)
        omega
    · intro h
      have := hmono _ _ (hab h)
      omega
  · constructor
    · intro hc
      rcases lt_trichotomy (wallClock ga) (wallClock gb) with h | h | h
      · have := hmono _ _ (hab h)
        omega
      · exact h
      · have := hmono _ _ (hba h)
        omega
    · intro h
      have := heq h
      subst this
      omega
  · constructor
    · intro hc
      rcases lt_trichotomy (wallClock ga) (wallClock gb) with h | h | h
      · have := hmono _ _ (hab h)
        omega
      · have := heq h
        subst this
        omega
      · exact h
    · intro h
      have := hmono _ _ (hba h)
      omega

/-- On a host in UTC, "15/03/2024, 02:30 p.m." comes after
"15/03/2024, 11:05 a.m.": the tuples differ in the hour, 14 against 11. -/
theorem C21_sortData_wall_clock_witness :
    ∃ c : Int,
      compareRecords plainHost "endDate" "asc"
          [("endDate", .str "15/03/2024, 02:30 p.m.")]
          [("endDate", .str "15/03/2024, 11:05 a.m.")] = some c
      ∧ (c < 0 ↔ ([2024, 3, 15, 14, 30] : List Nat) < [2024, 3, 15, 11, 5])
      ∧ (c = 0 ↔ ([2024, 3, 15, 14, 30] : List Nat) = [2024, 3, 15, 11, 5])
      ∧ (0 < c ↔ ([2024, 3, 15, 11, 5] : List Nat) < [2024, 3, 15, 14, 30]) :=
  C21_sortData_wall_clock plainHost "endDate"
    [("endDate", .str "15/03/2024, 02:30 p.m.")] [("endDate", .str "15/03/2024, 11:05 a.m.")]
    "15/03/2024, 02:30 p.m." "15/03/2024, 11:05 a.m."
    { day := ['1', '5'], month := ['0', '3'], year := ['2', '0', '2', '4'],
      hour := ['0', '2'], minute := ['3', '0'], isPm := true }
    { day := ['1', '5'], month := ['0', '3'], year := ['2', '0', '2', '4'],
      hour := ['1', '1'], minute := ['0', '5'], isPm := false }
    (by decide) (fun _ _ h => h) (fun t => ⟨by show t - 86400000 ≤ t; omega,
      by show t ≤ t + 86400000; omega⟩)
    (by decide) (by decide) (by decide) (by decide) (by decide) (by decide) (by decide)
    (by decide)

/-- Claim C21, as stated, fails in two ways.  A year below 100 is read as a year
of the twentieth century: on a host in UTC, "01/01/0050, 10:00 a.m." has the
smaller tuple and yet comes after "01/01/0100, 10:00 a.m.".  And the time zone
of the host takes part: where the clocks go from 02:00 to 03:00 on 10 March
2024, the strings "10/03/2024, 02:30 a.m." and "10/03/2024, 03:30 a.m." have
different tuples and compare as equal, and "10/03/2024, 02:30 a.m." comes after
"10/03/2024, 03:00 a.m.". -/
theorem C21_counterexample :
    (matchDate "01/01/0050, 10:00 a.m.".data).map wallClock = some [50, 1, 1, 10, 0]
    ∧ (matchDate "01/01/0100, 10:00 a.m.".data).map wallClock = some [100, 1, 1, 10, 0]
    ∧ ([50, 1, 1, 10, 0] : List Nat) < [100, 1, 1, 10, 0]
    ∧ compareRecords plainHost "endDate" "asc"
          [("endDate", .str "01/01/0050, 10:00 a.m.")]
          [("endDate", .str "01/01/0100, 10:00 a.m.")] = some 58380307200000
    ∧ (matchDate "10/03/2024, 02:30 a.m.".data).map wallClock = some [2024, 3, 10, 2, 30]
    ∧ (matchDate "10/03/2024, 03:30 a.m.".data).map wallClock = some [2024, 3, 10, 3, 30]
    ∧ (matchDate "10/03/2024, 03:00 a.m.".data).map wallClock = some [2024, 3, 10, 3, 0]
    ∧ compareRecords springForwardHost "endDate" "asc"
          [("endDate", .str "10/03/2024, 02:30 a.m.")]
          [("endDate", .str "10/03/2024, 03:30 a.m.")] = some 0
    ∧ compareRecords springForwardHost "endDate" "asc"
          [("endDate", .str "10/03/2024, 02:30 a.m.")]
          [("endDate", .str "10/03/2024, 03:00 a.m.")] = some 1800000 := by
  decide

end FileDataProvider

namespace FileDataProvider

open Js

/-! ## The health check -/

theorem healthCheckOver_eq (keys : List String)
    (probe : String → Except String SourceValue) :
    healthCheckOver keys probe
      = .ok (keys.all (fun key => match probe key with | .ok _ => true | .error _ => false)) := by
  unfold healthCheckOver
  dsimp only
  congr 1
  induction keys with
  | nil => rfl
  | cons k ks ih =>
    rw [List.map_cons, List.any_cons, Bool.not_or, ih, List.all_cons]
    rcases hp : probe k with e | d <;> rfl

theorem getDataSource_create (computers users : List Record) (options : ProviderOptions)
    (key : String) (hk : key ∈ (dataSources computers users).map Prod.fst) :
    ∃ data, getDataSource (create computers users options) key = .ok (.collection data) := by
  simp only [dataSources, List.map_cons, List.map_nil, List.mem_cons, List.mem_singleton,
    List.not_mem_nil, or_false] at hk
  rcases hk with rfl | rfl | rfl | rfl | rfl | rfl | rfl | rfl | rfl | rfl
  · exact ⟨computers, rfl⟩
  · exact ⟨users, rfl⟩
  all_goals exact ⟨[], rfl⟩

/-- Claim C22.  `healthCheck` never fails: for every registry and every lookup
it resolves to a boolean, to `true` exactly when the lookup of every registered
key returns and to `false` exactly when the lookup of some registered key
throws.  A provider built by the constructor has ten registered keys, the lookup
of each returns its array, and its health check resolves to `true`. -/
theorem C22_healthCheck (keys : List String) (probe : String → Except String SourceValue)
    (computers users : List Record) (options : ProviderOptions) :
    (∃ healthy, healthCheckOver keys probe = .ok healthy)
    ∧ (healthCheckOver keys probe = .ok true ↔ ∀ key ∈ keys, ∃ data, probe key = .ok data)
    ∧ (healthCheckOver keys probe = .ok false ↔ ∃ key ∈ keys, ∃ e, probe key = .error e)
    ∧ ((create computers users options).dataSources.map Prod.fst).length = 10
    ∧ (∀ key ∈ (create computers users options).dataSources.map Prod.fst,
        ∃ data, getDataSource (create computers users options) key = .ok (.collection data))
    ∧ healthCheck (create computers users options) = .ok true := by
  have hall : ∀ ks : List String,
      (ks.all (fun key => match probe key with | .ok _ => true | .error _ => false) = true
        ↔ ∀ key ∈ ks, ∃ data, probe key = .ok data) := by
    intro ks
    rw [List.all_eq_true]
    constructor
    · intro h key hk
      have := h key hk
      cases hp : probe key with
      | ok d => exact ⟨d, rfl⟩
      | error e => rw [hp] at this; exact absurd this (by simp)
    · intro h key hk
      obtain ⟨d, hd⟩ := h key hk
      rw [hd]
  refine ⟨⟨_, healthCheckOver_eq keys probe⟩, ?_, ?_, rfl, ?_, ?_⟩
  · rw [healthCheckOver_eq, Except.ok.injEq]
    exact hall keys
  · rw [healthCheckOver_eq, Except.ok.injEq]
    constructor
    · intro h
      by_contra hne
      have hne' : ∀ key ∈ keys, ∃ data, probe key = .ok data := by
        intro key hk
        cases hp : probe key with
        | ok d => exact ⟨d, rfl⟩
        | error e => exact absurd ⟨key, hk, e, hp⟩ hne
      rw [(hall keys).mpr hne'] at h
      exact absurd h (by decide)
    · rintro ⟨key, hk, e, he⟩
      cases hb : keys.all (fun key => match probe key with | .ok _ => true | .error _ => false) with
      | false => rfl
      | true =>
        obtain ⟨d, hd⟩ := (hall keys).mp hb key hk
        rw [he] at hd
        exact absurd hd (by simp)
  · intro key hk
    exact getDataSource_create computers users options key hk
  · unfold healthCheck
    rw [healthCheckOver_eq, Except.ok.injEq, List.all_eq_true]
    intro key hk
    obtain ⟨d, hd⟩ := getDataSource_create computers users options key hk
    rw [hd]

/-- A health check over a registry in which one lookup throws resolves to
`false`, as the first part of `C22_healthCheck` says. -/
theorem C22_healthCheck_witness :
    healthCheckOver ["users", "ghost"]
        (getDataSource (create [] [] { delay := none, enableLogging := none })) = .ok false
    ∧ ∃ key ∈ ["users", "ghost"], ∃ e,
        getDataSource (create [] [] { delay := none, enableLogging := none }) key = .error e :=
  ⟨rfl,
   ((C22_healthCheck ["users", "ghost"]
      (getDataSource (create [] [] { delay := none, enableLogging := none })) [] []
      { delay := none, enableLogging := none }).2.2.1).mp rfl⟩

/-! ## The simulated delay -/

/-- Claim C27.  A provider constructed with a delay option other than zero has
that delay, and one constructed without the option has the default 300; but the
option `0` is replaced by the default as well, so the provider that
`DataService` builds (delay option `0`, since `ENABLE_MOCK_DELAY` is false in
every environment) has delay 300 and waits 300 milliseconds. -/
theorem C27_delay (computers users : List Record) (enableLogging : Option Bool) :
    (∀ d : Int, d ≠ 0 →
      (create computers users { delay := some d, enableLogging := enableLogging }).delay = d)
    ∧ (create computers users { delay := none, enableLogging := enableLogging }).delay = 300
    ∧ (create computers users { delay := some 0, enableLogging := enableLogging }).delay = 300
    ∧ simulateDelay (create computers users { delay := some 0, enableLogging := enableLogging })
        = some 300
    ∧ (∀ (settings : ApiConfig.Settings) (nodeEnv : Option String) (useMockAPI : Value),
        ∃ provider,
          (DataService.construct computers users settings nodeEnv useMockAPI).fileProvider
            = some provider
          ∧ provider.delay = 300 ∧ simulateDelay provider = some 300) := by
  refine ⟨?_, rfl, rfl, rfl, ?_⟩
  · intro d hd
    simp [create, orElseNumber, hd]
  · intro settings nodeEnv useMockAPI
    refine ⟨_, rfl, ?_, ?_⟩
    · simp only [create, ApiConfig.getEnvConfig]
      split_ifs <;> rfl
    · simp only [create, ApiConfig.getEnvConfig]
      split_ifs <;> rfl

theorem C27_delay_witness :
    (create [] [] { delay := some 50, enableLogging := none }).delay = 50 :=
  (C27_delay [] [] none).1 50 (by decide)

end FileDataProvider

namespace DataService

open Js

/-! ## The active provider -/

/-- Claim C23.  `toggleDataSource` is idempotent: in every state and for every
argument, a boolean in particular, a second call with the same argument leaves
the state of the first call, flag and active provider included; and after
`toggleDataSource(b)` with a boolean `b`, `getProviderType()` returns `"http"`
when `b` is true and `"file"` when it is false. -/
theorem C23_toggleDataSource_idempotent (s : State) :
    (∀ v : Value, toggleDataSource (toggleDataSource s v) v = toggleDataSource s v)
    ∧ (∀ b : Bool,
        (toggleDataSource (toggleDataSource s (.bool b)) (.bool b)).useMockAPI = .bool b
        ∧ (toggleDataSource (toggleDataSource s (.bool b)) (.bool b)).currentProvider
            = (toggleDataSource s (.bool b)).currentProvider
        ∧ getProviderType (toggleDataSource s (.bool b)) = if b then "http" else "file")
    ∧ getProviderType (toggleDataSource s (.bool true)) = "http"
    ∧ getProviderType (toggleDataSource s (.bool false)) = "file" := by
  refine ⟨?_, ?_, rfl, rfl⟩
  · intro v
    simp [toggleDataSource, setCurrentProvider]
  · intro b
    refine ⟨rfl, ?_, ?_⟩
    · simp [toggleDataSource, setCurrentProvider]
    · cases b <;> rfl

theorem reachable_providers (computers users : List Record) (settings : ApiConfig.Settings)
    (nodeEnv : Option String) (useMockAPI : Value) (toggles : List Value) :
    ∃ fileProvider httpProvider,
      (toggles.foldl toggleDataSource
          (construct computers users settings nodeEnv useMockAPI)).fileProvider
        = some fileProvider
      ∧ (toggles.foldl toggleDataSource
          (construct computers users settings nodeEnv useMockAPI)).httpProvider
        = some httpProvider
      ∧ (toggles.foldl toggleDataSource
          (construct computers users settings nodeEnv useMockAPI)).currentProvider
        = some (if getProviderType (toggles.foldl toggleDataSource
                    (construct computers users settings nodeEnv useMockAPI)) = "http"
                then Active.http httpProvider else Active.file fileProvider) := by
  have hinv : ∀ (ts : List Value) (s : State) (fp : FileDataProvider.Provider)
      (hp : HttpDataProvider.Provider),
      s.fileProvider = some fp → s.httpProvider = some hp →
      s.currentProvider = some (if getProviderType s = "http" then Active.http hp
        else Active.file fp) →
      (ts.foldl toggleDataSource s).fileProvider = some fp
      ∧ (ts.foldl toggleDataSource s).httpProvider = some hp
      ∧ (ts.foldl toggleDataSource s).currentProvider
          = some (if getProviderType (ts.foldl toggleDataSource s) = "http" then Active.http hp
              else Active.file fp) := by
    intro ts
    induction ts with
    | nil => intro s fp hp h1 h2 h3; exact ⟨h1, h2, h3⟩
    | cons v vs ih =>
      intro s fp hp h1 h2 _
      rw [List.foldl_cons]
      apply ih
      · simpa [toggleDataSource, setCurrentProvider] using h1
      · simpa [toggleDataSource, setCurrentProvider] using h2
      · simp only [toggleDataSource, setCurrentProvider, getProviderType, h1, h2]
        cases truthy v <;> simp
  refine ⟨_, _, hinv toggles (construct computers users settings nodeEnv useMockAPI) _ _ rfl rfl ?_⟩
  simp only [construct, initializeProviders, setCurrentProvider, getProviderType]
  cases h : truthy useMockAPI
  · simp [h, truthy]
  · simp [h]

/-- Claim C24.  In every state reached from the constructor by a sequence of
calls of `toggleDataSource`, both providers exist, the active provider is set,
and it is the HTTP provider when `getProviderType()` is `"http"` and the file
provider otherwise; `getResources`, `getResourceById` and `getResourceCount`
then hand the call to that provider and do not fail with "No data provider
configured". -/
theorem C24_active_provider (computers users : List Record) (settings : ApiConfig.Settings)
    (nodeEnv : Option String) (useMockAPI : Value) (toggles : List Value) :
    ∃ fileProvider httpProvider,
      (toggles.foldl toggleDataSource
          (construct computers users settings nodeEnv useMockAPI)).currentProvider
        = some (if getProviderType (toggles.foldl toggleDataSource
                    (construct computers users settings nodeEnv useMockAPI)) = "http"
                then Active.http httpProvider else Active.file fileProvider)
      ∧ (getProviderType (toggles.foldl toggleDataSource
            (construct computers users settings nodeEnv useMockAPI)) = "http"
          ∨ getProviderType (toggles.foldl toggleDataSource
            (construct computers users settings nodeEnv useMockAPI)) = "file")
      ∧ ∀ (rt : Runtime) (net : String → FetchResult) (resourceType : String)
          (options : FileDataProvider.QueryOptions) (id : Value),
          getResources rt net (toggles.foldl toggleDataSource
              (construct computers users settings nodeEnv useMockAPI)) resourceType options
            = (if getProviderType (toggles.foldl toggleDataSource
                    (construct computers users settings nodeEnv useMockAPI)) = "http"
               then .http (HttpDataProvider.getResources rt httpProvider net resourceType options)
               else .file (FileDataProvider.getResources rt fileProvider resourceType options))
          ∧ getResourceById net (toggles.foldl toggleDataSource
              (construct computers users settings nodeEnv useMockAPI)) resourceType id
            = (if getProviderType (toggles.foldl toggleDataSource
                    (construct computers users settings nodeEnv useMockAPI)) = "http"
               then .http (HttpDataProvider.getResourceById httpProvider net resourceType id)
               else .file (FileDataProvider.getResourceById fileProvider resourceType id))
          ∧ getResourceCount net (toggles.foldl toggleDataSource
              (construct computers users settings nodeEnv useMockAPI)) resourceType
            = (if getProviderType (toggles.foldl toggleDataSource
                    (construct computers users settings nodeEnv useMockAPI)) = "http"
               then .http (HttpDataProvider.getResourceCount httpProvider net resourceType)
               else .file (FileDataProvider.getResourceCount fileProvider resourceType))
          ∧ getResources rt net (toggles.foldl toggleDataSource
              (construct computers users settings nodeEnv useMockAPI)) resourceType options
            ≠ .noProvider
          ∧ getResourceById net (toggles.foldl toggleDataSource
              (construct computers users settings nodeEnv useMockAPI)) resourceType id
            ≠ .noProvider
          ∧ getResourceCount net (toggles.foldl toggleDataSource
              (construct computers users settings nodeEnv useMockAPI)) resourceType
            ≠ .noProvider := by
  obtain ⟨fp, hp, -, -, hcur⟩ :=
    reachable_providers computers users settings nodeEnv useMockAPI toggles
  refine ⟨fp, hp, hcur, ?_, ?_⟩
  · unfold getProviderType
    split_ifs
    · exact Or.inl rfl
    · exact Or.inr rfl
  · intro rt net resourceType options id
    unfold getResources getResourceById getResourceCount
    rw [hcur]
    split_ifs <;> simp

end DataService

namespace HttpDataProvider

open Js

/-! ## The URL that `getResources` requests -/

theorem makeRequest_congr (self : Provider) (net net' : String → FetchResult) (endpoint : String)
    (h : net (self.baseUrl ++ endpoint) = net' (self.baseUrl ++ endpoint)) :
    makeRequest self net endpoint = makeRequest self net' endpoint := by
  unfold makeRequest
  rw [h]

theorem getResources_congr (rt : Runtime) (self : Provider) (net net' : String → FetchResult)
    (resourceType : String) (options : FileDataProvider.QueryOptions)
    (h : net (self.baseUrl ++ ApiConfig.getEndpointForResource resourceType)
      = net' (self.baseUrl ++ ApiConfig.getEndpointForResource resourceType)) :
    getResources rt self net resourceType options
      = getResources rt self net' resourceType options := by
  simp only [getResources, makeRequest_congr self net net' _ h]

/-- Claim C25.  For every resource type and every options object, the outcome of
`getResources` depends on the network only through the response to the one URL
`baseUrl ++ getEndpointForResource resourceType`, in which the options have no
part: a status 500 there fails the call and an empty array there succeeds,
whatever the options are and whatever any other URL would answer.  The endpoint
is the mapped path for a mapped type and `"/" ++ resourceType` for every other
type that is not a name inherited from `Object.prototype`; for an inherited name
it is the string form of the inherited member, as for `"constructor"`. -/
theorem C25_getResources_url (rt : Runtime) (self : Provider) (resourceType : String)
    (options : FileDataProvider.QueryOptions) :
    (∀ net net' : String → FetchResult,
        net (self.baseUrl ++ ApiConfig.getEndpointForResource resourceType)
          = net' (self.baseUrl ++ ApiConfig.getEndpointForResource resourceType) →
        getResources rt self net resourceType options
          = getResources rt self net' resourceType options)
    ∧ (∀ (net : String → FetchResult) (body : Except JsError Json),
        net (self.baseUrl ++ ApiConfig.getEndpointForResource resourceType)
          = .response 500 body →
        getResources rt self net resourceType options
          = .error (newError "Server error. Please try again later."))
    ∧ (∀ net : String → FetchResult,
        net (self.baseUrl ++ ApiConfig.getEndpointForResource resourceType)
          = .response 200 (.ok (.array [])) →
        ∃ result, getResources rt self net resourceType options = .ok result)
    ∧ (∀ path, ApiConfig.endpoints.lookup resourceType = some path →
        ApiConfig.getEndpointForResource resourceType = path)
    ∧ (ApiConfig.endpoints.lookup resourceType = none → resourceType ∉ inheritedKeys →
        ApiConfig.getEndpointForResource resourceType = "/" ++ resourceType)
    ∧ (resourceType ∈ inheritedKeys →
        ApiConfig.getEndpointForResource resourceType = inheritedToString resourceType)
    ∧ ApiConfig.getEndpointForResource "constructor" = "function Object() { [native code] }" := by
  refine ⟨?_, ?_, ?_, ?_, ?_, ?_, rfl⟩
  · intro net net' h
    exact getResources_congr rt self net net' resourceType options h
  · intro net body h
    have hreq := makeRequest_of_status self net _ 500 body h (by decide)
    simp only [show (500 : Nat) ≠ 401 by decide, show (500 : Nat) ≠ 403 by decide,
      show (500 : Nat) ≠ 404 by decide, if_false, if_true] at hreq
    exact getResources_of_propagated rt self net resourceType options _ hreq (by decide)
  · intro net h
    have hreq : makeRequest self net (ApiConfig.getEndpointForResource resourceType)
        = .ok (.array []) := by
      simp only [makeRequest, h]
      rfl
    simp only [getResources, hreq]
    split_ifs <;> exact ⟨_, rfl⟩
  · intro path h
    simp only [ApiConfig.getEndpointForResource, h]
  · intro h hn
    simp only [ApiConfig.getEndpointForResource, h, hn, if_false]
  · intro h
    have hnone : ApiConfig.endpoints.lookup resourceType = none := by
      simp only [inheritedKeys, List.mem_cons, List.mem_singleton, List.not_mem_nil,
        or_false] at h
      rcases h with rfl | rfl | rfl | rfl | rfl | rfl | rfl | rfl | rfl | rfl | rfl | rfl <;> rfl
    simp only [ApiConfig.getEndpointForResource, hnone, h, if_true]

theorem C25_getResources_url_witness :
    getResources plainHost { baseUrl := "https://api.test", timeout := 10000, enableLogging := true }
        (fun url => if url = "https://api.test/users" then .response 200 (.ok (.array []))
          else .response 500 (.ok (.scalar .null))) "users"
        { search := some "ann", searchableFields := none, sortField := some "name",
          sortDirection := none, page := some 2, pageSize := some 5 }
      = getResources plainHost
          { baseUrl := "https://api.test", timeout := 10000, enableLogging := true }
          (fun _ => .response 200 (.ok (.array []))) "users"
          { search := some "ann", searchableFields := none, sortField := some "name",
            sortDirection := none, page := some 2, pageSize := some 5 } :=
  (C25_getResources_url plainHost
      { baseUrl := "https://api.test", timeout := 10000, enableLogging := true } "users"
      { search := some "ann", searchableFields := none, sortField := some "name",
        sortDirection := none, page := some 2, pageSize := some 5 }).1 _ _ rfl

/-! ## Logging -/

/-- Claim C28.  For every resource type, options object and underlying data or
response, `getResources` of either provider has the same outcome (the same
envelope or the same failure) with logging enabled as with logging disabled:
the outcome is the one of the method without its calls of `log`.  Only the
console differs: nothing is written with logging disabled, something is with
logging enabled. -/
theorem C28_logging_outcome (rt : Runtime) (fileProvider : FileDataProvider.Provider)
    (httpProvider : Provider) (net : String → FetchResult) (resourceType : String)
    (options : FileDataProvider.QueryOptions) :
    (FileDataProvider.getResourcesLogged rt { fileProvider with enableLogging := true }
        resourceType options).1
      = (FileDataProvider.getResourcesLogged rt { fileProvider with enableLogging := false }
          resourceType options).1
    ∧ (getResourcesLogged rt { httpProvider with enableLogging := true } net
          resourceType options).1
      = (getResourcesLogged rt { httpProvider with enableLogging := false } net
          resourceType options).1
    ∧ (∀ enableLogging : Bool,
        (FileDataProvider.getResourcesLogged rt
            { fileProvider with enableLogging := enableLogging } resourceType options).1
          = FileDataProvider.getResources rt fileProvider resourceType options
        ∧ (getResourcesLogged rt { httpProvider with enableLogging := enableLogging } net
              resourceType options).1
          = getResources rt httpProvider net resourceType options)
    ∧ (FileDataProvider.getResourcesLogged rt { fileProvider with enableLogging := false }
          resourceType options).2 = []
    ∧ (getResourcesLogged rt { httpProvider with enableLogging := false } net
          resourceType options).2 = []
    ∧ (FileDataProvider.getResourcesLogged rt { fileProvider with enableLogging := true }
          resourceType options).2 ≠ []
    ∧ (getResourcesLogged rt { httpProvider with enableLogging := true } net
          resourceType options).2 ≠ [] := by
  have hfile : ∀ enableLogging : Bool,
      (FileDataProvider.getResourcesLogged rt
          { fileProvider with enableLogging := enableLogging } resourceType options).1
        = FileDataProvider.getResources rt fileProvider resourceType options := by
    intro b
    simp only [FileDataProvider.getResourcesLogged, FileDataProvider.getResources,
      FileDataProvider.getDataSource]
    cases fileProvider.dataSources.lookup resourceType with
    | none => dsimp only; split_ifs <;> rfl
    | some data => dsimp only; split_ifs <;> rfl
  have hreq : ∀ (enableLogging : Bool) (endpoint : String),
      makeRequest { httpProvider with enableLogging := enableLogging } net endpoint
        = makeRequest httpProvider net endpoint := fun _ _ => rfl
  have hhttp : ∀ enableLogging : Bool,
      (getResourcesLogged rt { httpProvider with enableLogging := enableLogging } net
          resourceType options).1
        = getResources rt httpProvider net resourceType options := by
    intro b
    simp only [getResourcesLogged, getResources, hreq]
    cases makeRequest httpProvider net (ApiConfig.getEndpointForResource resourceType) with
    | error e => dsimp only; split_ifs <;> rfl
    | ok response =>
      cases response with
      | array items => dsimp only; split_ifs <;> rfl
      | object fields => dsimp only; split_ifs <;> rfl
      | scalar v => dsimp only; split_ifs <;> rfl
  have hlogF : ∀ level message : String,
      log { httpProvider with enableLogging := false } level message = [] := fun _ _ => rfl
  have hlogT : ∀ level message : String,
      log { httpProvider with enableLogging := true } level message
        = [{ level := level, message := message }] := fun _ _ => rfl
  have hflogF : ∀ level message : String,
      FileDataProvider.log { fileProvider with enableLogging := false } level message = [] :=
    fun _ _ => rfl
  have hflogT : ∀ level message : String,
      FileDataProvider.log { fileProvider with enableLogging := true } level message
        = [{ level := level, message := message }] := fun _ _ => rfl
  have hsrc : ∀ enableLogging : Bool,
      FileDataProvider.getDataSource { fileProvider with enableLogging := enableLogging }
          resourceType
        = FileDataProvider.getDataSource fileProvider resourceType := fun _ => rfl
  refine ⟨(hfile true).trans (hfile false).symm, (hhttp true).trans (hhttp false).symm,
    fun b => ⟨hfile b, hhttp b⟩, ?_, ?_, ?_, ?_⟩
  · simp only [FileDataProvider.getResourcesLogged, hflogF, hsrc, List.append_nil]
    cases FileDataProvider.getDataSource fileProvider resourceType with
    | error e => rfl
    | ok v =>
      cases v with
      | inherited key => rfl
      | collection data => dsimp only; split_ifs <;> rfl
  · simp only [getResourcesLogged, hlogF, hreq, List.append_nil]
    cases makeRequest httpProvider net (ApiConfig.getEndpointForResource resourceType) with
    | error e => dsimp only; split_ifs <;> rfl
    | ok response =>
      cases response with
      | array items => dsimp only; split_ifs <;> rfl
      | object fields => dsimp only; split_ifs <;> rfl
      | scalar v => dsimp only; split_ifs <;> rfl
  · simp only [FileDataProvider.getResourcesLogged, hflogT, hsrc]
    cases FileDataProvider.getDataSource fileProvider resourceType with
    | error e => simp
    | ok v =>
      cases v with
      | inherited key => simp
      | collection data => simp
  · simp only [getResourcesLogged, hlogT, hreq]
    cases makeRequest httpProvider net (ApiConfig.getEndpointForResource resourceType) with
    | error e => dsimp only; split_ifs <;> simp
    | ok response =>
      cases response with
      | array items => dsimp only; split_ifs <;> simp
      | object fields => simp [isNullish]
      | scalar v =>
        by_cases hn : isNullish (.scalar v) = true
        · simp only [hn, if_true]
          split_ifs <;> simp
        · simp [hn]

end HttpDataProvider

namespace DataService

open Js

/-! ## `searchResources` -/

theorem slice_first_ten {α : Type} (xs : List α) : Js.slice xs ((1 - 1) * 10) ((1 - 1) * 10 + 10)
    = xs.take 10 := by
  rw [slice_eq_take_drop _ _ _ (by decide) (by decide)]
  rfl

/-- Claim C26.  With the file provider active and `resourceType` a registered
collection, `searchResources` resolves to the first ten records, in the order of
the collection, of the records that `filterData` keeps for the search term and
the fields: to all of them exactly when at most ten records match, and to ten
records when more do. -/
theorem C26_searchResources_first_page (rt : Runtime) (net : String → FetchResult) (s : State)
    (provider : FileDataProvider.Provider) (resourceType : String) (data : List Record)
    (searchTerm : Option String) (searchableFields : Option (List String))
    (hcur : s.currentProvider = some (.file provider))
    (hsrc : FileDataProvider.getDataSource provider resourceType = .ok (.collection data)) :
    searchResources rt net s resourceType searchTerm searchableFields
      = .file (.ok ((FileDataProvider.filterData data searchTerm
          (some (searchableFields.getD []))).take 10))
    ∧ (searchResources rt net s resourceType searchTerm searchableFields
        = .file (.ok (FileDataProvider.filterData data searchTerm
            (some (searchableFields.getD []))))
      ↔ (FileDataProvider.filterData data searchTerm
          (some (searchableFields.getD []))).length ≤ 10)
    ∧ (10 < (FileDataProvider.filterData data searchTerm
          (some (searchableFields.getD []))).length →
        ∃ found, searchResources rt net s resourceType searchTerm searchableFields
            = .file (.ok found) ∧ found.length = 10) := by
  have key : searchResources rt net s resourceType searchTerm searchableFields
      = .file (.ok ((FileDataProvider.filterData data searchTerm
          (some (searchableFields.getD []))).take 10)) := by
    simp only [searchResources, getResources, hcur, FileDataProvider.getResources, hsrc,
      show FileDataProvider.strTruthy none = false from rfl,
      FileDataProvider.paginateData, Option.getD_none,
      Bool.false_eq_true, if_false, slice_first_ten]
    by_cases ht : FileDataProvider.strTruthy searchTerm = true
    · simp only [ht, if_true]
    · have hf : FileDataProvider.strTruthy searchTerm = false := by simpa using ht
      simp only [hf, Bool.false_eq_true, if_false]
      rw [FileDataProvider.filterData_of_falsy _ _ _ hf]
  refine ⟨key, ?_, ?_⟩
  · rw [key]
    constructor
    · intro h
      have h2 : (FileDataProvider.filterData data searchTerm
          (some (searchableFields.getD []))).take 10
            = FileDataProvider.filterData data searchTerm (some (searchableFields.getD [])) := by
        simpa using h
      exact List.take_eq_self_iff _ |>.mp h2
    · intro h
      rw [List.take_of_length_le h]
  · intro h
    refine ⟨_, key, ?_⟩
    rw [List.length_take]
    omega

/-- Eleven users match the term `"user"`; with the file provider active,
`searchResources` returns ten of them. -/
theorem C26_searchResources_first_page_witness :
    (FileDataProvider.filterData
        ((List.range 11).map (fun i => [("id", Value.num i), ("name", Value.str "user")]))
        (some "user") (some [])).length = 11
    ∧ ∃ found,
        searchResources plainHost (fun _ => .rejected (newError "offline"))
            (construct []
              ((List.range 11).map (fun i => [("id", Value.num i), ("name", Value.str "user")]))
              { baseUrl := "https://api.test", timeout := 10000 } none .undefined)
            "users" (some "user") none
          = .file (.ok found)
        ∧ found.length = 10 :=
  ⟨by decide,
   (C26_searchResources_first_page plainHost (fun _ => .rejected (newError "offline"))
      (construct []
        ((List.range 11).map (fun i => [("id", Value.num i), ("name", Value.str "user")]))
        { baseUrl := "https://api.test", timeout := 10000 } none .undefined)
      (FileDataProvider.create []
        ((List.range 11).map (fun i => [("id", Value.num i), ("name", Value.str "user")]))
        { delay := some 0, enableLogging := some true })
      "users" _ (some "user") none rfl rfl).2.2 (by decide)⟩

end DataService

namespace HttpDataProvider

open Js

/-! ## What sorting and filtering keep -/

theorem http_sortData_perm (rt : Runtime) (data : List Record) (field dir : Option String) :
    (sortData rt data field dir).Perm data := by
  unfold sortData
  cases field with
  | none => exact List.Perm.refl _
  | some f =>
    by_cases hf : (f == "") = true
    · simp [hf]
    · simp only [hf]
      exact arraySort_perm _ _

/-- Claim C29.  For every list of records, every sort field and every direction,
the output of `sortData` of either provider is a permutation of its input: it
has the same length and holds every record as many times as the input does,
whatever values the sort field has. -/
theorem C29_sortData_permutation (rt : Runtime) (data : List Record)
    (sortField sortDirection : Option String) :
    (FileDataProvider.sortData rt data sortField sortDirection).Perm data
    ∧ (sortData rt data sortField sortDirection).Perm data
    ∧ (FileDataProvider.sortData rt data sortField sortDirection).length = data.length
    ∧ (sortData rt data sortField sortDirection).length = data.length
    ∧ (∀ r : Record,
        (FileDataProvider.sortData rt data sortField sortDirection).count r = data.count r
        ∧ (sortData rt data sortField sortDirection).count r = data.count r) := by
  have hF := FileDataProvider.sortData_perm rt data sortField sortDirection
  have hH := http_sortData_perm rt data sortField sortDirection
  exact ⟨hF, hH, hF.length_eq, hH.length_eq, fun r => ⟨hF.countP_eq _, hH.countP_eq _⟩⟩

/-- Claim C30.  For every list of records, search term and list of searchable
fields, the output of `filterData` of either provider is a sublist of its input
(the kept records are input records in their input order), and filtering the
output again with the same term and fields changes nothing. -/
theorem C30_filterData_sublist_idempotent (R : List Record) (t : Option String)
    (F : Option (List String)) :
    List.Sublist (FileDataProvider.filterData R t F) R
    ∧ List.Sublist (filterData R t F) R
    ∧ FileDataProvider.filterData (FileDataProvider.filterData R t F) t F
        = FileDataProvider.filterData R t F
    ∧ filterData (filterData R t F) t F = filterData R t F := by
  refine ⟨?_, ?_, ?_, ?_⟩
  · unfold FileDataProvider.filterData
    cases t with
    | none => exact List.Sublist.refl _
    | some s =>
      by_cases h : (s == "" || trim s == "") = true
      · simp only [h, if_true]; exact List.Sublist.refl _
      · simp only [h]; exact List.filter_sublist _
  · unfold filterData
    cases t with
    | none => exact List.Sublist.refl _
    | some s =>
      by_cases h : (s == "" || trim s == "") = true
      · simp only [h, if_true]; exact List.Sublist.refl _
      · simp only [h]; exact List.filter_sublist _
  · unfold FileDataProvider.filterData
    cases t with
    | none => rfl
    | some s =>
      by_cases h : (s == "" || trim s == "") = true
      · simp only [h, if_true]
      · simp only [h, List.filter_filter, Bool.and_self]
        simp
  · unfold filterData
    cases t with
    | none => rfl
    | some s =>
      by_cases h : (s == "" || trim s == "") = true
      · simp only [h, if_true]
      · simp only [h, List.filter_filter, Bool.and_self]
        simp

end HttpDataProvider
